import Mathlib

/-!
# dockboy: the deployment-and-wait engine

A shallow embedding of `dockerhelper/deploy.go`.

* Go maps are association lists; the order of the list is the order in which
  `range` happens to visit the map.
* A Go `error` is its message; `nil` is `none`.
* The `io.Writer` is the list of strings written to it, one per `Fprintf`.
* The control plane that answers the reconciling calls is a record of
  state-passing functions over an arbitrary state type.  While a deploy waits,
  the control plane moves on its own, so every wake-up of a goroutine carries
  what the control plane answers at that moment.
* Every call made on the docker client is appended to a trace.
-/

namespace Dockboy

/-! ## Constants of the docker API packages -/

/-- The Go type `swarm.UpdateState` is a string type. -/
abbrev UpdateState := String

def UpdateStateUpdating : UpdateState := "updating"
def UpdateStatePaused : UpdateState := "paused"
def UpdateStateCompleted : UpdateState := "completed"
def UpdateStateRollbackStarted : UpdateState := "rollback_started"
def UpdateStateRollbackPaused : UpdateState := "rollback_paused"
def UpdateStateRollbackCompleted : UpdateState := "rollback_completed"

def UpdateOrderStopFirst : String := "stop-first"
def UpdateOrderStartFirst : String := "start-first"

def UpdateFailureActionPause : String := "pause"
def UpdateFailureActionRollback : String := "rollback"

def TaskStateFailed : String := "failed"
def TaskStateRejected : String := "rejected"

/-- Nanoseconds in `time.Second`. -/
def Second : Nat := 1000000000

/-! ## Data model -/

/-- A Go `map[K]V`, listed in the order `range` visits it. -/
abbrev GoMap (κ ν : Type) := List (κ × ν)

/-- A Go `[]byte`; every element is the value of one byte. -/
abbrev Bytes := List Nat

/-- Reading `m[k]` on a `map[string]string`: the zero value when `k` is absent. -/
def GoMap.get (m : GoMap String String) (k : String) : String :=
  match m.find? (fun kv => kv.1 == k) with
  | some kv => kv.2
  | none => ""

structure HealthConfig where
  Test : List String
  Interval : Int
  Timeout : Int
  Retries : Int
  StartPeriod : Int
deriving DecidableEq

structure Mount where
  Type_ : String
  Source : String
  Target : String
deriving DecidableEq

structure SecretReferenceFileTarget where
  Name : String
  UID : String
  GID : String
  Mode : Nat
deriving DecidableEq

structure SecretReference where
  SecretID : String
  SecretName : String
  File : SecretReferenceFileTarget
deriving DecidableEq

structure NetworkAttachmentConfig where
  Target : String
deriving DecidableEq

structure Driver where
  Name : String
  Options : GoMap String String
deriving DecidableEq

structure ContainerSpec where
  Image : String
  Env : List String
  Secrets : List SecretReference
  Healthcheck : Option HealthConfig
  Mounts : List Mount
deriving DecidableEq

structure TaskSpec where
  ContainerSpec : Dockboy.ContainerSpec
  Networks : List NetworkAttachmentConfig
  LogDriver : Driver
deriving DecidableEq

/-- The type `swarm.UpdateConfig`; `MaxFailureRatio` is only ever the literal `0.0`,
kept as the number 0, and `Monitor` is in nanoseconds. -/
structure UpdateConfig where
  Parallelism : Nat
  FailureAction : String
  MaxFailureRatio : Nat
  Monitor : Nat
  Order : String
deriving DecidableEq

structure ServiceSpec where
  Name : String
  Labels : GoMap String String
  TaskTemplate : TaskSpec
  Replicas : Nat
  UpdateConfig : Dockboy.UpdateConfig
  RollbackConfig : Dockboy.UpdateConfig
deriving DecidableEq

structure UpdateStatus where
  State : UpdateState
  Message : String
deriving DecidableEq

/-- The fields of `swarm.Service` the engine reads: `Name` is `Spec.Name`,
`Version` is `Version.Index`, `UpdateStatus` is a pointer that may be nil. -/
structure Service where
  ID : String
  Version : Nat
  Name : String
  UpdateStatus : Option UpdateStatus
deriving DecidableEq

/-- The fields of `swarm.Task` the engine reads: `State` and `Err` are those of
`Status`; `CreatedAt` counts from the zero `time.Time`. -/
structure Task where
  ID : String
  CreatedAt : Int
  State : String
  Err : String
deriving DecidableEq

/-- The zero value of `swarm.Task`. -/
def Task.zero : Task := { ID := "", CreatedAt := 0, State := "", Err := "" }

structure HealthcheckResult where
  Output : String
deriving DecidableEq

structure Health where
  Status : String
  Log : List HealthcheckResult
deriving DecidableEq

/-- The part of `types.ContainerJSON` the engine reads: `State.Health`, a pointer
that may be nil. -/
structure ContainerJSON where
  Health : Option Health
deriving DecidableEq

/-- An `events.Message`: its action, and the id and attributes of its actor. -/
structure Message where
  Action : String
  ActorID : String
  Attributes : GoMap String String
deriving DecidableEq

/-- One call made on the docker client. -/
inductive Call where
  | secretCreate (name : String) (data : Bytes)
  | serviceList (nameFilter : String)
  | serviceUpdate (id : String) (version : Nat) (spec : ServiceSpec)
  | serviceCreate (spec : ServiceSpec)
  | events
  | serviceInspect (id : String)
  | taskList (serviceID : String)
  | containerInspect (id : String)
deriving DecidableEq

/-- The control plane and the wall clock as one deploy call sees them, over an
arbitrary state `σ`: every operation answers and leaves a next state. -/
structure Client (σ : Type) where
  /-- The value of `time.Now().Unix()`. -/
  unixNow : σ → Int
  /-- The call `SecretCreate`: the new secret id, or an error. -/
  secretCreate : σ → String → Bytes → Except String String × σ
  /-- The call `ServiceList` with a name filter. -/
  serviceList : σ → String → Except String (List Service) × σ
  /-- The call `ServiceUpdate`: an error or nil. -/
  serviceUpdate : σ → String → Nat → ServiceSpec → Option String × σ
  /-- The call `ServiceCreate`: the new service id, or an error. -/
  serviceCreate : σ → ServiceSpec → Except String String × σ

/-- Whether a Go call has returned, and with which error. -/
inductive Resolution where
  | blocked
  | returned (err : Option String)
deriving DecidableEq

/-! ## Helpers of `deploy.go` -/

/-- The function `mapToSlice`: one `k=v` string per entry, in visiting order. -/
def mapToSlice (m : GoMap String String) : List String :=
  m.map (fun kv => kv.1 ++ "=" ++ kv.2)

/-- The function `parseNetworks`. -/
def parseNetworks (networks : List String) : List NetworkAttachmentConfig :=
  networks.map (fun net => { Target := net })

/-- The loop of `createSecrets`, with the references collected so far and the
calls made so far. -/
def createSecretsLoop {σ : Type} (docker : Client σ) :
    GoMap String Bytes → σ → List SecretReference → List Call →
      Except String (List SecretReference) × σ × List Call
  | [], w, refs, calls => (.ok refs, w, calls)
  | (name, data) :: rest, w, refs, calls =>
    let secretName := name ++ "-" ++ toString (docker.unixNow w)
    match docker.secretCreate w secretName data with
    | (.error err, w') =>
      (.error ("creating secret: " ++ err), w', calls ++ [Call.secretCreate secretName data])
    | (.ok id, w') =>
      createSecretsLoop docker rest w'
        (refs ++ [{ SecretID := id, SecretName := secretName,
                    File := { Name := name, UID := "0", GID := "0", Mode := 0o444 } }])
        (calls ++ [Call.secretCreate secretName data])

/-- The function `createSecrets`. -/
def createSecrets {σ : Type} (docker : Client σ) (w : σ) (secrets : GoMap String Bytes) :
    Except String (List SecretReference) × σ × List Call :=
  createSecretsLoop docker secrets w [] []

/-- Modelled from the spec: `FindService` is called by `DeployService` but is not
among the sources.  It looks a service up by exact name match through the list
call with a name filter, once. -/
def FindService {σ : Type} (docker : Client σ) (w : σ) (name : String) :
    Except String (Option Service) × σ × List Call :=
  match docker.serviceList w name with
  | (.error err, w') => (.error err, w', [Call.serviceList name])
  | (.ok services, w') =>
    (.ok (services.find? (fun s => s.Name == name)), w', [Call.serviceList name])

/-- The loop of `getLatestTaskError` over the listed tasks; `latestTask` is the
variable of that name.  The loop is left right after the assignment. -/
def getLatestTaskErrorLoop : List Task → Task → Task
  | [], latestTask => latestTask
  | task :: rest, latestTask =>
    if task.State = TaskStateFailed ∨ task.State = TaskStateRejected then
      if latestTask.ID = "" ∨ task.CreatedAt > latestTask.CreatedAt then
        task
      else getLatestTaskErrorLoop rest latestTask
    else getLatestTaskErrorLoop rest latestTask

/-- The function `getLatestTaskError`, given the answer of `TaskList`. -/
def getLatestTaskError (tasks : Except String (List Task)) : Except String String :=
  match tasks with
  | .error err => .error ("listing tasks: " ++ err)
  | .ok ts => .ok (getLatestTaskErrorLoop ts Task.zero).Err

/-- The function `getHealthCheckError`, given the answer of `ContainerInspect`. -/
def getHealthCheckError (inspect : Except String ContainerJSON) : Except String String :=
  match inspect with
  | .error err => .error ("inspecting container: " ++ err)
  | .ok container =>
    match container.Health with
    | none => .ok ""
    | some health =>
      if health.Status ≠ "unhealthy" then .ok ""
      else if health.Log.length = 0 then .ok ""
      else
        match health.Log.get? (health.Log.length - 1) with
        | some r => .ok r.Output
        | none => .error "index out of range"

/-! ## The rollout monitor -/

/-- What one pass through the ticker case of `checkService` does: the lines it
writes, the calls it makes, the value of `lastState` afterwards, whether it ran
`close(done)` and whether it returned from the function. -/
structure TickOutcome where
  lines : List String
  calls : List Call
  lastState : UpdateState
  closed : Bool
  returned : Bool
deriving DecidableEq

/-- The ticker case of the loop of `checkService`: `inspect` is the answer of
`ServiceInspectWithRaw` and `tasks` the answer `TaskList` gives if it is asked. -/
def checkServiceTick (serviceID : String) (lastState : UpdateState)
    (inspect : Except String Service) (tasks : Except String (List Task)) : TickOutcome :=
  match inspect with
  | .error err =>
    { lines := ["dockboy: service inspection error: " ++ err ++ "\n"],
      calls := [Call.serviceInspect serviceID],
      lastState := lastState, closed := false, returned := false }
  | .ok service =>
    match service.UpdateStatus with
    | none =>
      { lines := [], calls := [Call.serviceInspect serviceID],
        lastState := lastState, closed := false, returned := false }
    | some status =>
      if status.State ≠ lastState then
        if status.State = UpdateStateCompleted then
          { lines := ["dockboy: service '" ++ service.Name ++ "' updated successfully.\n"],
            calls := [Call.serviceInspect serviceID],
            lastState := lastState, closed := true, returned := true }
        else if status.State = UpdateStatePaused then
          { lines := ["dockboy: service '" ++ service.Name ++ "' update paused.\n"],
            calls := [Call.serviceInspect serviceID],
            lastState := lastState, closed := true, returned := true }
        else if status.State = UpdateStateRollbackCompleted then
          if lastState = UpdateStateRollbackStarted ∨ lastState = UpdateStateRollbackPaused then
            { lines := ["dockboy: service '" ++ service.Name ++ "' rolled back successfully.\n"],
              calls := [Call.serviceInspect serviceID],
              lastState := lastState, closed := true, returned := true }
          else
            { lines := [], calls := [Call.serviceInspect serviceID],
              lastState := status.State, closed := false, returned := false }
        else if status.State = UpdateStateRollbackPaused then
          { lines := ["dockboy: service '" ++ service.Name ++ "' rollback paused.\n"],
            calls := [Call.serviceInspect serviceID],
            lastState := lastState, closed := true, returned := true }
        else if status.State = UpdateStateRollbackStarted then
          { lines :=
              ["dockboy: service '" ++ service.Name ++ "' update failed, rolling back. message: "
                ++ status.Message ++ "\n",
               match getLatestTaskError tasks with
               | .error err => "dockboy: failed to get task error: " ++ err ++ "\n"
               | .ok taskErr => "dockboy: task error: " ++ taskErr ++ "\n"],
            calls := [Call.serviceInspect serviceID, Call.taskList serviceID],
            lastState := status.State, closed := false, returned := false }
        else
          { lines := [], calls := [Call.serviceInspect serviceID],
            lastState := status.State, closed := false, returned := false }
      else
        { lines := [], calls := [Call.serviceInspect serviceID],
          lastState := lastState, closed := false, returned := false }

/-- What wakes the `select` of `checkService`: the context is done, or the
ticker fires and the control plane then answers as given. -/
inductive CheckEvent where
  | ctxDone
  | tick (inspect : Except String Service) (tasks : Except String (List Task))

/-- The state of one call of `checkService`: what it has written and called so
far, its `lastState`, how often it ran `close(done)`, how many polls it made and
whether it has returned. -/
structure CheckRun where
  out : List String
  calls : List Call
  lastState : UpdateState
  closes : Nat
  polls : Nat
  returned : Bool
deriving DecidableEq

/-- The state in which `checkService` enters its loop: `lastState` is the zero
value of its type. -/
def CheckRun.start : CheckRun :=
  { out := [], calls := [], lastState := "", closes := 0, polls := 0, returned := false }

/-- The state after the ticker case ran in state `st`. -/
def CheckRun.afterTick (st : CheckRun) (r : TickOutcome) : CheckRun :=
  { out := st.out ++ r.lines, calls := st.calls ++ r.calls, lastState := r.lastState,
    closes := st.closes + (if r.closed then 1 else 0), polls := st.polls + 1,
    returned := r.returned }

/-- The loop of `checkService` over the wake-ups it gets, from state `st`.  When
the wake-ups run out the goroutine sits in its `select`. -/
def checkServiceLoop (serviceID : String) : List CheckEvent → CheckRun → CheckRun
  | [], st => st
  | CheckEvent.ctxDone :: _, st => { st with returned := true }
  | CheckEvent.tick inspect tasks :: rest, st =>
    let st' := st.afterTick (checkServiceTick serviceID st.lastState inspect tasks)
    if st'.returned then st' else checkServiceLoop serviceID rest st'

/-- The function `checkService`. -/
def checkService (serviceID : String) (events : List CheckEvent) : CheckRun :=
  checkServiceLoop serviceID events CheckRun.start

/-! ## The event watcher -/

/-- The function `handleEvent`: the lines written and the calls made; `inspect`
is the answer `ContainerInspect` gives if it is asked. -/
def handleEvent (event : Message) (serviceID : String)
    (inspect : Except String ContainerJSON) : List String × List Call :=
  if event.Attributes.get "com.docker.swarm.service.id" ≠ serviceID then ([], [])
  else if event.Action = "create" then
    (["swarm: creating container " ++ event.Attributes.get "name" ++ "...\n"], [])
  else if event.Action = "start" then
    (["swarm: starting container " ++ event.Attributes.get "name" ++ "...\n"], [])
  else if event.Action = "die" then
    (["swarm: container " ++ event.Attributes.get "name" ++ " stopped.\n"], [])
  else if event.Action = "health_status: healthy" then
    (["swarm: container " ++ event.Attributes.get "name" ++ " is healthy.\n"], [])
  else if event.Action = "health_status: unhealthy" then
    (["swarm: container " ++ event.Attributes.get "name" ++ " is unhealthy.\n"] ++
      (match getHealthCheckError inspect with
       | .ok message =>
         if message ≠ "" then ["dockboy: health check error:\n " ++ message ++ "\n"] else []
       | .error _ => []),
     [Call.containerInspect event.ActorID])
  else ([], [])

/-- What wakes the `select` of `monitorEvents`: a message of the feed (with the
answer `ContainerInspect` gives if asked), a value of the error channel (which
may be nil), or the context is done. -/
inductive WatchEvent where
  | message (msg : Message) (inspect : Except String ContainerJSON)
  | feedError (err : Option String)
  | ctxDone

/-- One pass through the `select` of `monitorEvents` for a message or an error
value: the lines written and the calls made. -/
def monitorEventsStep (serviceID : String) : WatchEvent → List String × List Call
  | WatchEvent.message msg inspect => handleEvent msg serviceID inspect
  | WatchEvent.feedError (some err) => (["dockboy: event error: " ++ err ++ "\n"], [])
  | WatchEvent.feedError none => ([], [])
  | WatchEvent.ctxDone => ([], [])

/-- The state of one call of `monitorEvents`. -/
structure WatchRun where
  out : List String
  calls : List Call
  returned : Bool
deriving DecidableEq

/-- The loop of `monitorEvents` over the wake-ups it gets. -/
def monitorEventsLoop (serviceID : String) : List WatchEvent → WatchRun → WatchRun
  | [], st => st
  | WatchEvent.ctxDone :: _, st => { st with returned := true }
  | ev :: rest, st =>
    let r := monitorEventsStep serviceID ev
    monitorEventsLoop serviceID rest { st with out := st.out ++ r.1, calls := st.calls ++ r.2 }

/-- The function `monitorEvents`. -/
def monitorEvents (serviceID : String) (events : List WatchEvent) : WatchRun :=
  monitorEventsLoop serviceID events { out := [], calls := [], returned := false }

/-! ## The wait coordinator -/

/-- What can happen while `WaitForService` waits, in the order in which it
happens: the ticker of `checkService` fires, `monitorEvents` receives a message
or an error value, an interrupt or terminate signal reaches `signalChan`, or the
context of the caller is cancelled. -/
inductive WaitEvent where
  | tick (inspect : Except String Service) (tasks : Except String (List Task))
  | message (msg : Message) (inspect : Except String ContainerJSON)
  | feedError (err : Option String)
  | signal
  | ctxDone

/-- The state of one call of `WaitForService` and of its two goroutines: the
lines written, the calls made, `lastState` of `checkService`, how often
`close(done)` ran, the polls made, whether `checkService` returned, whether
`cancel` ran, and how the call resolved. -/
structure WaitRun where
  out : List String
  calls : List Call
  lastState : UpdateState
  doneCloses : Nat
  polls : Nat
  monitorReturned : Bool
  cancelled : Bool
  result : Resolution
deriving DecidableEq

/-- The state of `WaitForService` when it reaches its `select`: the event feed
is subscribed and both goroutines are started. -/
def WaitRun.start : WaitRun :=
  { out := [], calls := [Call.events], lastState := "", doneCloses := 0, polls := 0,
    monitorReturned := false, cancelled := false, result := Resolution.blocked }

/-- The run of `WaitForService` over what happens while it waits.  The `select`
returns nil once `done` is closed, an error on a signal or on a cancelled
context; the deferred `cancel` runs on every return. -/
def WaitForServiceLoop (serviceID : String) : List WaitEvent → WaitRun → WaitRun
  | [], st => st
  | WaitEvent.signal :: _, st =>
    { st with cancelled := true, result := Resolution.returned (some "deployment cancelled") }
  | WaitEvent.ctxDone :: _, st =>
    { st with cancelled := true, result := Resolution.returned (some "context cancelled") }
  | WaitEvent.message msg inspect :: rest, st =>
    let r := monitorEventsStep serviceID (WatchEvent.message msg inspect)
    WaitForServiceLoop serviceID rest { st with out := st.out ++ r.1, calls := st.calls ++ r.2 }
  | WaitEvent.feedError err :: rest, st =>
    let r := monitorEventsStep serviceID (WatchEvent.feedError err)
    WaitForServiceLoop serviceID rest { st with out := st.out ++ r.1, calls := st.calls ++ r.2 }
  | WaitEvent.tick inspect tasks :: rest, st =>
    if st.monitorReturned then WaitForServiceLoop serviceID rest st
    else
      let r := checkServiceTick serviceID st.lastState inspect tasks
      let st' : WaitRun :=
        { st with out := st.out ++ r.lines, calls := st.calls ++ r.calls,
                  lastState := r.lastState,
                  doneCloses := st.doneCloses + (if r.closed then 1 else 0),
                  polls := st.polls + 1, monitorReturned := r.returned }
      if 0 < st'.doneCloses then
        { st' with cancelled := true, result := Resolution.returned none }
      else WaitForServiceLoop serviceID rest st'

/-- The function `WaitForService`. -/
def WaitForService (serviceID : String) (events : List WaitEvent) : WaitRun :=
  WaitForServiceLoop serviceID events WaitRun.start

/-! ## Deploying -/

/-- The literal `spec` that `DeployService` builds. -/
def serviceSpec (name image : String) (replicas : Nat) (networks : List String)
    (env labels : GoMap String String) (secretRefs : List SecretReference)
    (healthcheck : Option HealthConfig) (mounts : List Mount) (order : String) : ServiceSpec :=
  { Name := name,
    Labels := labels,
    TaskTemplate :=
      { ContainerSpec :=
          { Image := image, Env := mapToSlice env, Secrets := secretRefs,
            Healthcheck := healthcheck, Mounts := mounts },
        Networks := parseNetworks networks,
        LogDriver := { Name := "local", Options := [("max-size", "100m"), ("max-file", "3")] } },
    Replicas := replicas,
    UpdateConfig :=
      { Parallelism := 1, FailureAction := UpdateFailureActionRollback, MaxFailureRatio := 0,
        Monitor := 10 * Second, Order := order },
    RollbackConfig :=
      { Parallelism := 1, FailureAction := UpdateFailureActionPause, MaxFailureRatio := 0,
        Monitor := 10 * Second, Order := order } }

/-- What one call of `DeployService` did: how it resolved, the control plane it
left, the lines it wrote, the calls it made, and the run of `WaitForService` if
that was called. -/
structure DeployRun (σ : Type) where
  result : Resolution
  world : σ
  out : List String
  calls : List Call
  wait : Option WaitRun

/-- The tail of `DeployService`: the call of `WaitForService` on `serviceID`. -/
def DeployService.wait {σ : Type} (w : σ) (out : List String) (calls : List Call)
    (serviceID : String) (events : List WaitEvent) : DeployRun σ :=
  let r := WaitForService serviceID events
  { result := r.result, world := w, out := out ++ r.out, calls := calls ++ r.calls,
    wait := some r }

/-- The function `DeployService` on control plane `docker` in state `w`; `events`
is what happens while it waits. -/
def DeployService {σ : Type} (docker : Client σ) (w : σ) (name image : String)
    (replicas : Nat) (networks : List String) (env labels : GoMap String String)
    (secrets : GoMap String Bytes) (healthcheck : Option HealthConfig) (mounts : List Mount)
    (order : String) (events : List WaitEvent) : DeployRun σ :=
  if order ≠ UpdateOrderStartFirst ∧ order ≠ UpdateOrderStopFirst then
    { result := Resolution.returned (some ("invalid order: " ++ order)),
      world := w, out := [], calls := [], wait := none }
  else
    match createSecrets docker w secrets with
    | (.error err, w1, c1) =>
      { result := Resolution.returned (some err), world := w1, out := [], calls := c1,
        wait := none }
    | (.ok secretRefs, w1, c1) =>
      let spec := serviceSpec name image replicas networks env labels secretRefs healthcheck
        mounts order
      match FindService docker w1 name with
      | (.error err, w2, c2) =>
        { result := Resolution.returned (some err), world := w2, out := [], calls := c1 ++ c2,
          wait := none }
      | (.ok (some existingService), w2, c2) =>
        match docker.serviceUpdate w2 existingService.ID existingService.Version spec with
        | (some err, w3) =>
          { result := Resolution.returned (some ("service update failed: " ++ err)),
            world := w3, out := ["dockboy: updating service '" ++ name ++ "'...\n"],
            calls := c1 ++ c2 ++
              [Call.serviceUpdate existingService.ID existingService.Version spec],
            wait := none }
        | (none, w3) =>
          DeployService.wait w3 ["dockboy: updating service '" ++ name ++ "'...\n"]
            (c1 ++ c2 ++ [Call.serviceUpdate existingService.ID existingService.Version spec])
            existingService.ID events
      | (.ok none, w2, c2) =>
        match docker.serviceCreate w2 spec with
        | (.error err, w3) =>
          { result := Resolution.returned (some ("service creation failed: " ++ err)),
            world := w3, out := ["dockboy: creating service '" ++ name ++ "'...\n"],
            calls := c1 ++ c2 ++ [Call.serviceCreate spec], wait := none }
        | (.ok id, w3) =>
          DeployService.wait w3 ["dockboy: creating service '" ++ name ++ "'...\n"]
            (c1 ++ c2 ++ [Call.serviceCreate spec]) id events

/-! ## A reference control plane -/

/-- A control plane with the behaviour the engine relies on: it keeps the
services and secrets it was given and a clock. -/
structure Plane where
  services : List Service
  secrets : List (String × Bytes)
  clock : Int
deriving DecidableEq

/-- The control plane with nothing on it. -/
def Plane.empty : Plane := { services := [], secrets := [], clock := 0 }

/-- The client of a `Plane`.  Creating a secret or a service stores it under a
fresh id; listing with a name filter returns the services whose name starts with
the filter; an update is accepted when id and version match a stored service and
then moves that service to its next version. -/
def Plane.client : Client Plane where
  unixNow p := p.clock
  secretCreate p name data :=
    (.ok ("secret-" ++ toString p.secrets.length), { p with secrets := p.secrets ++ [(name, data)] })
  serviceList p nameFilter :=
    (.ok (p.services.filter (fun s => nameFilter.toList.isPrefixOf s.Name.toList)), p)
  serviceUpdate p id version _spec :=
    if p.services.any (fun s => s.ID == id && s.Version == version) then
      (none,
        { p with services := p.services.map (fun s =>
            if s.ID == id then { s with Version := s.Version + 1 } else s) })
    else (some "update out of sequence", p)
  serviceCreate p spec :=
    if p.services.any (fun s => s.Name == spec.Name) then
      (.error ("name conflicts with an existing object: " ++ spec.Name), p)
    else
      (.ok ("service-" ++ toString p.services.length),
        { p with services := p.services ++
            [{ ID := "service-" ++ toString p.services.length, Version := 0,
               Name := spec.Name, UpdateStatus := none }] })

/-- Whether a wake-up of `checkService` is a successful poll whose update status
is present and reports `state`. -/
def CheckEvent.reports (state : UpdateState) : CheckEvent → Bool
  | CheckEvent.tick (.ok service) _ =>
    match service.UpdateStatus with
    | some status => status.State == state
    | none => false
  | _ => false

/-- Whether a wake-up of `checkService` is a poll that observes no update state:
the inspection fails, or the service has no update status. -/
def CheckEvent.quiet : CheckEvent → Bool
  | CheckEvent.tick (.error _) _ => true
  | CheckEvent.tick (.ok service) _ => service.UpdateStatus.isNone
  | CheckEvent.ctxDone => false

/-- The inspection-error line of a wake-up, if it is a failed poll. -/
def CheckEvent.errorLine : CheckEvent → List String
  | CheckEvent.tick (.error err) _ => ["dockboy: service inspection error: " ++ err ++ "\n"]
  | _ => []

/-- A service as an inspection returns it, named `name`, reporting update state
`state` with message `msg`. -/
def sampleService (name : String) (state : UpdateState) (msg : String) : Service :=
  { ID := "svc", Version := 1, Name := name,
    UpdateStatus := some { State := state, Message := msg } }

/-- The poll of `checkService` that finds `sampleService name state ""`; the task
list is empty. -/
def poll (name : String) (state : UpdateState) : CheckEvent :=
  CheckEvent.tick (.ok (sampleService name state "")) (.ok [])

/-- Two failed inspections, with what `TaskList` would answer at that moment. -/
def twoFailures : List (String × Except String (List Task)) :=
  [("timeout", .ok []), ("refused", .error "down")]

/-- The wake-up of `WaitForService` in which the ticker fires and the inspection
finds `sampleService name state ""`; the task list is empty. -/
def waitPoll (name : String) (state : UpdateState) : WaitEvent :=
  WaitEvent.tick (.ok (sampleService name state "")) (.ok [])

/-- An update state after which `checkService` goes on polling when it records
it: none of `completed`, `paused`, `rollback_paused`. -/
def UpdateState.recordable (state : UpdateState) : Prop :=
  state ≠ UpdateStateCompleted ∧ state ≠ UpdateStatePaused ∧ state ≠ UpdateStateRollbackPaused

instance (state : UpdateState) : Decidable (UpdateState.recordable state) := by
  unfold UpdateState.recordable
  infer_instance

/-- Whether a task is in state `failed` or `rejected`. -/
def Task.failedOrRejected (t : Task) : Bool :=
  t.State == TaskStateFailed || t.State == TaskStateRejected

/-- What C8 asks of `getLatestTaskError`, in its words: the error text of the
failed or rejected task with the greatest creation time, and the empty string
when no task is in either state. -/
def mostRecentFailedTaskErr (tasks : List Task) : String :=
  match (tasks.filter Task.failedOrRejected).foldl
      (fun best t =>
        match best with
        | none => some t
        | some b => if t.CreatedAt > b.CreatedAt then some t else some b)
      none with
  | some t => t.Err
  | none => ""

/-- Two failed tasks of one service, the older one listed first. -/
def failedTwice : List Task :=
  [{ ID := "t1", CreatedAt := 100, State := "failed", Err := "old failure" },
   { ID := "t2", CreatedAt := 200, State := "failed", Err := "new failure" }]

/-- The arguments of `DeployService` that describe the service. -/
structure DeployArgs where
  name : String
  image : String
  replicas : Nat
  networks : List String
  env : GoMap String String
  labels : GoMap String String
  secrets : GoMap String Bytes
  healthcheck : Option HealthConfig
  mounts : List Mount
  order : String

/-- The function `DeployService` applied to bundled arguments. -/
def DeployService.withArgs {σ : Type} (docker : Client σ) (w : σ) (a : DeployArgs)
    (events : List WaitEvent) : DeployRun σ :=
  DeployService docker w a.name a.image a.replicas a.networks a.env a.labels a.secrets
    a.healthcheck a.mounts a.order events

/-- The literal `spec` built from bundled arguments and the created secrets. -/
def DeployArgs.spec (a : DeployArgs) (secretRefs : List SecretReference) : ServiceSpec :=
  serviceSpec a.name a.image a.replicas a.networks a.env a.labels secretRefs a.healthcheck
    a.mounts a.order

/-- Whether a call belongs to the reconciling step: the lookup by name, a create
or an update of a service. -/
def Call.isReconcile : Call → Bool
  | Call.serviceList _ => true
  | Call.serviceUpdate _ _ _ => true
  | Call.serviceCreate _ => true
  | _ => false

/-- A deploy of `web` with three replicas, stop-first, no health check and one
secret. -/
def webArgs : DeployArgs :=
  { name := "web", image := "web:1", replicas := 3, networks := ["dockboy"], env := [],
    labels := [], secrets := [("token", [1, 2])], healthcheck := none, mounts := [],
    order := "stop-first" }

/-! ## The deploy command (`cli/command/app/deploy.go`) -/

/-- The function `strings.HasSuffix`. -/
def strings.HasSuffix (s suffix : String) : Bool :=
  suffix.toList.isSuffixOf s.toList

/-- The function `strings.TrimSuffix`. -/
def strings.TrimSuffix (s suffix : String) : String :=
  if strings.HasSuffix s suffix then
    String.mk (s.toList.take (s.toList.length - suffix.toList.length))
  else s

/-- The conversion `[]byte(s)`: the bytes of the UTF-8 encoding of `s`. -/
def utf8Bytes (s : String) : Bytes :=
  s.toList.flatMap (fun c => (String.utf8EncodeChar c).map UInt8.toNat)

/-- The assignment `m[k] = v` on a `map[string][]byte`: the value of a key that
is present is replaced, a new key is added.  (The order in which a later `range`
visits the map is any order of these entries.) -/
def GoMap.set (m : GoMap String Bytes) (k : String) (v : Bytes) : GoMap String Bytes :=
  if m.any (fun kv => kv.1 == k) then m.map (fun kv => if kv.1 == k then (k, v) else kv)
  else m ++ [(k, v)]

/-- The loop of `parseSecrets`; `res` is the map built so far and `readFile` is
what `os.ReadFile` answers. -/
def parseSecretsLoop (readFile : String → Except String Bytes) :
    GoMap String String → GoMap String Bytes → GoMap String Bytes × Option String
  | [], res => (res, none)
  | (key, value) :: rest, res =>
    if value = "" then parseSecretsLoop readFile rest res
    else if strings.HasSuffix key "_file" then
      match readFile value with
      | .error err => (res, some ("failed to read secret file " ++ value ++ ": " ++ err))
      | .ok content =>
        parseSecretsLoop readFile rest (res.set (strings.TrimSuffix key "_file") content)
    else parseSecretsLoop readFile rest (res.set key (utf8Bytes value))

/-- The function `parseSecrets`: the map and the error it returns. -/
def parseSecrets (readFile : String → Except String Bytes) (secrets : GoMap String String) :
    GoMap String Bytes × Option String :=
  parseSecretsLoop readFile secrets []

/-- The function `parseVolumes`. -/
def parseVolumes (volumes : GoMap String String) : List Mount :=
  volumes.map (fun kv => { Type_ := "volume", Source := kv.1, Target := kv.2 })

/-- The type `config.PublicConfig`. -/
structure config.PublicConfig where
  Address : String
  TargetPort : Int
deriving DecidableEq

/-- The type `config.HealthConfig`; durations are in nanoseconds. -/
structure config.HealthConfig where
  Test : List String
  Interval : Int
  Timeout : Int
  StartInterval : Int
  StartPeriod : Int
  Retries : Int
deriving DecidableEq

/-- The type `config.DeployConfig`. -/
structure config.DeployConfig where
  Order : String
deriving DecidableEq

/-- The fields of `config.Config` that `runDeploy` reads; a field that is not set
in the file holds the zero value of its type. -/
structure config.Config where
  Name : String
  Image : String
  Public : Dockboy.config.PublicConfig
  Replicas : Nat
  Volumes : GoMap String String
  Env : GoMap String String
  Secrets : GoMap String String
  Label : GoMap String String
  Healthcheck : Dockboy.config.HealthConfig
  Deploy : Dockboy.config.DeployConfig
deriving DecidableEq

/-- The arguments with which `runDeploy` calls `DeployService` (lines 57 to 94),
or the error of `parseSecrets` with which it returns before that call.  The
names of the internal and of the public network are constants of `dockerhelper`
that are not among the sources; they are parameters here. -/
def runDeployArgs (DockboyInternalNetwork DockboyPublicNetwork : String)
    (readFile : String → Except String Bytes) (conf : config.Config) : Except String DeployArgs :=
  let replicas := if conf.Replicas = 0 then 1 else conf.Replicas
  let networks :=
    if conf.Public.Address ≠ "" then [DockboyInternalNetwork] ++ [DockboyPublicNetwork]
    else [DockboyInternalNetwork]
  match parseSecrets readFile conf.Secrets with
  | (_, some err) => .error err
  | (secrets, none) =>
    let healthCheck : Option Dockboy.HealthConfig :=
      if conf.Healthcheck.Test.length > 0 then
        some { Test := conf.Healthcheck.Test, Interval := conf.Healthcheck.Interval,
               Timeout := conf.Healthcheck.Timeout, Retries := conf.Healthcheck.Retries,
               StartPeriod := conf.Healthcheck.StartPeriod }
      else none
    let mounts := parseVolumes conf.Volumes
    let order := if conf.Deploy.Order = "" then UpdateOrderStopFirst else conf.Deploy.Order
    .ok { name := conf.Name, image := conf.Image, replicas := replicas, networks := networks,
          env := conf.Env, labels := conf.Label, secrets := secrets,
          healthcheck := healthCheck, mounts := mounts, order := order }

/-! ## Further vocabulary of the properties -/

/-- The client of a `Plane` that accepts at most `limit` secrets: a creation
beyond that fails with `quota exceeded` and stores nothing. -/
def Plane.quotaClient (limit : Nat) : Client Plane :=
  { Plane.client with
    secretCreate := fun p name data =>
      if p.secrets.length < limit then Plane.client.secretCreate p name data
      else (.error "quota exceeded", p) }

/-- The payload of a secret creation. -/
def Call.secretData? : Call → Option Bytes
  | Call.secretCreate _ data => some data
  | _ => none

/-- The service spec a call submits, for a create or an update. -/
def Call.spec? : Call → Option ServiceSpec
  | Call.serviceCreate spec => some spec
  | Call.serviceUpdate _ _ spec => some spec
  | _ => none

/-- A file system with one empty file. -/
def emptyFile (path : String) : Except String Bytes :=
  if path = "/run/secrets/empty" then .ok [] else .error "no such file or directory"

/-- Whether something that happens during the wait wakes the event watcher: a
message of the feed or a value of its error channel. -/
def WaitEvent.isWatch : WaitEvent → Bool
  | WaitEvent.message _ _ => true
  | WaitEvent.feedError _ => true
  | _ => false

/-- Whether something that happens during the wait is an interrupt or terminate
signal or the cancellation of the context of the caller. -/
def WaitEvent.isCancel : WaitEvent → Bool
  | WaitEvent.signal => true
  | WaitEvent.ctxDone => true
  | _ => false

/-- Whether something that happens during the wait leaves the update status as
it is: every poll fails, finds no update status, or reports `state`. -/
def WaitEvent.steady (state : UpdateState) : WaitEvent → Bool
  | WaitEvent.tick inspect tasks =>
    (CheckEvent.tick inspect tasks).quiet || (CheckEvent.tick inspect tasks).reports state
  | _ => true

/-- A `create` event of a container of service `other`. -/
def otherServiceEvent : Message :=
  { Action := "create", ActorID := "c1",
    Attributes := [("com.docker.swarm.service.id", "other"), ("name", "api.1")] }

/-- A `health_status: unhealthy` event of a container that belongs to no service. -/
def plainContainerEvent : Message :=
  { Action := "health_status: unhealthy", ActorID := "c2", Attributes := [("name", "db")] }

/-- A configuration of `web` with a public address, no replica count, one secret
and one secret left empty. -/
def webConfig : config.Config :=
  { Name := "web", Image := "web:1",
    Public := { Address := "example.com", TargetPort := 8080 },
    Replicas := 0, Volumes := [("data", "/data")], Env := [("A", "1")],
    Secrets := [("token", "s3cret"), ("unset", "")], Label := [],
    Healthcheck := { Test := [], Interval := 0, Timeout := 0, StartInterval := 0,
                     StartPeriod := 0, Retries := 0 },
    Deploy := { Order := "" } }

/-- The arguments `runDeploy` computes from `webConfig` for the networks
`internal` and `public`. -/
def webConfigArgs : DeployArgs :=
  { name := "web", image := "web:1", replicas := 1, networks := ["internal", "public"],
    env := [("A", "1")], labels := [], secrets := [("token", [115, 51, 99, 114, 101, 116])],
    healthcheck := none,
    mounts := [{ Type_ := "volume", Source := "data", Target := "/data" }],
    order := "stop-first" }

/-- An unhealthy container whose health log holds two entries, the older one
first. -/
def unhealthyContainer : ContainerJSON :=
  { Health := some { Status := "unhealthy",
                     Log := [{ Output := "connection refused" }, { Output := "timeout" }] } }

/-! ## The info command and the reverse proxy (`app/info.go`, `caddy/caddy.go`) -/

/-- The assignment `m[k] = v` on a `map[string]string`: the value of a key that
is present is replaced, a new key is added. -/
def GoMap.put (m : GoMap String String) (k v : String) : GoMap String String :=
  if m.any (fun kv => kv.1 == k) then m.map (fun kv => if kv.1 == k then (k, v) else kv)
  else m ++ [(k, v)]

/-- The call `strings.SplitN(s, sep, 2)` for a separator of one character: `s`
alone when the separator does not occur in it, otherwise what stands before the
first separator and what stands after it. -/
def strings.SplitN2 (s : String) (sep : Char) : List String :=
  if sep ∈ s.toList then
    [String.mk (s.toList.takeWhile (fun c => c != sep)),
     String.mk ((s.toList.dropWhile (fun c => c != sep)).drop 1)]
  else [s]

/-- The loop of `formatEnv`; `result` is the map built so far. -/
def formatEnvLoop : List String → GoMap String String → GoMap String String
  | [], result => result
  | e :: rest, result =>
    match strings.SplitN2 e '=' with
    | [key, value] => formatEnvLoop rest (result.put key value)
    | _ => formatEnvLoop rest result

/-- The function `formatEnv`. -/
def formatEnv (env : List String) : GoMap String String :=
  formatEnvLoop env []

/-- The type `caddy.ProxyConfig`. -/
structure caddy.ProxyConfig where
  Address : String
  TargetPort : Int
deriving DecidableEq

/-- The loop of `generateCaddyfileContent`; `content` is the variable of that
name. -/
def generateCaddyfileContentLoop (defaultUpstream : String) :
    List caddy.ProxyConfig → String → String
  | [], content => content
  | config :: rest, content =>
    if config.Address = "" then generateCaddyfileContentLoop defaultUpstream rest content
    else
      let upstream :=
        if config.TargetPort ≠ 0 then defaultUpstream ++ ":" ++ toString config.TargetPort
        else defaultUpstream
      generateCaddyfileContentLoop defaultUpstream rest
        (content ++ (config.Address ++ " \x7b\n\treverse_proxy " ++ upstream ++ "\n\x7d\n\n"))

/-- The function `generateCaddyfileContent`. -/
def generateCaddyfileContent (configs : List caddy.ProxyConfig) (defaultUpstream : String) :
    String :=
  generateCaddyfileContentLoop defaultUpstream configs ""

/-- The upstream C24 names for a config: the name with the port when the port is
not zero, the name alone otherwise. -/
def caddyUpstream (name : String) (port : Int) : String :=
  if port ≠ 0 then name ++ ":" ++ toString port else name

/-- The block C24 names for an address and an upstream. -/
def caddyBlock (address upstream : String) : String :=
  address ++ " \x7b\n\treverse_proxy " ++ upstream ++ "\n\x7d\n\n"

/-- An environment whose second value contains the separator. -/
def sampleEnv : GoMap String String :=
  [("MODE", "prod"), ("DSN", "host=db port=5432"), ("EMPTY", "")]

/-- Three proxy configs: one with a port, one without address, one without port. -/
def sampleProxies : List caddy.ProxyConfig :=
  [{ Address := "example.com", TargetPort := 8080 }, { Address := "", TargetPort := 9 },
   { Address := "www.example.com", TargetPort := 0 }]

/-! ## The wait as three concurrent parties -/

/-- The two contexts in `WaitForService`: the one its caller passes in, and the
one it derives from it with `context.WithCancel`, which shadows the former for
the rest of the function. -/
inductive Ctx where
  | parent
  | derived
deriving DecidableEq

/-- The case the `select` of `WaitForService` takes. -/
inductive MainCase where
  | done
  | signal
  | ctxDone
deriving DecidableEq

/-- One thing that happens during a call of `WaitForService`, in the order in
which the scheduler lets it happen: a signal is delivered into `signalChan`, the
caller cancels its context, the `select` of `WaitForService` takes a case, the
`select` of `checkService` takes a case, the `select` of `monitorEvents` takes a
case.  A case that is not ready cannot be taken: that party stays where it is. -/
inductive WaitAction where
  | signalArrives
  | parentCancelled
  | main (c : MainCase)
  | check (ev : CheckEvent)
  | watch (ev : WatchEvent)

/-- The shared state of `WaitForService` and its two goroutines: whether the
context of the caller is done, whether `cancel` of the derived context ran,
whether `signalChan` holds a signal, how often `close(done)` ran, how the call
resolved, `lastState` and the polls of `checkService`, whether each goroutine
returned, the lines written and the calls made. -/
structure WaitSystem where
  parentDone : Bool
  cancelCalled : Bool
  signalled : Bool
  doneCloses : Nat
  result : Resolution
  lastState : UpdateState
  polls : Nat
  checkReturned : Bool
  watchReturned : Bool
  out : List String
  calls : List Call
deriving DecidableEq

/-- Whether `ctx.Done()` is ready: the derived context of `context.WithCancel` is
done once its `cancel` ran or its parent is done. -/
def WaitSystem.isDone (s : WaitSystem) : Ctx → Bool
  | Ctx.parent => s.parentDone
  | Ctx.derived => s.parentDone || s.cancelCalled

/-- The state in which `WaitForService` reaches its `select`: the context is
derived, the event feed is subscribed and both goroutines are started. -/
def WaitSystem.start : WaitSystem :=
  { parentDone := false, cancelCalled := false, signalled := false, doneCloses := 0,
    result := Resolution.blocked, lastState := "", polls := 0, checkReturned := false,
    watchReturned := false, out := [], calls := [Call.events] }

/-- The `select` of `WaitForService` taking case `c`: nil once `done` is closed,
`cancel` and an error for a signal, an error once its context (the derived one)
is done; the deferred `cancel` runs on every return. -/
def WaitForServiceSelect (s : WaitSystem) (c : MainCase) : WaitSystem :=
  if s.result ≠ Resolution.blocked then s
  else
    match c with
    | MainCase.done =>
      if 0 < s.doneCloses then
        { s with cancelCalled := true, result := Resolution.returned none }
      else s
    | MainCase.signal =>
      if s.signalled then
        { s with signalled := false, cancelCalled := true,
                 result := Resolution.returned (some "deployment cancelled") }
      else s
    | MainCase.ctxDone =>
      if s.isDone Ctx.derived then
        { s with cancelCalled := true,
                 result := Resolution.returned (some "context cancelled") }
      else s

/-- The `select` of `checkService` taking a case, the goroutine having been
started with context `ctx`: it returns on `ctx.Done()` when that is ready, and
runs the ticker case otherwise. -/
def checkServiceSelect (ctx : Ctx) (serviceID : String) (s : WaitSystem) :
    CheckEvent → WaitSystem
  | CheckEvent.ctxDone =>
    if s.checkReturned then s
    else if s.isDone ctx then { s with checkReturned := true }
    else s
  | CheckEvent.tick inspect tasks =>
    if s.checkReturned then s
    else
      let r := checkServiceTick serviceID s.lastState inspect tasks
      { s with out := s.out ++ r.lines, calls := s.calls ++ r.calls,
               lastState := r.lastState,
               doneCloses := s.doneCloses + (if r.closed then 1 else 0),
               polls := s.polls + 1, checkReturned := r.returned }

/-- The `select` of `monitorEvents` taking a case, the goroutine having been
started with context `ctx`: it returns on `ctx.Done()` when that is ready, and
handles the message or the error value otherwise. -/
def monitorEventsSelect (ctx : Ctx) (serviceID : String) (s : WaitSystem) :
    WatchEvent → WaitSystem
  | WatchEvent.ctxDone =>
    if s.watchReturned then s
    else if s.isDone ctx then { s with watchReturned := true }
    else s
  | ev =>
    if s.watchReturned then s
    else
      let r := monitorEventsStep serviceID ev
      { s with out := s.out ++ r.1, calls := s.calls ++ r.2 }

/-- One action on the system.  Both goroutines are started with the derived
context (`go monitorEvents(ctx, ...)`, `go checkService(ctx, ...)` after the
shadowing). -/
def WaitSystem.step (serviceID : String) (s : WaitSystem) : WaitAction → WaitSystem
  | WaitAction.signalArrives => { s with signalled := true }
  | WaitAction.parentCancelled => { s with parentDone := true }
  | WaitAction.main c => WaitForServiceSelect s c
  | WaitAction.check ev => checkServiceSelect Ctx.derived serviceID s ev
  | WaitAction.watch ev => monitorEventsSelect Ctx.derived serviceID s ev

/-- The system after a schedule of actions, from state `s`. -/
def WaitSystem.run (serviceID : String) (acts : List WaitAction) (s : WaitSystem) :
    WaitSystem :=
  acts.foldl (WaitSystem.step serviceID) s

/-- What the sequential run `WaitRun` records of a state of the system. -/
def WaitSystem.toWaitRun (s : WaitSystem) : WaitRun :=
  { out := s.out, calls := s.calls, lastState := s.lastState, doneCloses := s.doneCloses,
    polls := s.polls, monitorReturned := s.checkReturned, cancelled := s.cancelCalled,
    result := s.result }

/-- What the run `CheckRun` of `checkService` alone records of a state of the
system. -/
def WaitSystem.toCheckRun (s : WaitSystem) : CheckRun :=
  { out := s.out, calls := s.calls, lastState := s.lastState, closes := s.doneCloses,
    polls := s.polls, returned := s.checkReturned }

/-- What the run `WatchRun` of `monitorEvents` alone records of a state of the
system whose lines and calls are those of `monitorEvents`. -/
def WaitSystem.toWatchRun (s : WaitSystem) : WatchRun :=
  { out := s.out, calls := s.calls, returned := s.watchReturned }

/-- The actions of the system that one event of the sequential run stands for:
a goroutine handles its input and `WaitForService` then looks at `done`; a
signal or a cancellation arrives and `WaitForService` takes that case. -/
def WaitEvent.actions : WaitEvent → List WaitAction
  | WaitEvent.tick inspect tasks =>
    [WaitAction.check (CheckEvent.tick inspect tasks), WaitAction.main MainCase.done]
  | WaitEvent.message msg inspect => [WaitAction.watch (WatchEvent.message msg inspect)]
  | WaitEvent.feedError err => [WaitAction.watch (WatchEvent.feedError err)]
  | WaitEvent.signal => [WaitAction.signalArrives, WaitAction.main MainCase.signal]
  | WaitEvent.ctxDone => [WaitAction.parentCancelled, WaitAction.main MainCase.ctxDone]

/-- The error with which `WaitForService` returns from case `c` of its `select`. -/
def MainCase.err : MainCase → Option String
  | MainCase.done => none
  | MainCase.signal => some "deployment cancelled"
  | MainCase.ctxDone => some "context cancelled"

/-- A schedule in which `checkService` sees `updating` once, `monitorEvents`
handles an event of another service, and a signal is delivered. -/
def signalSchedule : List WaitAction :=
  [WaitAction.check (poll "web" "updating"),
   WaitAction.watch (WatchEvent.message otherServiceEvent (.error "gone")),
   WaitAction.signalArrives]

/-- A schedule in which `checkService` sees `updating` once and the caller then
cancels its context. -/
def cancelSchedule : List WaitAction :=
  [WaitAction.check (poll "web" "updating"), WaitAction.parentCancelled]

/-- What the goroutines still find ready after the cancellation: a tick that
reports `rollback_started` and an error value of the feed. -/
def lateSchedule : List WaitAction :=
  [WaitAction.check (poll "web" "rollback_started"),
   WaitAction.watch (WatchEvent.feedError (some "context canceled"))]

/-! ## Properties -/

/-- C1: for every update order that is neither start-first nor stop-first,
`DeployService` returns the invalid-order error, makes no call on the control
plane (the trace is empty and the control plane is left as it was), writes
nothing and never calls `WaitForService`. -/
theorem DeployService_invalid_order {σ : Type} (docker : Client σ) (w : σ)
    (name image : String) (replicas : Nat) (networks : List String)
    (env labels : GoMap String String) (secrets : GoMap String Bytes)
    (healthcheck : Option HealthConfig) (mounts : List Mount) (order : String)
    (events : List WaitEvent)
    (hstart : order ≠ UpdateOrderStartFirst) (hstop : order ≠ UpdateOrderStopFirst) :
    DeployService docker w name image replicas networks env labels secrets healthcheck mounts
        order events
      = { result := Resolution.returned (some ("invalid order: " ++ order)),
          world := w, out := [], calls := [], wait := none } := by
  unfold DeployService
  simp [hstart, hstop]

/-- C1 at the order `rolling` on the empty control plane, with a secret to create
and a completed rollout waiting to be seen. -/
theorem DeployService_invalid_order_witness :
    DeployService Plane.client Plane.empty "web" "web:1" 3 ["dockboy"] [] []
        [("token", [1, 2])] none [] "rolling"
        [waitPoll "web" "completed"]
      = { result := Resolution.returned (some ("invalid order: " ++ "rolling")),
          world := Plane.empty, out := [], calls := [], wait := none } :=
  DeployService_invalid_order Plane.client Plane.empty "web" "web:1" 3 ["dockboy"] [] []
    [("token", [1, 2])] none [] "rolling"
    [waitPoll "web" "completed"] (by decide) (by decide)

/-! ### Lemmas on one poll -/

/-- A poll that reports `updating` writes nothing, signals nothing and leaves
`lastState` at `updating`, whatever `lastState` was. -/
theorem checkServiceTick_updating (serviceID : String) (last : UpdateState)
    (service : Service) (status : UpdateStatus) (tasks : Except String (List Task))
    (hs : service.UpdateStatus = some status) (hu : status.State = UpdateStateUpdating) :
    checkServiceTick serviceID last (.ok service) tasks
      = { lines := [], calls := [Call.serviceInspect serviceID],
          lastState := UpdateStateUpdating, closed := false, returned := false } := by
  by_cases hl : last = UpdateStateUpdating
  · subst hl
    simp [checkServiceTick, hs, hu]
  · have hl' : ¬ UpdateStateUpdating = last := fun h => hl h.symm
    simp [checkServiceTick, hs, hu, hl']
    simp [UpdateStateUpdating, UpdateStateCompleted, UpdateStatePaused,
      UpdateStateRollbackCompleted, UpdateStateRollbackPaused, UpdateStateRollbackStarted]

/-- What `CheckEvent.reports` says about the shape of a wake-up. -/
theorem CheckEvent.reports_elim {state : UpdateState} {e : CheckEvent}
    (h : e.reports state = true) :
    ∃ service status tasks, e = CheckEvent.tick (.ok service) tasks ∧
      service.UpdateStatus = some status ∧ status.State = state := by
  cases e with
  | ctxDone => simp [CheckEvent.reports] at h
  | tick inspect tasks =>
    cases inspect with
    | error err => simp [CheckEvent.reports] at h
    | ok service =>
      cases hs : service.UpdateStatus with
      | none => simp [CheckEvent.reports, hs] at h
      | some status =>
        simp [CheckEvent.reports, hs] at h
        exact ⟨service, status, tasks, rfl, hs, h⟩

/-! ### Lemmas on the loop -/

/-- Polls that all report `updating` are passed through without a line, a signal
or a return; afterwards `lastState` is `updating`. -/
theorem checkServiceLoop_updating (serviceID : String) (pre : List CheckEvent)
    (hpre : ∀ e ∈ pre, e.reports UpdateStateUpdating = true) (rest : List CheckEvent)
    (st : CheckRun) (hst : st.returned = false) :
    checkServiceLoop serviceID (pre ++ rest) st
      = checkServiceLoop serviceID rest
          { out := st.out,
            calls := st.calls ++ List.replicate pre.length (Call.serviceInspect serviceID),
            lastState := if pre.length = 0 then st.lastState else UpdateStateUpdating,
            closes := st.closes, polls := st.polls + pre.length, returned := false } := by
  induction pre generalizing st with
  | nil =>
    cases st
    simp at hst
    simp [hst]
  | cons e pre ih =>
    obtain ⟨service, status, tasks, he, hs, hu⟩ :=
      CheckEvent.reports_elim (hpre e (List.mem_cons_self e pre))
    subst he
    have hpre' : ∀ e ∈ pre, e.reports UpdateStateUpdating = true :=
      fun e he => hpre e (List.mem_cons_of_mem _ he)
    have hstep : checkServiceLoop serviceID (CheckEvent.tick (.ok service) tasks :: (pre ++ rest)) st
        = checkServiceLoop serviceID (pre ++ rest)
            { out := st.out, calls := st.calls ++ [Call.serviceInspect serviceID],
              lastState := UpdateStateUpdating, closes := st.closes, polls := st.polls + 1,
              returned := false } := by
      simp [checkServiceLoop, CheckRun.afterTick,
        checkServiceTick_updating serviceID st.lastState service status tasks hs hu]
    rw [List.cons_append, hstep, ih hpre' _ rfl]
    congr 1
    simp [List.replicate_succ, Nat.add_assoc, Nat.add_comm 1]

/-- C2: when the first `n` polls report `updating` and the next one reports
`completed`, then before that poll nothing was written and done was not
signalled, and whatever wake-ups follow it the call ends with exactly the one
line "updated successfully", done closed once, `n + 1` polls made and the
function returned. -/
theorem checkService_updating_then_completed (serviceID : String) (n : Nat)
    (pre : List CheckEvent) (service : Service) (status : UpdateStatus)
    (tasks : Except String (List Task)) (rest : List CheckEvent)
    (hn : pre.length = n) (hpre : ∀ e ∈ pre, e.reports UpdateStateUpdating = true)
    (hs : service.UpdateStatus = some status) (hc : status.State = UpdateStateCompleted) :
    (checkService serviceID pre).out = [] ∧
    (checkService serviceID pre).closes = 0 ∧
    (checkService serviceID pre).returned = false ∧
    checkService serviceID (pre ++ CheckEvent.tick (.ok service) tasks :: rest)
      = { out := ["dockboy: service '" ++ service.Name ++ "' updated successfully.\n"],
          calls := List.replicate (n + 1) (Call.serviceInspect serviceID),
          lastState := if n = 0 then "" else UpdateStateUpdating,
          closes := 1, polls := n + 1, returned := true } := by
  have hrun := checkServiceLoop_updating serviceID pre hpre [] CheckRun.start rfl
  simp only [List.append_nil, checkServiceLoop] at hrun
  have hfull := checkServiceLoop_updating serviceID pre hpre
    (CheckEvent.tick (.ok service) tasks :: rest) CheckRun.start rfl
  refine ⟨?_, ?_, ?_, ?_⟩
  · rw [checkService, hrun]
    rfl
  · rw [checkService, hrun]
    rfl
  · rw [checkService, hrun]
  · subst hn
    rw [checkService, hfull]
    have hne : ¬ UpdateStateCompleted = (if pre.length = 0 then "" else UpdateStateUpdating) := by
      split <;> simp [UpdateStateCompleted, UpdateStateUpdating]
    simp [checkServiceLoop, checkServiceTick, CheckRun.afterTick, CheckRun.start, hs, hc, hne,
      List.replicate_succ']

/-- C2 at the scenario of three polls reporting `updating` and a fourth reporting
`completed`, with one more wake-up after it. -/
theorem checkService_updating_then_completed_witness :
    (checkService "svc" [poll "web" "updating", poll "web" "updating",
        poll "web" "updating"]).out = [] ∧
    (checkService "svc" [poll "web" "updating", poll "web" "updating",
        poll "web" "updating"]).closes = 0 ∧
    (checkService "svc" [poll "web" "updating", poll "web" "updating",
        poll "web" "updating"]).returned = false ∧
    checkService "svc" ([poll "web" "updating", poll "web" "updating", poll "web" "updating"]
        ++ CheckEvent.tick (.ok (sampleService "web" "completed" "")) (.ok [])
          :: [poll "web" "paused"])
      = { out := ["dockboy: service '" ++ (sampleService "web" "completed" "").Name
                    ++ "' updated successfully.\n"],
          calls := List.replicate (3 + 1) (Call.serviceInspect "svc"),
          lastState := if 3 = 0 then "" else UpdateStateUpdating,
          closes := 1, polls := 3 + 1, returned := true } :=
  checkService_updating_then_completed "svc" 3
    [poll "web" "updating", poll "web" "updating", poll "web" "updating"]
    (sampleService "web" "completed" "") { State := "completed", Message := "" } (.ok [])
    [poll "web" "paused"] rfl (by decide) rfl rfl

/-- Every path of a poll that runs `close(done)` returns right after it, and no
path returns without it. -/
theorem checkServiceTick_closed_eq_returned (serviceID : String) (last : UpdateState)
    (inspect : Except String Service) (tasks : Except String (List Task)) :
    (checkServiceTick serviceID last inspect tasks).closed
      = (checkServiceTick serviceID last inspect tasks).returned := by
  unfold checkServiceTick
  repeat' split
  all_goals rfl

/-- While the goroutine has not returned, its run over `a ++ b` is its run over
`b` from the state it reached after `a`. -/
theorem checkServiceLoop_append (serviceID : String) (a b : List CheckEvent) (st : CheckRun)
    (hrun : (checkServiceLoop serviceID a st).returned = false) :
    checkServiceLoop serviceID (a ++ b) st
      = checkServiceLoop serviceID b (checkServiceLoop serviceID a st) := by
  induction a generalizing st with
  | nil => rfl
  | cons e a ih =>
    cases e with
    | ctxDone => simp [checkServiceLoop] at hrun
    | tick inspect tasks =>
      simp only [List.cons_append, checkServiceLoop] at hrun ⊢
      split
      · rename_i h
        simp [h] at hrun
      · rename_i h
        simp only [h] at hrun
        exact ih _ hrun

/-- Once the goroutine has returned, later wake-ups change nothing. -/
theorem checkServiceLoop_returned (serviceID : String) (a b : List CheckEvent) (st : CheckRun)
    (hst : st.returned = false)
    (hret : (checkServiceLoop serviceID a st).returned = true) :
    checkServiceLoop serviceID (a ++ b) st = checkServiceLoop serviceID a st := by
  induction a generalizing st with
  | nil => simp [checkServiceLoop, hst] at hret
  | cons e a ih =>
    cases e with
    | ctxDone => simp [checkServiceLoop]
    | tick inspect tasks =>
      simp only [List.cons_append, checkServiceLoop] at hret ⊢
      split
      · rfl
      · rename_i h
        simp only [h] at hret
        exact ih _ (by simpa using h) hret

/-- From a running state, `close(done)` runs at most once more, and only together
with the return of the goroutine. -/
theorem checkServiceLoop_closes (serviceID : String) (events : List CheckEvent) (st : CheckRun) :
    (checkServiceLoop serviceID events st).closes = st.closes ∨
      ((checkServiceLoop serviceID events st).closes = st.closes + 1 ∧
        (checkServiceLoop serviceID events st).returned = true) := by
  induction events generalizing st with
  | nil => exact Or.inl rfl
  | cons e events ih =>
    cases e with
    | ctxDone => exact Or.inl rfl
    | tick inspect tasks =>
      simp only [checkServiceLoop]
      have hcr := checkServiceTick_closed_eq_returned serviceID st.lastState inspect tasks
      split
      · rename_i h
        simp only [CheckRun.afterTick] at h ⊢
        rw [hcr, h]
        exact Or.inr ⟨rfl, rfl⟩
      · rename_i h
        simp only [CheckRun.afterTick] at h
        have hclosed : (checkServiceTick serviceID st.lastState inspect tasks).closed = false := by
          rw [hcr]; simpa using h
        have := ih (st.afterTick (checkServiceTick serviceID st.lastState inspect tasks))
        simpa [CheckRun.afterTick, hclosed] using this

/-- C3: for every sequence of wake-ups, `checkService` runs `close(done)` at most
once; when it has run it the goroutine has returned, and no wake-up that follows
is looked at any more, so no second close can happen. -/
theorem checkService_done_at_most_once (serviceID : String) (events : List CheckEvent) :
    (checkService serviceID events).closes ≤ 1 ∧
    ((checkService serviceID events).closes = 1 →
      (checkService serviceID events).returned = true ∧
      ∀ more : List CheckEvent,
        checkService serviceID (events ++ more) = checkService serviceID events) := by
  have h := checkServiceLoop_closes serviceID events CheckRun.start
  have h0 : CheckRun.start.closes = 0 := rfl
  rw [h0] at h
  refine ⟨?_, ?_⟩
  · rcases h with h | ⟨h, _⟩ <;> simp [checkService, h]
  · intro h1
    rcases h with h | ⟨_, hret⟩
    · simp [checkService, h] at h1
    · exact ⟨hret, fun more => checkServiceLoop_returned serviceID events more _ rfl hret⟩

/-- C3 at a run whose second poll reports `completed`: done is closed once and
a later poll reporting `paused` changes nothing. -/
theorem checkService_done_at_most_once_witness :
    (checkService "svc" [poll "web" "updating", poll "web" "completed"]).closes = 1 ∧
    (checkService "svc" [poll "web" "updating", poll "web" "completed"]).returned = true ∧
    checkService "svc" ([poll "web" "updating", poll "web" "completed"] ++ [poll "web" "paused"])
      = checkService "svc" [poll "web" "updating", poll "web" "completed"] :=
  ⟨by decide,
   ((checkService_done_at_most_once "svc"
      [poll "web" "updating", poll "web" "completed"]).2 (by decide)).1,
   ((checkService_done_at_most_once "svc"
      [poll "web" "updating", poll "web" "completed"]).2 (by decide)).2 [poll "web" "paused"]⟩

/-- A poll that observes no update state writes at most its inspection-error
line and changes nothing else. -/
theorem checkServiceTick_quiet (serviceID : String) (last : UpdateState)
    (inspect : Except String Service) (tasks : Except String (List Task))
    (hq : (CheckEvent.tick inspect tasks).quiet = true) :
    checkServiceTick serviceID last inspect tasks
      = { lines := (CheckEvent.tick inspect tasks).errorLine,
          calls := [Call.serviceInspect serviceID],
          lastState := last, closed := false, returned := false } := by
  cases inspect with
  | error err => rfl
  | ok service =>
    cases hs : service.UpdateStatus with
    | none => simp [checkServiceTick, hs, CheckEvent.errorLine]
    | some status => simp [CheckEvent.quiet, hs] at hq

/-- Polls that observe no update state leave `lastState` and the done signal as
they are; only their inspection-error lines are written. -/
theorem checkServiceLoop_quiet (serviceID : String) (pre : List CheckEvent)
    (hpre : ∀ e ∈ pre, e.quiet = true) (st : CheckRun) (hst : st.returned = false) :
    checkServiceLoop serviceID pre st
      = { out := st.out ++ pre.flatMap CheckEvent.errorLine,
          calls := st.calls ++ List.replicate pre.length (Call.serviceInspect serviceID),
          lastState := st.lastState, closes := st.closes, polls := st.polls + pre.length,
          returned := false } := by
  induction pre generalizing st with
  | nil =>
    cases st
    simp at hst
    simp [checkServiceLoop, hst]
  | cons e pre ih =>
    have hq := hpre e (List.mem_cons_self e pre)
    have hpre' : ∀ e ∈ pre, e.quiet = true := fun e he => hpre e (List.mem_cons_of_mem _ he)
    cases e with
    | ctxDone => simp [CheckEvent.quiet] at hq
    | tick inspect tasks =>
      have hstep : checkServiceLoop serviceID (CheckEvent.tick inspect tasks :: pre) st
          = checkServiceLoop serviceID pre
              { out := st.out ++ (CheckEvent.tick inspect tasks).errorLine,
                calls := st.calls ++ [Call.serviceInspect serviceID],
                lastState := st.lastState, closes := st.closes, polls := st.polls + 1,
                returned := false } := by
        simp [checkServiceLoop, CheckRun.afterTick,
          checkServiceTick_quiet serviceID st.lastState inspect tasks hq]
      rw [hstep, ih hpre' _ rfl]
      simp [List.replicate_succ, Nat.add_assoc, Nat.add_comm 1, List.flatMap_cons]

/-- C4: when every poll so far observed no update state (it failed, or the
service had no update status) and the next poll reports `rollback_completed`,
that poll writes no line, does not close done and does not return; `lastState`
becomes `rollback_completed`, and the wake-ups that follow are handled from that
state on. -/
theorem checkService_rollback_completed_first (serviceID : String) (pre : List CheckEvent)
    (service : Service) (status : UpdateStatus) (tasks : Except String (List Task))
    (hpre : ∀ e ∈ pre, e.quiet = true)
    (hs : service.UpdateStatus = some status)
    (hc : status.State = UpdateStateRollbackCompleted) :
    (checkService serviceID (pre ++ [CheckEvent.tick (.ok service) tasks])).out
      = (checkService serviceID pre).out ∧
    (checkService serviceID (pre ++ [CheckEvent.tick (.ok service) tasks])).closes = 0 ∧
    (checkService serviceID (pre ++ [CheckEvent.tick (.ok service) tasks])).returned = false ∧
    (checkService serviceID (pre ++ [CheckEvent.tick (.ok service) tasks])).lastState
      = UpdateStateRollbackCompleted ∧
    (checkService serviceID (pre ++ [CheckEvent.tick (.ok service) tasks])).polls
      = pre.length + 1 ∧
    ∀ rest : List CheckEvent,
      checkService serviceID (pre ++ CheckEvent.tick (.ok service) tasks :: rest)
        = checkServiceLoop serviceID rest
            (checkService serviceID (pre ++ [CheckEvent.tick (.ok service) tasks])) := by
  have hq := checkServiceLoop_quiet serviceID pre hpre CheckRun.start rfl
  have hrun : (checkServiceLoop serviceID pre CheckRun.start).returned = false := by rw [hq]
  have hone : checkService serviceID (pre ++ [CheckEvent.tick (.ok service) tasks])
      = { out := (checkService serviceID pre).out,
          calls := (checkService serviceID pre).calls ++ [Call.serviceInspect serviceID],
          lastState := UpdateStateRollbackCompleted, closes := 0, polls := pre.length + 1,
          returned := false } := by
    simp only [checkService]
    rw [checkServiceLoop_append serviceID pre _ _ hrun, hq]
    simp [checkServiceLoop, checkServiceTick, CheckRun.afterTick, CheckRun.start, hs, hc,
      UpdateStateRollbackCompleted, UpdateStateCompleted, UpdateStatePaused,
      UpdateStateRollbackStarted, UpdateStateRollbackPaused]
  refine ⟨by rw [hone], by rw [hone], by rw [hone], by rw [hone], by rw [hone], ?_⟩
  intro rest
  have hrun1 : (checkServiceLoop serviceID (pre ++ [CheckEvent.tick (.ok service) tasks])
      CheckRun.start).returned = false := by
    have := hone
    simp only [checkService] at this
    rw [this]
  have := checkServiceLoop_append serviceID (pre ++ [CheckEvent.tick (.ok service) tasks]) rest
    CheckRun.start hrun1
  simpa [checkService] using this

/-- C4 after one failed poll and one poll without update status. -/
theorem checkService_rollback_completed_first_witness :
    (checkService "svc" ([CheckEvent.tick (.error "timeout") (.ok []),
        CheckEvent.tick (.ok { ID := "svc", Version := 1, Name := "web", UpdateStatus := none })
          (.ok [])]
        ++ [CheckEvent.tick (.ok (sampleService "web" "rollback_completed" "")) (.ok [])])).out
      = (checkService "svc" [CheckEvent.tick (.error "timeout") (.ok []),
        CheckEvent.tick (.ok { ID := "svc", Version := 1, Name := "web", UpdateStatus := none })
          (.ok [])]).out :=
  (checkService_rollback_completed_first "svc"
    [CheckEvent.tick (.error "timeout") (.ok []),
     CheckEvent.tick (.ok { ID := "svc", Version := 1, Name := "web", UpdateStatus := none })
       (.ok [])]
    (sampleService "web" "rollback_completed" "")
    { State := "rollback_completed", Message := "" } (.ok [])
    (by decide) rfl rfl).1

/-- The poll that fails with error `f.1`, for every listed failure. -/
theorem failedPolls_quiet (fails : List (String × Except String (List Task))) :
    ∀ e ∈ fails.map (fun f => CheckEvent.tick (.error f.1) f.2), e.quiet = true := by
  intro e he
  obtain ⟨f, _, rfl⟩ := List.mem_map.mp he
  rfl

/-- The inspection-error lines of failed polls, one per poll. -/
theorem failedPolls_errorLines (fails : List (String × Except String (List Task))) :
    (fails.map (fun f => CheckEvent.tick (.error f.1) f.2)).flatMap CheckEvent.errorLine
      = fails.map (fun f => "dockboy: service inspection error: " ++ f.1 ++ "\n") := by
  induction fails with
  | nil => rfl
  | cons f fails ih => simp [List.flatMap_cons, CheckEvent.errorLine, ih]

/-- C10: from every state in which `checkService` is still running, any number
of polls whose inspection fails writes exactly one inspection-error line per
poll, leaves `lastState` and the done signal untouched and does not return, and
the wake-ups that follow are handled from that state on. -/
theorem checkService_inspection_errors (serviceID : String) (pre : List CheckEvent)
    (fails : List (String × Except String (List Task)))
    (hrun : (checkService serviceID pre).returned = false) :
    checkService serviceID (pre ++ fails.map (fun f => CheckEvent.tick (.error f.1) f.2))
      = { out := (checkService serviceID pre).out
            ++ fails.map (fun f => "dockboy: service inspection error: " ++ f.1 ++ "\n"),
          calls := (checkService serviceID pre).calls
            ++ List.replicate fails.length (Call.serviceInspect serviceID),
          lastState := (checkService serviceID pre).lastState,
          closes := (checkService serviceID pre).closes,
          polls := (checkService serviceID pre).polls + fails.length,
          returned := false } ∧
    ∀ rest : List CheckEvent,
      checkService serviceID
          (pre ++ fails.map (fun f => CheckEvent.tick (.error f.1) f.2) ++ rest)
        = checkServiceLoop serviceID rest
            (checkService serviceID
              (pre ++ fails.map (fun f => CheckEvent.tick (.error f.1) f.2))) := by
  have hone : checkService serviceID
        (pre ++ fails.map (fun f => CheckEvent.tick (.error f.1) f.2))
      = { out := (checkService serviceID pre).out
            ++ fails.map (fun f => "dockboy: service inspection error: " ++ f.1 ++ "\n"),
          calls := (checkService serviceID pre).calls
            ++ List.replicate fails.length (Call.serviceInspect serviceID),
          lastState := (checkService serviceID pre).lastState,
          closes := (checkService serviceID pre).closes,
          polls := (checkService serviceID pre).polls + fails.length,
          returned := false } := by
    simp only [checkService] at hrun ⊢
    rw [checkServiceLoop_append serviceID pre _ _ hrun,
      checkServiceLoop_quiet serviceID _ (failedPolls_quiet fails) _ hrun,
      failedPolls_errorLines]
    simp
  refine ⟨hone, fun rest => ?_⟩
  have hrun1 : (checkServiceLoop serviceID
      (pre ++ fails.map (fun f => CheckEvent.tick (.error f.1) f.2))
      CheckRun.start).returned = false := by
    have := hone
    simp only [checkService] at this
    rw [this]
  simpa [checkService] using checkServiceLoop_append serviceID _ rest CheckRun.start hrun1

/-- C10 at two failed polls after a poll that reported `updating`. -/
theorem checkService_inspection_errors_witness :
    checkService "svc"
        ([poll "web" "updating"] ++ twoFailures.map (fun f => CheckEvent.tick (.error f.1) f.2))
      = { out := (checkService "svc" [poll "web" "updating"]).out
            ++ twoFailures.map (fun f => "dockboy: service inspection error: " ++ f.1 ++ "\n"),
          calls := (checkService "svc" [poll "web" "updating"]).calls
            ++ List.replicate twoFailures.length (Call.serviceInspect "svc"),
          lastState := (checkService "svc" [poll "web" "updating"]).lastState,
          closes := (checkService "svc" [poll "web" "updating"]).closes,
          polls := (checkService "svc" [poll "web" "updating"]).polls + twoFailures.length,
          returned := false } :=
  (checkService_inspection_errors "svc" [poll "web" "updating"] twoFailures (by decide)).1

/-- A poll that reports the state already held in `lastState` does nothing. -/
theorem checkServiceTick_same (serviceID : String) (last : UpdateState)
    (service : Service) (status : UpdateStatus) (tasks : Except String (List Task))
    (hs : service.UpdateStatus = some status) (hl : status.State = last) :
    checkServiceTick serviceID last (.ok service) tasks
      = { lines := [], calls := [Call.serviceInspect serviceID],
          lastState := last, closed := false, returned := false } := by
  simp [checkServiceTick, hs, hl]

/-- Polls that observe no update state or the one already held leave `lastState`
and the done signal as they are. -/
theorem checkServiceLoop_hold (serviceID : String) (state : UpdateState)
    (mid : List CheckEvent)
    (hmid : ∀ e ∈ mid, e.quiet = true ∨ e.reports state = true)
    (st : CheckRun) (hlast : st.lastState = state) (hst : st.returned = false) :
    checkServiceLoop serviceID mid st
      = { out := st.out ++ mid.flatMap CheckEvent.errorLine,
          calls := st.calls ++ List.replicate mid.length (Call.serviceInspect serviceID),
          lastState := state, closes := st.closes, polls := st.polls + mid.length,
          returned := false } := by
  induction mid generalizing st with
  | nil =>
    cases st
    simp at hst hlast
    simp [checkServiceLoop, hst, hlast]
  | cons e mid ih =>
    have hmid' : ∀ e ∈ mid, e.quiet = true ∨ e.reports state = true :=
      fun e he => hmid e (List.mem_cons_of_mem _ he)
    have hstep : checkServiceLoop serviceID (e :: mid) st
        = checkServiceLoop serviceID mid
            { out := st.out ++ e.errorLine,
              calls := st.calls ++ [Call.serviceInspect serviceID],
              lastState := state, closes := st.closes, polls := st.polls + 1,
              returned := false } := by
      rcases hmid e (List.mem_cons_self e mid) with hq | hr
      · cases e with
        | ctxDone => simp [CheckEvent.quiet] at hq
        | tick inspect tasks =>
          simp [checkServiceLoop, CheckRun.afterTick, hlast,
            checkServiceTick_quiet serviceID state inspect tasks hq]
      · obtain ⟨service, status, tasks, rfl, hs, hstate⟩ := CheckEvent.reports_elim hr
        simp [checkServiceLoop, CheckRun.afterTick, hlast, CheckEvent.errorLine,
          checkServiceTick_same serviceID state service status tasks hs hstate]
    rw [hstep, ih hmid' _ rfl rfl]
    simp [List.replicate_succ, Nat.add_assoc, Nat.add_comm 1, List.flatMap_cons]

/-- A poll that reports `rollback_started` never closes done and never returns,
and leaves `lastState` at `rollback_started`. -/
theorem checkServiceTick_rollback_started (serviceID : String) (last : UpdateState)
    (service : Service) (status : UpdateStatus) (tasks : Except String (List Task))
    (hs : service.UpdateStatus = some status)
    (hrs : status.State = UpdateStateRollbackStarted) :
    (checkServiceTick serviceID last (.ok service) tasks).closed = false ∧
    (checkServiceTick serviceID last (.ok service) tasks).returned = false ∧
    (checkServiceTick serviceID last (.ok service) tasks).lastState
      = UpdateStateRollbackStarted := by
  by_cases hl : last = UpdateStateRollbackStarted
  · subst hl
    simp [checkServiceTick, hs, hrs]
  · have hl' : ¬ UpdateStateRollbackStarted = last := fun h => hl h.symm
    simp [checkServiceTick, hs, hrs, hl']
    simp [UpdateStateCompleted, UpdateStatePaused, UpdateStateRollbackCompleted,
      UpdateStateRollbackPaused, UpdateStateRollbackStarted]

/-- A poll that reports `rollback_completed` while `lastState` is
`rollback_started` or `rollback_paused` writes the rolled-back line, closes done
and returns. -/
theorem checkServiceTick_rollback_completed_honoured (serviceID : String) (last : UpdateState)
    (service : Service) (status : UpdateStatus) (tasks : Except String (List Task))
    (hs : service.UpdateStatus = some status)
    (hrc : status.State = UpdateStateRollbackCompleted)
    (hl : last = UpdateStateRollbackStarted ∨ last = UpdateStateRollbackPaused) :
    checkServiceTick serviceID last (.ok service) tasks
      = { lines := ["dockboy: service '" ++ service.Name ++ "' rolled back successfully.\n"],
          calls := [Call.serviceInspect serviceID],
          lastState := last, closed := true, returned := true } := by
  rcases hl with hl | hl <;> subst hl <;>
    simp [checkServiceTick, hs, hrc, UpdateStateCompleted, UpdateStatePaused,
      UpdateStateRollbackCompleted, UpdateStateRollbackPaused, UpdateStateRollbackStarted]

/-- A poll that reports `rollback_completed` while `lastState` is neither
`rollback_started` nor `rollback_paused` writes nothing, leaves done open and
only records the state. -/
theorem checkServiceTick_rollback_completed_ignored (serviceID : String) (last : UpdateState)
    (service : Service) (status : UpdateStatus) (tasks : Except String (List Task))
    (hs : service.UpdateStatus = some status)
    (hrc : status.State = UpdateStateRollbackCompleted)
    (hl : ¬ (last = UpdateStateRollbackStarted ∨ last = UpdateStateRollbackPaused)) :
    checkServiceTick serviceID last (.ok service) tasks
      = { lines := [], calls := [Call.serviceInspect serviceID],
          lastState := UpdateStateRollbackCompleted, closed := false, returned := false } := by
  by_cases hsame : last = UpdateStateRollbackCompleted
  · subst hsame
    simp [checkServiceTick, hs, hrc]
  · have hsame' : ¬ UpdateStateRollbackCompleted = last := fun h => hsame h.symm
    simp only [not_or] at hl
    simp [checkServiceTick, hs, hrc, hsame', hl.1, hl.2]
    simp [UpdateStateCompleted, UpdateStatePaused, UpdateStateRollbackCompleted]

/-- A run that has not returned has not closed done. -/
theorem checkService_running_closes (serviceID : String) (pre : List CheckEvent)
    (hrun : (checkService serviceID pre).returned = false) :
    (checkService serviceID pre).closes = 0 := by
  rcases checkServiceLoop_closes serviceID pre CheckRun.start with h | ⟨_, hret⟩
  · exact h
  · simp only [checkService] at hrun
    rw [hrun] at hret
    cases hret

/-- The claim C5 as worded fails: `rollback_started` is observed, `updating` is
observed next, and `rollback_completed` at the third poll is then not honoured:
done stays open, the goroutine keeps running and no rolled-back line is written. -/
theorem checkService_rollback_interrupted_counterexample :
    (checkService "svc" [poll "web" "rollback_started", poll "web" "updating",
        poll "web" "rollback_completed"]).closes = 0 ∧
    (checkService "svc" [poll "web" "rollback_started", poll "web" "updating",
        poll "web" "rollback_completed"]).returned = false ∧
    (checkService "svc" [poll "web" "rollback_started", poll "web" "updating",
        poll "web" "rollback_completed"]).out
      = ["dockboy: service 'web' update failed, rolling back. message: \n",
         "dockboy: task error: \n"] := by
  decide

/-- C5, amended: when `rollback_started` is observed while `checkService` is
running, every poll after it either observes no update state or still reports
`rollback_started`, and a later poll reports `rollback_completed`, then up to
that poll done is open and the goroutine runs, and that poll writes the
rolled-back line, closes done and returns, whatever follows. -/
theorem checkService_rollback_started_then_completed (serviceID : String)
    (pre mid rest : List CheckEvent)
    (service₁ : Service) (status₁ : UpdateStatus) (tasks₁ : Except String (List Task))
    (service₂ : Service) (status₂ : UpdateStatus) (tasks₂ : Except String (List Task))
    (hrun : (checkService serviceID pre).returned = false)
    (hs₁ : service₁.UpdateStatus = some status₁)
    (hrs : status₁.State = UpdateStateRollbackStarted)
    (hmid : ∀ e ∈ mid, e.quiet = true ∨ e.reports UpdateStateRollbackStarted = true)
    (hs₂ : service₂.UpdateStatus = some status₂)
    (hrc : status₂.State = UpdateStateRollbackCompleted) :
    (checkService serviceID (pre ++ CheckEvent.tick (.ok service₁) tasks₁ :: mid)).closes = 0 ∧
    (checkService serviceID (pre ++ CheckEvent.tick (.ok service₁) tasks₁ :: mid)).returned
      = false ∧
    checkService serviceID
        (pre ++ CheckEvent.tick (.ok service₁) tasks₁ :: mid
          ++ CheckEvent.tick (.ok service₂) tasks₂ :: rest)
      = { out := (checkService serviceID
                    (pre ++ CheckEvent.tick (.ok service₁) tasks₁ :: mid)).out
            ++ ["dockboy: service '" ++ service₂.Name ++ "' rolled back successfully.\n"],
          calls := (checkService serviceID
                      (pre ++ CheckEvent.tick (.ok service₁) tasks₁ :: mid)).calls
            ++ [Call.serviceInspect serviceID],
          lastState := UpdateStateRollbackStarted,
          closes := 1,
          polls := (checkService serviceID
                      (pre ++ CheckEvent.tick (.ok service₁) tasks₁ :: mid)).polls + 1,
          returned := true } := by
  have hclosed := checkService_running_closes serviceID pre hrun
  simp only [checkService] at hrun hclosed
  obtain ⟨hc₁, hr₁, hl₁⟩ :=
    checkServiceTick_rollback_started serviceID
      (checkServiceLoop serviceID pre CheckRun.start).lastState service₁ status₁ tasks₁ hs₁ hrs
  have hstep : checkServiceLoop serviceID (CheckEvent.tick (.ok service₁) tasks₁ :: mid)
        (checkServiceLoop serviceID pre CheckRun.start)
      = checkServiceLoop serviceID mid
          ((checkServiceLoop serviceID pre CheckRun.start).afterTick
            (checkServiceTick serviceID (checkServiceLoop serviceID pre CheckRun.start).lastState
              (.ok service₁) tasks₁)) := by
    simp [checkServiceLoop, CheckRun.afterTick, hr₁]
  have hbefore : checkService serviceID (pre ++ CheckEvent.tick (.ok service₁) tasks₁ :: mid)
      = { out := ((checkServiceLoop serviceID pre CheckRun.start).afterTick
                    (checkServiceTick serviceID
                      (checkServiceLoop serviceID pre CheckRun.start).lastState
                      (.ok service₁) tasks₁)).out ++ mid.flatMap CheckEvent.errorLine,
          calls := ((checkServiceLoop serviceID pre CheckRun.start).afterTick
                    (checkServiceTick serviceID
                      (checkServiceLoop serviceID pre CheckRun.start).lastState
                      (.ok service₁) tasks₁)).calls
            ++ List.replicate mid.length (Call.serviceInspect serviceID),
          lastState := UpdateStateRollbackStarted,
          closes := 0,
          polls := ((checkServiceLoop serviceID pre CheckRun.start).afterTick
                    (checkServiceTick serviceID
                      (checkServiceLoop serviceID pre CheckRun.start).lastState
                      (.ok service₁) tasks₁)).polls + mid.length,
          returned := false } := by
    simp only [checkService]
    rw [checkServiceLoop_append serviceID pre _ _ hrun, hstep,
      checkServiceLoop_hold serviceID UpdateStateRollbackStarted mid hmid _
        (by simp [CheckRun.afterTick, hl₁]) (by simp [CheckRun.afterTick, hr₁])]
    simp [CheckRun.afterTick, hc₁, hclosed]
  have hrun' : (checkServiceLoop serviceID
      (pre ++ CheckEvent.tick (.ok service₁) tasks₁ :: mid) CheckRun.start).returned = false := by
    have := hbefore
    simp only [checkService] at this
    rw [this]
  refine ⟨by rw [hbefore], by rw [hbefore], ?_⟩
  have hfull : checkService serviceID
        (pre ++ CheckEvent.tick (.ok service₁) tasks₁ :: mid
          ++ CheckEvent.tick (.ok service₂) tasks₂ :: rest)
      = checkServiceLoop serviceID (CheckEvent.tick (.ok service₂) tasks₂ :: rest)
          (checkService serviceID (pre ++ CheckEvent.tick (.ok service₁) tasks₁ :: mid)) := by
    simp only [checkService]
    exact checkServiceLoop_append serviceID _ _ _ hrun'
  rw [hfull, hbefore]
  simp [checkServiceLoop, CheckRun.afterTick,
    checkServiceTick_rollback_completed_honoured serviceID UpdateStateRollbackStarted service₂
      status₂ tasks₂ hs₂ hrc (Or.inl rfl)]

/-- The amended C5 at `updating`, `rollback_started`, a failed poll, a poll still
reporting `rollback_started`, then `rollback_completed`. -/
theorem checkService_rollback_started_then_completed_witness :
    (checkService "svc" ([poll "web" "updating"]
        ++ CheckEvent.tick (.ok (sampleService "web" "rollback_started" "task failed")) (.ok [])
          :: [CheckEvent.tick (.error "timeout") (.ok []), poll "web" "rollback_started"]
        ++ CheckEvent.tick (.ok (sampleService "web" "rollback_completed" "")) (.ok [])
          :: [])).closes = 1 ∧
    (checkService "svc" ([poll "web" "updating"]
        ++ CheckEvent.tick (.ok (sampleService "web" "rollback_started" "task failed")) (.ok [])
          :: [CheckEvent.tick (.error "timeout") (.ok []), poll "web" "rollback_started"]
        ++ CheckEvent.tick (.ok (sampleService "web" "rollback_completed" "")) (.ok [])
          :: [])).returned = true :=
  ⟨congrArg CheckRun.closes
    (checkService_rollback_started_then_completed "svc" [poll "web" "updating"]
      [CheckEvent.tick (.error "timeout") (.ok []), poll "web" "rollback_started"] []
      (sampleService "web" "rollback_started" "task failed")
      { State := "rollback_started", Message := "task failed" } (.ok [])
      (sampleService "web" "rollback_completed" "")
      { State := "rollback_completed", Message := "" } (.ok [])
      (by decide) rfl rfl (by decide) rfl rfl).2.2,
   congrArg CheckRun.returned
    (checkService_rollback_started_then_completed "svc" [poll "web" "updating"]
      [CheckEvent.tick (.error "timeout") (.ok []), poll "web" "rollback_started"] []
      (sampleService "web" "rollback_started" "task failed")
      { State := "rollback_started", Message := "task failed" } (.ok [])
      (sampleService "web" "rollback_completed" "")
      { State := "rollback_completed", Message := "" } (.ok [])
      (by decide) rfl rfl (by decide) rfl rfl).2.2⟩

/-- From a running state, the run over one more poll is the state after that
poll. -/
theorem checkService_snoc (serviceID : String) (pre : List CheckEvent)
    (inspect : Except String Service) (tasks : Except String (List Task))
    (hrun : (checkService serviceID pre).returned = false) :
    checkService serviceID (pre ++ [CheckEvent.tick inspect tasks])
      = (checkService serviceID pre).afterTick
          (checkServiceTick serviceID (checkService serviceID pre).lastState inspect tasks) := by
  simp only [checkService] at hrun ⊢
  rw [checkServiceLoop_append serviceID pre _ _ hrun]
  simp [checkServiceLoop]

/-- The claim C6 as worded fails: `updating` was observed earlier in the call, yet
the `rollback_completed` that follows is ignored: done stays open, nothing is
written and the goroutine keeps running. -/
theorem checkService_updating_then_rollback_completed_counterexample :
    (checkService "svc" [poll "web" "updating", poll "web" "rollback_completed"]).closes = 0 ∧
    (checkService "svc" [poll "web" "updating", poll "web" "rollback_completed"]).returned
      = false ∧
    (checkService "svc" [poll "web" "updating", poll "web" "rollback_completed"]).out = [] := by
  decide

/-- C6, amended: while `checkService` is running, a poll that reports
`rollback_completed` closes done exactly when `lastState`, the update state
recorded last before it, is `rollback_started` or `rollback_paused`; then it
writes the rolled-back line and returns; otherwise it writes nothing, leaves done
open, keeps running and records `rollback_completed`. -/
theorem checkService_rollback_completed_honoured_iff (serviceID : String)
    (pre : List CheckEvent) (service : Service) (status : UpdateStatus)
    (tasks : Except String (List Task))
    (hrun : (checkService serviceID pre).returned = false)
    (hs : service.UpdateStatus = some status)
    (hrc : status.State = UpdateStateRollbackCompleted) :
    ((checkService serviceID (pre ++ [CheckEvent.tick (.ok service) tasks])).closes = 1 ↔
      ((checkService serviceID pre).lastState = UpdateStateRollbackStarted ∨
        (checkService serviceID pre).lastState = UpdateStateRollbackPaused)) ∧
    (((checkService serviceID pre).lastState = UpdateStateRollbackStarted ∨
        (checkService serviceID pre).lastState = UpdateStateRollbackPaused) →
      (checkService serviceID (pre ++ [CheckEvent.tick (.ok service) tasks])).out
        = (checkService serviceID pre).out
            ++ ["dockboy: service '" ++ service.Name ++ "' rolled back successfully.\n"] ∧
      (checkService serviceID (pre ++ [CheckEvent.tick (.ok service) tasks])).returned = true) ∧
    (¬ ((checkService serviceID pre).lastState = UpdateStateRollbackStarted ∨
        (checkService serviceID pre).lastState = UpdateStateRollbackPaused) →
      (checkService serviceID (pre ++ [CheckEvent.tick (.ok service) tasks])).out
        = (checkService serviceID pre).out ∧
      (checkService serviceID (pre ++ [CheckEvent.tick (.ok service) tasks])).closes = 0 ∧
      (checkService serviceID (pre ++ [CheckEvent.tick (.ok service) tasks])).returned = false ∧
      (checkService serviceID (pre ++ [CheckEvent.tick (.ok service) tasks])).lastState
        = UpdateStateRollbackCompleted) := by
  have hclosed := checkService_running_closes serviceID pre hrun
  rw [checkService_snoc serviceID pre _ tasks hrun]
  by_cases hl : (checkService serviceID pre).lastState = UpdateStateRollbackStarted ∨
      (checkService serviceID pre).lastState = UpdateStateRollbackPaused
  · rw [checkServiceTick_rollback_completed_honoured serviceID _ service status tasks hs hrc hl]
    simp [CheckRun.afterTick, hclosed, hl]
  · rw [checkServiceTick_rollback_completed_ignored serviceID _ service status tasks hs hrc hl]
    simp [CheckRun.afterTick, hclosed, hl]

/-- The amended C6 after `updating` and `rollback_started`: the rollback is
honoured. -/
theorem checkService_rollback_completed_honoured_iff_witness :
    (checkService "svc" ([poll "web" "updating", poll "web" "rollback_started"]
        ++ [CheckEvent.tick (.ok (sampleService "web" "rollback_completed" "")) (.ok [])])).closes
      = 1 :=
  (checkService_rollback_completed_honoured_iff "svc"
    [poll "web" "updating", poll "web" "rollback_started"]
    (sampleService "web" "rollback_completed" "")
    { State := "rollback_completed", Message := "" } (.ok [])
    (by decide) rfl rfl).1.mpr (by decide)

/-! ### Lemmas on the wait coordinator -/

/-- A poll never records `completed`, `paused` or `rollback_paused` in
`lastState`. -/
theorem checkServiceTick_recordable (serviceID : String) (last : UpdateState)
    (inspect : Except String Service) (tasks : Except String (List Task))
    (hl : UpdateState.recordable last) :
    UpdateState.recordable (checkServiceTick serviceID last inspect tasks).lastState := by
  unfold checkServiceTick
  repeat' split
  all_goals first
    | exact hl
    | (unfold UpdateState.recordable at hl ⊢
       simp_all [UpdateStateCompleted, UpdateStatePaused, UpdateStateRollbackPaused,
         UpdateStateRollbackCompleted, UpdateStateRollbackStarted])

/-- A poll that reports `completed`, `paused`, `rollback_paused`, or
`rollback_completed` right after `rollback_started`, closes done. -/
theorem checkServiceTick_terminal (serviceID : String) (last : UpdateState)
    (service : Service) (status : UpdateStatus) (tasks : Except String (List Task))
    (hs : service.UpdateStatus = some status) (hl : UpdateState.recordable last)
    (hterm : status.State = UpdateStateCompleted ∨ status.State = UpdateStatePaused ∨
      status.State = UpdateStateRollbackPaused ∨
      (status.State = UpdateStateRollbackCompleted ∧
        (last = UpdateStateRollbackStarted ∨ last = UpdateStateRollbackPaused))) :
    (checkServiceTick serviceID last (.ok service) tasks).closed = true := by
  obtain ⟨h₁, h₂, h₃⟩ := hl
  rcases hterm with h | h | h | ⟨h, hlast⟩
  · have hne : ¬ UpdateStateCompleted = last := fun e => h₁ e.symm
    simp [checkServiceTick, hs, h, hne]
  · have hne : ¬ UpdateStatePaused = last := fun e => h₂ e.symm
    simp [checkServiceTick, hs, h, hne]
    simp [UpdateStatePaused, UpdateStateCompleted]
  · have hne : ¬ UpdateStateRollbackPaused = last := fun e => h₃ e.symm
    simp [checkServiceTick, hs, h, hne]
    simp [UpdateStatePaused, UpdateStateCompleted, UpdateStateRollbackPaused,
      UpdateStateRollbackCompleted]
  · rw [checkServiceTick_rollback_completed_honoured serviceID last service status tasks hs h
      hlast]

/-- While `WaitForService` is blocked, its run over `a ++ b` is its run over `b`
from the state reached after `a`. -/
theorem WaitForServiceLoop_append (serviceID : String) (a b : List WaitEvent) (st : WaitRun)
    (hblocked : (WaitForServiceLoop serviceID a st).result = Resolution.blocked) :
    WaitForServiceLoop serviceID (a ++ b) st
      = WaitForServiceLoop serviceID b (WaitForServiceLoop serviceID a st) := by
  induction a generalizing st with
  | nil => rfl
  | cons e a ih =>
    cases e with
    | signal => simp [WaitForServiceLoop] at hblocked
    | ctxDone => simp [WaitForServiceLoop] at hblocked
    | message msg inspect =>
      simp only [List.cons_append, WaitForServiceLoop] at hblocked ⊢
      exact ih _ hblocked
    | feedError err =>
      simp only [List.cons_append, WaitForServiceLoop] at hblocked ⊢
      exact ih _ hblocked
    | tick inspect tasks =>
      simp only [List.cons_append, WaitForServiceLoop] at hblocked ⊢
      by_cases hm : st.monitorReturned = true
      · simp only [if_pos hm] at hblocked ⊢
        exact ih _ hblocked
      · simp only [if_neg hm] at hblocked ⊢
        by_cases hd : 0 < st.doneCloses +
            (if (checkServiceTick serviceID st.lastState inspect tasks).closed = true then 1
              else 0)
        · simp only [if_pos hd] at hblocked
          cases hblocked
        · simp only [if_neg hd] at hblocked ⊢
          exact ih _ hblocked

/-- While `WaitForService` is blocked, done is open, `checkService` is running
and `lastState` is none of `completed`, `paused`, `rollback_paused`. -/
theorem WaitForServiceLoop_blocked (serviceID : String) (events : List WaitEvent) (st : WaitRun)
    (hcloses : st.doneCloses = 0) (hmon : st.monitorReturned = false)
    (hlast : UpdateState.recordable st.lastState)
    (hblocked : (WaitForServiceLoop serviceID events st).result = Resolution.blocked) :
    (WaitForServiceLoop serviceID events st).doneCloses = 0 ∧
    (WaitForServiceLoop serviceID events st).monitorReturned = false ∧
    UpdateState.recordable (WaitForServiceLoop serviceID events st).lastState := by
  induction events generalizing st with
  | nil => exact ⟨hcloses, hmon, hlast⟩
  | cons e events ih =>
    cases e with
    | signal => simp [WaitForServiceLoop] at hblocked
    | ctxDone => simp [WaitForServiceLoop] at hblocked
    | message msg inspect =>
      simp only [WaitForServiceLoop] at hblocked ⊢
      exact ih _ hcloses hmon hlast hblocked
    | feedError err =>
      simp only [WaitForServiceLoop] at hblocked ⊢
      exact ih _ hcloses hmon hlast hblocked
    | tick inspect tasks =>
      have hcr := checkServiceTick_closed_eq_returned serviceID st.lastState inspect tasks
      have hrec := checkServiceTick_recordable serviceID st.lastState inspect tasks hlast
      simp only [WaitForServiceLoop, hmon, Bool.false_eq_true, if_false] at hblocked ⊢
      by_cases hd : 0 < st.doneCloses +
          (if (checkServiceTick serviceID st.lastState inspect tasks).closed = true then 1
            else 0)
      · simp only [if_pos hd] at hblocked
        cases hblocked
      · simp only [if_neg hd] at hblocked ⊢
        have hclosed : (checkServiceTick serviceID st.lastState inspect tasks).closed = false := by
          cases hc : (checkServiceTick serviceID st.lastState inspect tasks).closed
          · rfl
          · simp [hc] at hd
        exact ih _ (by simp [hcloses, hclosed]) (by rw [← hcr, hclosed]) hrec hblocked

/-- The claim C7 as worded fails: a rollout that ends in `paused`, in
`rollback_paused`, or in `rollback_completed` after `rollback_started` makes
`WaitForService` return nil, the very result of a rollout that ends in
`completed`. -/
theorem WaitForService_outcome_counterexample :
    (WaitForService "svc" [waitPoll "web" "completed"]).result = Resolution.returned none ∧
    (WaitForService "svc" [waitPoll "web" "paused"]).result
      = (WaitForService "svc" [waitPoll "web" "completed"]).result ∧
    (WaitForService "svc" [waitPoll "web" "rollback_paused"]).result
      = (WaitForService "svc" [waitPoll "web" "completed"]).result ∧
    (WaitForService "svc" [waitPoll "web" "rollback_started",
        waitPoll "web" "rollback_completed"]).result
      = (WaitForService "svc" [waitPoll "web" "completed"]).result := by
  decide

/-- C7, amended: while `WaitForService` is blocked, a poll that reports
`completed`, `paused`, `rollback_paused`, or `rollback_completed` with
`lastState` at `rollback_started` or `rollback_paused`, closes done, and
`WaitForService` then returns nil and runs `cancel`, the same result for each of
these states, whatever happens afterwards. -/
theorem WaitForService_terminal_returns_nil (serviceID : String) (pre rest : List WaitEvent)
    (service : Service) (status : UpdateStatus) (tasks : Except String (List Task))
    (hpre : (WaitForService serviceID pre).result = Resolution.blocked)
    (hs : service.UpdateStatus = some status)
    (hterm : status.State = UpdateStateCompleted ∨ status.State = UpdateStatePaused ∨
      status.State = UpdateStateRollbackPaused ∨
      (status.State = UpdateStateRollbackCompleted ∧
        ((WaitForService serviceID pre).lastState = UpdateStateRollbackStarted ∨
          (WaitForService serviceID pre).lastState = UpdateStateRollbackPaused))) :
    (WaitForService serviceID (pre ++ WaitEvent.tick (.ok service) tasks :: rest)).result
      = Resolution.returned none ∧
    (WaitForService serviceID (pre ++ WaitEvent.tick (.ok service) tasks :: rest)).doneCloses
      = 1 ∧
    (WaitForService serviceID (pre ++ WaitEvent.tick (.ok service) tasks :: rest)).cancelled
      = true := by
  simp only [WaitForService] at hpre hterm ⊢
  obtain ⟨hcloses, hmon, hlast⟩ :=
    WaitForServiceLoop_blocked serviceID pre WaitRun.start rfl rfl (by decide) hpre
  have hclosed := checkServiceTick_terminal serviceID
    (WaitForServiceLoop serviceID pre WaitRun.start).lastState service status tasks hs hlast hterm
  rw [WaitForServiceLoop_append serviceID pre _ _ hpre]
  simp [WaitForServiceLoop, hmon, hcloses, hclosed]

/-- The amended C7 at a rollout that is seen `updating` and then `paused`. -/
theorem WaitForService_terminal_returns_nil_witness :
    (WaitForService "svc" ([waitPoll "web" "updating"]
        ++ WaitEvent.tick (.ok (sampleService "web" "paused" "")) (.ok []) :: [])).result
      = Resolution.returned none :=
  (WaitForService_terminal_returns_nil "svc" [waitPoll "web" "updating"] []
    (sampleService "web" "paused" "") { State := "paused", Message := "" } (.ok [])
    (by decide) rfl (Or.inr (Or.inl rfl))).1

/-! ### The latest task error -/

/-- With `latestTask` still the zero task, the loop of `getLatestTaskError` stops
at the first failed or rejected task of the list. -/
theorem getLatestTaskErrorLoop_zero (tasks : List Task) :
    getLatestTaskErrorLoop tasks Task.zero
      = (match tasks.find? Task.failedOrRejected with
         | some t => t
         | none => Task.zero) := by
  induction tasks with
  | nil => rfl
  | cons task tasks ih =>
    by_cases h : task.State = TaskStateFailed ∨ task.State = TaskStateRejected
    · have hp : task.failedOrRejected = true := by
        simpa [Task.failedOrRejected] using h
      simp [getLatestTaskErrorLoop, h, hp, Task.zero, List.find?_cons]
    · have hp : task.failedOrRejected = false := by
        simpa [Task.failedOrRejected] using h
      simp [getLatestTaskErrorLoop, h, hp, List.find?_cons, ih]

/-- C8, the code against the claim: for every task list `getLatestTaskError`
returns the error text of the first failed or rejected task in list order (the
empty string when there is none); on `failedTwice` that is the older failure,
while the most recent failed task carries the newer one. -/
theorem getLatestTaskError_returns_first_failed :
    (∀ tasks : List Task,
      getLatestTaskError (.ok tasks)
        = .ok (match tasks.find? Task.failedOrRejected with
               | some t => t.Err
               | none => "")) ∧
    getLatestTaskError (.ok failedTwice) = .ok "old failure" ∧
    mostRecentFailedTaskErr failedTwice = "new failure" := by
  refine ⟨fun tasks => ?_, by rfl, by decide⟩
  simp only [getLatestTaskError, getLatestTaskErrorLoop_zero]
  cases tasks.find? Task.failedOrRejected <;> rfl

/-! ### The reconciling calls -/

/-- The loop of `createSecrets` adds only secret creations to the trace. -/
theorem createSecretsLoop_calls {σ : Type} (docker : Client σ) (secrets : GoMap String Bytes)
    (w : σ) (refs : List SecretReference) (calls : List Call) :
    (createSecretsLoop docker secrets w refs calls).2.2.filter Call.isReconcile
      = calls.filter Call.isReconcile := by
  induction secrets generalizing w refs calls with
  | nil => rfl
  | cons kv secrets ih =>
    obtain ⟨name, data⟩ := kv
    simp only [createSecretsLoop]
    cases h : docker.secretCreate w (name ++ "-" ++ toString (docker.unixNow w)) data with
    | mk r w' =>
      cases r with
      | error err => simp [List.filter_append, Call.isReconcile]
      | ok id =>
        simp only []
        rw [ih]
        simp [List.filter_append, Call.isReconcile]

/-- The lookup makes exactly one call, the list call filtered by the name. -/
theorem FindService_calls {σ : Type} (docker : Client σ) (w : σ) (name : String) :
    (FindService docker w name).2.2 = [Call.serviceList name] := by
  unfold FindService
  cases h : docker.serviceList w name with
  | mk r w' => cases r <;> rfl

/-- A poll makes no reconciling call. -/
theorem checkServiceTick_calls (serviceID : String) (last : UpdateState)
    (inspect : Except String Service) (tasks : Except String (List Task)) :
    (checkServiceTick serviceID last inspect tasks).calls.filter Call.isReconcile = [] := by
  unfold checkServiceTick
  repeat' split
  all_goals rfl

/-- The event watcher makes no reconciling call. -/
theorem monitorEventsStep_calls (serviceID : String) (ev : WatchEvent) :
    (monitorEventsStep serviceID ev).2.filter Call.isReconcile = [] := by
  cases ev with
  | message msg inspect =>
    simp only [monitorEventsStep, handleEvent]
    repeat' split
    all_goals rfl
  | feedError err => cases err <;> rfl
  | ctxDone => rfl

/-- The run of `WaitForService` adds no reconciling call to the trace. -/
theorem WaitForServiceLoop_calls (serviceID : String) (events : List WaitEvent) (st : WaitRun) :
    (WaitForServiceLoop serviceID events st).calls.filter Call.isReconcile
      = st.calls.filter Call.isReconcile := by
  induction events generalizing st with
  | nil => rfl
  | cons e events ih =>
    cases e with
    | signal => rfl
    | ctxDone => rfl
    | message msg inspect =>
      simp only [WaitForServiceLoop]
      rw [ih]
      simp [List.filter_append, monitorEventsStep_calls]
    | feedError err =>
      simp only [WaitForServiceLoop]
      rw [ih]
      simp [List.filter_append, monitorEventsStep_calls]
    | tick inspect tasks =>
      simp only [WaitForServiceLoop]
      by_cases hm : st.monitorReturned = true
      · simp only [if_pos hm]
        exact ih st
      · simp only [if_neg hm]
        by_cases hd : 0 < st.doneCloses +
            (if (checkServiceTick serviceID st.lastState inspect tasks).closed = true then 1
              else 0)
        · simp only [if_pos hd]
          simp [List.filter_append, checkServiceTick_calls]
        · simp only [if_neg hd]
          rw [ih]
          simp [List.filter_append, checkServiceTick_calls]

/-- The function `WaitForService` makes no reconciling call. -/
theorem WaitForService_calls (serviceID : String) (events : List WaitEvent) :
    (WaitForService serviceID events).calls.filter Call.isReconcile = [] := by
  rw [WaitForService, WaitForServiceLoop_calls]
  rfl

/-- Once the order is valid, the secrets are created and the lookup has answered,
the reconciling calls of `DeployService` are the lookup followed by one create
(nothing found) or one update of the found service with its id and version. -/
theorem DeployService_reconcile_calls {σ : Type} (docker : Client σ) (w : σ) (a : DeployArgs)
    (events : List WaitEvent) (refs : List SecretReference) (w₁ : σ) (c₁ : List Call)
    (found : Option Service) (w₂ : σ) (c₂ : List Call) :
    (a.order = UpdateOrderStartFirst ∨ a.order = UpdateOrderStopFirst) →
    createSecrets docker w a.secrets = (.ok refs, w₁, c₁) →
    FindService docker w₁ a.name = (.ok found, w₂, c₂) →
    (DeployService.withArgs docker w a events).calls.filter Call.isReconcile
      = [Call.serviceList a.name,
         match found with
         | none => Call.serviceCreate (a.spec refs)
         | some existingService =>
           Call.serviceUpdate existingService.ID existingService.Version (a.spec refs)] := by
  intro horder hsecrets hfind
  have hord : ¬ (a.order ≠ UpdateOrderStartFirst ∧ a.order ≠ UpdateOrderStopFirst) := by
    rintro ⟨h₁, h₂⟩
    rcases horder with h | h
    · exact h₁ h
    · exact h₂ h
  have hc₁ : c₁.filter Call.isReconcile = [] := by
    have := createSecretsLoop_calls docker a.secrets w [] []
    rw [← createSecrets, hsecrets] at this
    simpa using this
  have hc₂ : c₂ = [Call.serviceList a.name] := by
    have := FindService_calls docker w₁ a.name
    rw [hfind] at this
    exact this
  subst hc₂
  simp only [DeployService.withArgs, DeployService, if_neg hord, hsecrets, hfind]
  cases found with
  | none =>
    simp only []
    cases hcreate : docker.serviceCreate w₂
        (serviceSpec a.name a.image a.replicas a.networks a.env a.labels refs a.healthcheck
          a.mounts a.order) with
    | mk r w₃ =>
      cases r <;>
        simp [DeployService.wait, List.filter_append, hc₁, Call.isReconcile,
          WaitForService_calls, DeployArgs.spec]
  | some existingService =>
    simp only []
    cases hupdate : docker.serviceUpdate w₂ existingService.ID existingService.Version
        (serviceSpec a.name a.image a.replicas a.networks a.env a.labels refs a.healthcheck
          a.mounts a.order) with
    | mk r w₃ =>
      cases r <;>
        simp [DeployService.wait, List.filter_append, hc₁, Call.isReconcile,
          WaitForService_calls, DeployArgs.spec]

/-- Under the same conditions, the control plane `DeployService` leaves is the
one the create or the update left. -/
theorem DeployService_world {σ : Type} (docker : Client σ) (w : σ) (a : DeployArgs)
    (events : List WaitEvent) (refs : List SecretReference) (w₁ : σ) (c₁ : List Call)
    (found : Option Service) (w₂ : σ) (c₂ : List Call) :
    (a.order = UpdateOrderStartFirst ∨ a.order = UpdateOrderStopFirst) →
    createSecrets docker w a.secrets = (.ok refs, w₁, c₁) →
    FindService docker w₁ a.name = (.ok found, w₂, c₂) →
    (DeployService.withArgs docker w a events).world
      = (match found with
         | none => (docker.serviceCreate w₂ (a.spec refs)).2
         | some existingService =>
           (docker.serviceUpdate w₂ existingService.ID existingService.Version
             (a.spec refs)).2) := by
  intro horder hsecrets hfind
  have hord : ¬ (a.order ≠ UpdateOrderStartFirst ∧ a.order ≠ UpdateOrderStopFirst) := by
    rintro ⟨h₁, h₂⟩
    rcases horder with h | h
    · exact h₁ h
    · exact h₂ h
  simp only [DeployService.withArgs, DeployService, if_neg hord, hsecrets, hfind]
  cases found with
  | none =>
    simp only [DeployArgs.spec]
    cases hcreate : docker.serviceCreate w₂
        (serviceSpec a.name a.image a.replicas a.networks a.env a.labels refs a.healthcheck
          a.mounts a.order) with
    | mk r w₃ => cases r <;> simp [DeployService.wait]
  | some existingService =>
    simp only [DeployArgs.spec]
    cases hupdate : docker.serviceUpdate w₂ existingService.ID existingService.Version
        (serviceSpec a.name a.image a.replicas a.networks a.env a.labels refs a.healthcheck
          a.mounts a.order) with
    | mk r w₃ => cases r <;> simp [DeployService.wait]

/-- In every state of every control plane the reconciling calls of
`DeployService` are none (the order is invalid or a secret creation failed), the
lookup alone (the lookup failed), or the lookup followed by exactly one create or
exactly one update. -/
theorem DeployService_reconcile_shape {σ : Type} (docker : Client σ) (w : σ) (a : DeployArgs)
    (events : List WaitEvent) :
    (DeployService.withArgs docker w a events).calls.filter Call.isReconcile = [] ∨
    (DeployService.withArgs docker w a events).calls.filter Call.isReconcile
      = [Call.serviceList a.name] ∨
    (∃ spec, (DeployService.withArgs docker w a events).calls.filter Call.isReconcile
      = [Call.serviceList a.name, Call.serviceCreate spec]) ∨
    (∃ id version spec,
      (DeployService.withArgs docker w a events).calls.filter Call.isReconcile
        = [Call.serviceList a.name, Call.serviceUpdate id version spec]) := by
  by_cases hord : a.order ≠ UpdateOrderStartFirst ∧ a.order ≠ UpdateOrderStopFirst
  · left
    simp [DeployService.withArgs, DeployService, hord]
  · have horder : a.order = UpdateOrderStartFirst ∨ a.order = UpdateOrderStopFirst := by
      by_cases h : a.order = UpdateOrderStartFirst
      · exact Or.inl h
      · by_cases h' : a.order = UpdateOrderStopFirst
        · exact Or.inr h'
        · exact absurd ⟨h, h'⟩ hord
    cases hsecrets : createSecrets docker w a.secrets with
    | mk r rest₁ =>
      obtain ⟨w₁, c₁⟩ := rest₁
      have hc₁ : c₁.filter Call.isReconcile = [] := by
        have := createSecretsLoop_calls docker a.secrets w [] []
        rw [← createSecrets, hsecrets] at this
        simpa using this
      cases r with
      | error err =>
        left
        simp [DeployService.withArgs, DeployService, hord, hsecrets, hc₁]
      | ok refs =>
        cases hfind : FindService docker w₁ a.name with
        | mk r₂ rest₂ =>
          obtain ⟨w₂, c₂⟩ := rest₂
          have hc₂ : c₂ = [Call.serviceList a.name] := by
            have := FindService_calls docker w₁ a.name
            rw [hfind] at this
            exact this
          cases r₂ with
          | error err =>
            right; left
            simp [DeployService.withArgs, DeployService, hord, hsecrets, hfind, hc₁, hc₂,
              List.filter_append, Call.isReconcile]
          | ok found =>
            have hcalls := DeployService_reconcile_calls docker w a events refs w₁ c₁ found w₂
              c₂ horder hsecrets hfind
            cases found with
            | none => exact Or.inr (Or.inr (Or.inl ⟨_, hcalls⟩))
            | some existingService => exact Or.inr (Or.inr (Or.inr ⟨_, _, _, hcalls⟩))

/-- On the reference control plane every secret creation succeeds and leaves
the services as they are. -/
theorem Plane.createSecretsLoop_ok (secrets : GoMap String Bytes) (p : Plane)
    (refs : List SecretReference) (calls : List Call) :
    ∃ refs' p' calls', createSecretsLoop Plane.client secrets p refs calls = (.ok refs', p', calls')
      ∧ p'.services = p.services := by
  induction secrets generalizing p refs calls with
  | nil => exact ⟨refs, p, calls, rfl, rfl⟩
  | cons kv secrets ih =>
    obtain ⟨name, data⟩ := kv
    simp only [createSecretsLoop, Plane.client]
    obtain ⟨refs', p', calls', h, hp⟩ := ih
      { p with secrets := p.secrets ++ [(name ++ "-" ++ toString p.clock, data)] }
      (refs ++ [{ SecretID := "secret-" ++ toString p.secrets.length,
                  SecretName := name ++ "-" ++ toString p.clock,
                  File := { Name := name, UID := "0", GID := "0", Mode := 0o444 } }])
      (calls ++ [Call.secretCreate (name ++ "-" ++ toString p.clock) data])
    exact ⟨refs', p', calls', h, hp⟩

/-- On the reference control plane the lookup answers with the first listed
service whose name is exactly the one asked for. -/
theorem Plane.FindService_eq (p : Plane) (name : String) :
    FindService Plane.client p name
      = (.ok ((p.services.filter (fun s => name.toList.isPrefixOf s.Name.toList)).find?
            (fun s => s.Name == name)), p, [Call.serviceList name]) := rfl

/-- No service of that name on the control plane: the lookup finds nothing. -/
theorem Plane.find_absent (services : List Service) (name : String)
    (habsent : ∀ s ∈ services, s.Name ≠ name) :
    (services.filter (fun s => name.toList.isPrefixOf s.Name.toList)).find?
      (fun s => s.Name == name) = none := by
  rw [List.find?_eq_none]
  intro s hs
  have := habsent s (List.mem_filter.mp hs).1
  simpa using this

/-- A service of that name added behind services of other names: the lookup finds
it. -/
theorem Plane.find_added (services : List Service) (name : String) (svc : Service)
    (habsent : ∀ s ∈ services, s.Name ≠ name) (hname : svc.Name = name) :
    ((services ++ [svc]).filter (fun s => name.toList.isPrefixOf s.Name.toList)).find?
      (fun s => s.Name == name) = some svc := by
  have hprefix : name.toList.isPrefixOf svc.Name.toList = true := by
    rw [hname, List.isPrefixOf_iff_prefix]
  rw [List.filter_append, List.find?_append, Plane.find_absent services name habsent]
  simp [List.filter_cons, hprefix, hname]

/-- A deploy on a reference control plane that has no service of that name
creates the service, which the control plane then holds at version 0. -/
theorem Plane.deploy_absent (p : Plane) (a : DeployArgs) (events : List WaitEvent)
    (habsent : ∀ s ∈ p.services, s.Name ≠ a.name)
    (horder : a.order = UpdateOrderStartFirst ∨ a.order = UpdateOrderStopFirst) :
    (DeployService.withArgs Plane.client p a events).world.services
      = p.services ++ [{ ID := "service-" ++ toString p.services.length, Version := 0,
                         Name := a.name, UpdateStatus := none }] ∧
    ∃ spec, (DeployService.withArgs Plane.client p a events).calls.filter Call.isReconcile
      = [Call.serviceList a.name, Call.serviceCreate spec] := by
  obtain ⟨refs, p', c, hsec, hp⟩ := Plane.createSecretsLoop_ok a.secrets p [] []
  have hsecrets : createSecrets Plane.client p a.secrets = (.ok refs, p', c) := hsec
  have hfind : FindService Plane.client p' a.name = (.ok none, p', [Call.serviceList a.name]) := by
    rw [Plane.FindService_eq, hp, Plane.find_absent _ _ habsent]
  refine ⟨?_, a.spec refs, ?_⟩
  · rw [DeployService_world Plane.client p a events refs p' c none p' _ horder hsecrets hfind]
    have hany : p'.services.any (fun s => s.Name == (a.spec refs).Name) = false := by
      rw [hp, List.any_eq_false]
      intro s hs
      have := habsent s hs
      simpa [DeployArgs.spec, serviceSpec] using this
    simp only [Plane.client, hany]
    simp [hp, DeployArgs.spec, serviceSpec]
  · rw [DeployService_reconcile_calls Plane.client p a events refs p' c none p' _ horder
      hsecrets hfind]

/-- A deploy on a reference control plane on which the lookup finds a service
updates that service with its id and version and creates nothing. -/
theorem Plane.deploy_present (p : Plane) (a : DeployArgs) (events : List WaitEvent)
    (svc : Service)
    (hfound : (p.services.filter (fun s => a.name.toList.isPrefixOf s.Name.toList)).find?
      (fun s => s.Name == a.name) = some svc)
    (horder : a.order = UpdateOrderStartFirst ∨ a.order = UpdateOrderStopFirst) :
    ∃ spec, (DeployService.withArgs Plane.client p a events).calls.filter Call.isReconcile
      = [Call.serviceList a.name, Call.serviceUpdate svc.ID svc.Version spec] := by
  obtain ⟨refs, p', c, hsec, hp⟩ := Plane.createSecretsLoop_ok a.secrets p [] []
  have hsecrets : createSecrets Plane.client p a.secrets = (.ok refs, p', c) := hsec
  have hfind : FindService Plane.client p' a.name
      = (.ok (some svc), p', [Call.serviceList a.name]) := by
    rw [Plane.FindService_eq, hp, hfound]
  refine ⟨a.spec refs, ?_⟩
  rw [DeployService_reconcile_calls Plane.client p a events refs p' c (some svc) p' _ horder
    hsecrets hfind]

/-- C9: once the order is valid, the secrets are created and the lookup has
answered, the reconciling calls of `DeployService` are exactly the lookup by
name followed by one call: a create when nothing was found, otherwise an update
with the id and version of the found service.  Hence on a reference control
plane without a service of that name, a deploy makes lookup and create, and a
second deploy of the same name on the control plane the first one left makes
lookup and update of the created service, and no create.  In every state of
every control plane the reconciling calls are at most one lookup followed by at
most one call, a create or an update, never both. -/
theorem DeployService_create_or_update :
    (∀ {σ : Type} (docker : Client σ) (w : σ) (a : DeployArgs) (events : List WaitEvent)
        (refs : List SecretReference) (w₁ : σ) (c₁ : List Call) (found : Option Service)
        (w₂ : σ) (c₂ : List Call),
      (a.order = UpdateOrderStartFirst ∨ a.order = UpdateOrderStopFirst) →
      createSecrets docker w a.secrets = (.ok refs, w₁, c₁) →
      FindService docker w₁ a.name = (.ok found, w₂, c₂) →
      (DeployService.withArgs docker w a events).calls.filter Call.isReconcile
        = [Call.serviceList a.name,
           match found with
           | none => Call.serviceCreate (a.spec refs)
           | some existingService =>
             Call.serviceUpdate existingService.ID existingService.Version (a.spec refs)]) ∧
    (∀ (p : Plane) (a₁ a₂ : DeployArgs) (events₁ events₂ : List WaitEvent),
      (∀ s ∈ p.services, s.Name ≠ a₁.name) →
      a₂.name = a₁.name →
      (a₁.order = UpdateOrderStartFirst ∨ a₁.order = UpdateOrderStopFirst) →
      (a₂.order = UpdateOrderStartFirst ∨ a₂.order = UpdateOrderStopFirst) →
      (∃ spec, (DeployService.withArgs Plane.client p a₁ events₁).calls.filter Call.isReconcile
        = [Call.serviceList a₁.name, Call.serviceCreate spec]) ∧
      (∃ spec, (DeployService.withArgs Plane.client
            (DeployService.withArgs Plane.client p a₁ events₁).world a₂
            events₂).calls.filter Call.isReconcile
        = [Call.serviceList a₁.name,
           Call.serviceUpdate ("service-" ++ toString p.services.length) 0 spec])) ∧
    (∀ {σ : Type} (docker : Client σ) (w : σ) (a : DeployArgs) (events : List WaitEvent),
      (DeployService.withArgs docker w a events).calls.filter Call.isReconcile = [] ∨
      (DeployService.withArgs docker w a events).calls.filter Call.isReconcile
        = [Call.serviceList a.name] ∨
      (∃ spec, (DeployService.withArgs docker w a events).calls.filter Call.isReconcile
        = [Call.serviceList a.name, Call.serviceCreate spec]) ∨
      (∃ id version spec,
        (DeployService.withArgs docker w a events).calls.filter Call.isReconcile
          = [Call.serviceList a.name, Call.serviceUpdate id version spec])) := by
  refine ⟨fun docker w a events refs w₁ c₁ found w₂ c₂ horder hsecrets hfind =>
    DeployService_reconcile_calls docker w a events refs w₁ c₁ found w₂ c₂ horder hsecrets hfind,
    ?_, fun docker w a events => DeployService_reconcile_shape docker w a events⟩
  intro p a₁ a₂ events₁ events₂ habsent hname horder₁ horder₂
  obtain ⟨hworld, hfirst⟩ := Plane.deploy_absent p a₁ events₁ habsent horder₁
  refine ⟨hfirst, ?_⟩
  have hfound := Plane.find_added p.services a₂.name
    { ID := "service-" ++ toString p.services.length, Version := 0, Name := a₁.name,
      UpdateStatus := none }
    (by rw [hname]; exact habsent) hname.symm
  rw [← hworld] at hfound
  obtain ⟨spec, hsecond⟩ := Plane.deploy_present _ a₂ events₂ _ hfound horder₂
  exact ⟨spec, by rw [hsecond, hname]⟩

/-- C9 on the empty control plane: a deploy of `web` that sees three polls
reporting `updating` and a fourth reporting `completed` makes lookup and create;
the next deploy of `web` makes lookup and update of `service-0` at version 0. -/
theorem DeployService_create_or_update_witness :
    (∃ spec, (DeployService.withArgs Plane.client Plane.empty webArgs
          [waitPoll "web" "updating", waitPoll "web" "updating", waitPoll "web" "updating",
           waitPoll "web" "completed"]).calls.filter Call.isReconcile
        = [Call.serviceList webArgs.name, Call.serviceCreate spec]) ∧
    (∃ spec, (DeployService.withArgs Plane.client
          (DeployService.withArgs Plane.client Plane.empty webArgs
            [waitPoll "web" "updating", waitPoll "web" "updating", waitPoll "web" "updating",
             waitPoll "web" "completed"]).world webArgs
          [waitPoll "web" "completed"]).calls.filter Call.isReconcile
        = [Call.serviceList webArgs.name,
           Call.serviceUpdate ("service-" ++ toString Plane.empty.services.length) 0 spec]) :=
  DeployService_create_or_update.2.1 Plane.empty webArgs webArgs
    [waitPoll "web" "updating", waitPoll "web" "updating", waitPoll "web" "updating",
     waitPoll "web" "completed"]
    [waitPoll "web" "completed"] (by decide) rfl (by decide) (by decide)

/-- The scenario of the first deploy of `web` in full: it returns nil after
writing the creating line and one success line, having made one secret creation,
the lookup, the create, the subscription to the event feed and four polls. -/
theorem DeployService_scenario :
    (DeployService.withArgs Plane.client Plane.empty webArgs
      [waitPoll "web" "updating", waitPoll "web" "updating", waitPoll "web" "updating",
       waitPoll "web" "completed"]).result = Resolution.returned none ∧
    (DeployService.withArgs Plane.client Plane.empty webArgs
      [waitPoll "web" "updating", waitPoll "web" "updating", waitPoll "web" "updating",
       waitPoll "web" "completed"]).out
      = ["dockboy: creating service 'web'...\n",
         "dockboy: service 'web' updated successfully.\n"] ∧
    (DeployService.withArgs Plane.client Plane.empty webArgs
      [waitPoll "web" "updating", waitPoll "web" "updating", waitPoll "web" "updating",
       waitPoll "web" "completed"]).calls
      = [Call.secretCreate "token-0" [1, 2], Call.serviceList "web",
         Call.serviceCreate (webArgs.spec
           [{ SecretID := "secret-0", SecretName := "token-0",
              File := { Name := "token", UID := "0", GID := "0", Mode := 292 } }]),
         Call.events, Call.serviceInspect "service-0", Call.serviceInspect "service-0",
         Call.serviceInspect "service-0", Call.serviceInspect "service-0"] := by
  decide

/-! ### Creating the secrets -/

/-- When the creations for `pre` all succeed, the loop over `pre ++ rest` goes on
over `rest` from what the loop over `pre` reached. -/
theorem createSecretsLoop_append {σ : Type} (docker : Client σ)
    (pre rest : GoMap String Bytes) (w : σ) (refs : List SecretReference) (calls : List Call)
    (refs₁ : List SecretReference) (w₁ : σ) (c₁ : List Call)
    (hpre : createSecretsLoop docker pre w refs calls = (.ok refs₁, w₁, c₁)) :
    createSecretsLoop docker (pre ++ rest) w refs calls
      = createSecretsLoop docker rest w₁ refs₁ c₁ := by
  induction pre generalizing w refs calls with
  | nil =>
    simp only [createSecretsLoop, Prod.mk.injEq, Except.ok.injEq] at hpre
    obtain ⟨h₁, h₂, h₃⟩ := hpre
    subst h₁ h₂ h₃
    rfl
  | cons kv pre ih =>
    obtain ⟨name, data⟩ := kv
    simp only [List.cons_append, createSecretsLoop] at hpre ⊢
    cases h : docker.secretCreate w (name ++ "-" ++ toString (docker.unixNow w)) data with
    | mk r w' =>
      rw [h] at hpre
      cases r with
      | error err => simp at hpre
      | ok id => exact ih _ _ _ hpre

/-- When every creation succeeds, the loop has made one creation per entry, with
the payload of that entry, and collected one reference per entry, whose file
target carries the key of that entry, in visiting order. -/
theorem createSecretsLoop_entries {σ : Type} (docker : Client σ) (secrets : GoMap String Bytes)
    (w : σ) (refs : List SecretReference) (calls : List Call)
    (refs₁ : List SecretReference) (w₁ : σ) (c₁ : List Call)
    (hok : createSecretsLoop docker secrets w refs calls = (.ok refs₁, w₁, c₁)) :
    refs₁.map (fun r => r.File.Name) = refs.map (fun r => r.File.Name) ++ secrets.map (fun kv => kv.1)
      ∧ c₁.map Call.secretData?
          = calls.map Call.secretData? ++ secrets.map (fun kv => some kv.2) := by
  induction secrets generalizing w refs calls with
  | nil =>
    simp only [createSecretsLoop, Prod.mk.injEq, Except.ok.injEq] at hok
    obtain ⟨h₁, _, h₃⟩ := hok
    subst h₁ h₃
    simp
  | cons kv secrets ih =>
    obtain ⟨name, data⟩ := kv
    simp only [createSecretsLoop] at hok
    cases h : docker.secretCreate w (name ++ "-" ++ toString (docker.unixNow w)) data with
    | mk r w' =>
      rw [h] at hok
      cases r with
      | error err => simp at hok
      | ok id =>
        obtain ⟨hr, hc⟩ := ih _ _ _ hok
        refine ⟨?_, ?_⟩
        · rw [hr]; simp
        · rw [hc]; simp [Call.secretData?]

/-- The claim C11 as worded fails: on a control plane that accepts one secret,
the creation for the key `token` fails, and the error `createSecrets` returns is
the wrapped cause, in which the key `token` does not occur. -/
theorem createSecrets_error_without_key_counterexample :
    (createSecrets (Plane.quotaClient 1) Plane.empty
        [("alpha", [1]), ("token", [2]), ("omega", [3])]).1
      = .error "creating secret: quota exceeded" ∧
    ¬ ("token".toList <:+: "creating secret: quota exceeded".toList) :=
  ⟨rfl, by decide⟩

/-- C11, amended: when the creations for the entries visited first succeed and
the creation for the entry `key` fails with `cause`, `createSecrets` returns the
error `creating secret: ` followed by `cause` (the key is not part of it) and no
references; its calls are one creation per entry visited before and the failed
one, none for the entries after it; and the control plane is left as the failed
creation left it, every secret created before still on it. -/
theorem createSecrets_fails_fast {σ : Type} (docker : Client σ) (w : σ)
    (pre : GoMap String Bytes) (key : String) (data : Bytes) (rest : GoMap String Bytes)
    (refs₁ : List SecretReference) (w₁ : σ) (c₁ : List Call) (cause : String) (w₂ : σ)
    (hpre : createSecrets docker w pre = (.ok refs₁, w₁, c₁))
    (hfail : docker.secretCreate w₁ (key ++ "-" ++ toString (docker.unixNow w₁)) data
      = (.error cause, w₂)) :
    createSecrets docker w (pre ++ (key, data) :: rest)
      = (.error ("creating secret: " ++ cause), w₂,
          c₁ ++ [Call.secretCreate (key ++ "-" ++ toString (docker.unixNow w₁)) data]) ∧
    c₁.map Call.secretData? = pre.map (fun kv => some kv.2) := by
  simp only [createSecrets] at hpre ⊢
  refine ⟨?_, ?_⟩
  · rw [createSecretsLoop_append docker pre _ w [] [] refs₁ w₁ c₁ hpre]
    simp only [createSecretsLoop, hfail]
  · simpa using (createSecretsLoop_entries docker pre w [] [] refs₁ w₁ c₁ hpre).2

/-- The amended C11 on a control plane that accepts one secret: `alpha` is
created, `token` fails, `omega` is never tried, and `alpha` is still stored. -/
theorem createSecrets_fails_fast_witness :
    createSecrets (Plane.quotaClient 1) Plane.empty
        ([("alpha", [1])] ++ ("token", [2]) :: [("omega", [3])])
      = (.error ("creating secret: " ++ "quota exceeded"),
          { services := [], secrets := [("alpha-0", [1])], clock := 0 },
          [Call.secretCreate "alpha-0" [1]]
            ++ [Call.secretCreate
                  ("token" ++ "-" ++ toString ((Plane.quotaClient 1).unixNow
                    { services := [], secrets := [("alpha-0", [1])], clock := 0 })) [2]]) :=
  (createSecrets_fails_fast (Plane.quotaClient 1) Plane.empty [("alpha", [1])] "token" [2]
    [("omega", [3])]
    [{ SecretID := "secret-0", SecretName := "alpha-0",
       File := { Name := "alpha", UID := "0", GID := "0", Mode := 292 } }]
    { services := [], secrets := [("alpha-0", [1])], clock := 0 }
    [Call.secretCreate "alpha-0" [1]] "quota exceeded"
    { services := [], secrets := [("alpha-0", [1])], clock := 0 } rfl rfl).1

/-! ### Parsing the secrets -/

/-- An entry of `m[k] = v` is an entry of `m` or the assigned one. -/
theorem GoMap.mem_set {m : GoMap String Bytes} {k : String} {v : Bytes} {e : String × Bytes}
    (he : e ∈ m.set k v) : e ∈ m ∨ e = (k, v) := by
  unfold GoMap.set at he
  split at he
  · obtain ⟨kv, hkv, hmap⟩ := List.mem_map.mp he
    split at hmap
    · exact Or.inr hmap.symm
    · exact Or.inl (hmap ▸ hkv)
  · rcases List.mem_append.mp he with h | h
    · exact Or.inl h
    · exact Or.inr (by simpa using h)

/-- The UTF-8 encoding of a string that is not empty is not empty. -/
theorem utf8Bytes_ne_nil (s : String) (hs : s ≠ "") : utf8Bytes s ≠ [] := by
  obtain ⟨data⟩ := s
  cases data with
  | nil => exact absurd rfl hs
  | cons c cs =>
    simp only [utf8Bytes, String.toList, List.flatMap_cons]
    intro h
    have h' := (List.append_eq_nil.mp h).1
    simp only [List.map_eq_nil_iff, String.utf8EncodeChar] at h'
    split_ifs at h'

/-- The loop of `parseSecrets` passes over the entries whose value is empty. -/
theorem parseSecretsLoop_filter (readFile : String → Except String Bytes)
    (secrets : GoMap String String) (res : GoMap String Bytes) :
    parseSecretsLoop readFile secrets res
      = parseSecretsLoop readFile (secrets.filter (fun kv => kv.2 ≠ "")) res := by
  induction secrets generalizing res with
  | nil => rfl
  | cons kv secrets ih =>
    obtain ⟨key, value⟩ := kv
    by_cases hv : value = ""
    · simp [parseSecretsLoop, hv, List.filter_cons, ih]
    · simp only [List.filter_cons, hv, ne_eq, not_false_eq_true, decide_True, if_true,
        parseSecretsLoop, if_false]
      split
      · cases readFile value with
        | error err => rfl
        | ok content => exact ih _
      · exact ih _

/-- Every entry of the map the loop of `parseSecrets` returns was in the map
before or stems from an entry with a value that is not empty: an inline one,
whose payload is the bytes of the value, or a `_file` one, whose payload is the
content of the file. -/
theorem parseSecretsLoop_mem (readFile : String → Except String Bytes)
    (secrets : GoMap String String) (res : GoMap String Bytes) (e : String × Bytes)
    (he : e ∈ (parseSecretsLoop readFile secrets res).1) :
    e ∈ res ∨ ∃ key value, (key, value) ∈ secrets ∧ value ≠ "" ∧
      ((strings.HasSuffix key "_file" = false ∧ e = (key, utf8Bytes value)) ∨
       (strings.HasSuffix key "_file" = true ∧
          ∃ content, readFile value = .ok content ∧
            e = (strings.TrimSuffix key "_file", content))) := by
  induction secrets generalizing res with
  | nil => exact Or.inl he
  | cons kv secrets ih =>
    obtain ⟨key, value⟩ := kv
    have lift : (∃ key' value', (key', value') ∈ secrets ∧ value' ≠ "" ∧
        ((strings.HasSuffix key' "_file" = false ∧ e = (key', utf8Bytes value')) ∨
         (strings.HasSuffix key' "_file" = true ∧
            ∃ content, readFile value' = .ok content ∧
              e = (strings.TrimSuffix key' "_file", content)))) →
        ∃ key' value', (key', value') ∈ (key, value) :: secrets ∧ value' ≠ "" ∧
        ((strings.HasSuffix key' "_file" = false ∧ e = (key', utf8Bytes value')) ∨
         (strings.HasSuffix key' "_file" = true ∧
            ∃ content, readFile value' = .ok content ∧
              e = (strings.TrimSuffix key' "_file", content))) := by
      rintro ⟨k, v, hm, hrest⟩
      exact ⟨k, v, List.mem_cons_of_mem _ hm, hrest⟩
    by_cases hv : value = ""
    · simp only [parseSecretsLoop, hv, if_true] at he
      rcases ih res he with h | h
      · exact Or.inl h
      · exact Or.inr (lift h)
    · simp only [parseSecretsLoop, hv, if_false] at he
      by_cases hsuf : strings.HasSuffix key "_file" = true
      · simp only [hsuf, if_true] at he
        cases hread : readFile value with
        | error err =>
          rw [hread] at he
          exact Or.inl he
        | ok content =>
          rw [hread] at he
          rcases ih _ he with h | h
          · rcases GoMap.mem_set h with h' | h'
            · exact Or.inl h'
            · exact Or.inr ⟨key, value, List.mem_cons_self _ _, hv,
                Or.inr ⟨hsuf, content, hread, h'⟩⟩
          · exact Or.inr (lift h)
      · simp only [hsuf, if_false] at he
        rcases ih _ he with h | h
        · rcases GoMap.mem_set h with h' | h'
          · exact Or.inl h'
          · exact Or.inr ⟨key, value, List.mem_cons_self _ _, hv,
              Or.inl ⟨by simpa using hsuf, h'⟩⟩
        · exact Or.inr (lift h)

/-- The claim C12 as worded fails: `parseSecrets` keeps the entry `token_file`
whose file is empty, with an empty payload, and `createSecrets`, given an entry
with an empty payload, creates a secret with no data for it and returns a
reference for it. -/
theorem createSecrets_empty_payload_counterexample :
    parseSecrets emptyFile [("token_file", "/run/secrets/empty")] = ([("token", [])], none) ∧
    createSecrets Plane.client Plane.empty [("token", [])]
      = (.ok [{ SecretID := "secret-0", SecretName := "token-0",
                File := { Name := "token", UID := "0", GID := "0", Mode := 292 } }],
         { services := [], secrets := [("token-0", [])], clock := 0 },
         [Call.secretCreate "token-0" []]) :=
  ⟨by decide, rfl⟩

/-- C12, amended: `parseSecrets` passes over every entry whose configured value
is the empty string; every entry of the map it returns stems from an entry with
a value that is not empty, either an inline one, whose payload is the bytes of
that value and so not empty, or a `_file` one, whose payload is whatever the file
holds.  `createSecrets` checks no payload: when every creation succeeds it has
made exactly one creation per entry of its map, with the payload of that entry,
and returns exactly one reference per entry, in visiting order. -/
theorem secrets_one_per_entry :
    (∀ (readFile : String → Except String Bytes) (secrets : GoMap String String),
      parseSecrets readFile secrets
        = parseSecrets readFile (secrets.filter (fun kv => kv.2 ≠ ""))) ∧
    (∀ (readFile : String → Except String Bytes) (secrets : GoMap String String)
        (k : String) (payload : Bytes),
      (k, payload) ∈ (parseSecrets readFile secrets).1 →
      ∃ key value, (key, value) ∈ secrets ∧ value ≠ "" ∧
        ((strings.HasSuffix key "_file" = false ∧ k = key ∧ payload = utf8Bytes value ∧
            payload ≠ []) ∨
         (strings.HasSuffix key "_file" = true ∧ k = strings.TrimSuffix key "_file" ∧
            readFile value = .ok payload))) ∧
    (∀ {σ : Type} (docker : Client σ) (w : σ) (secrets : GoMap String Bytes)
        (refs : List SecretReference) (w₁ : σ) (c₁ : List Call),
      createSecrets docker w secrets = (.ok refs, w₁, c₁) →
      refs.map (fun r => r.File.Name) = secrets.map (fun kv => kv.1) ∧
      c₁.map Call.secretData? = secrets.map (fun kv => some kv.2)) := by
  refine ⟨fun readFile secrets => parseSecretsLoop_filter readFile secrets [], ?_, ?_⟩
  · intro readFile secrets k payload hmem
    rcases parseSecretsLoop_mem readFile secrets [] (k, payload) hmem with h | h
    · simp at h
    · obtain ⟨key, value, hin, hv, hcase⟩ := h
      refine ⟨key, value, hin, hv, ?_⟩
      rcases hcase with ⟨hsuf, he⟩ | ⟨hsuf, content, hread, he⟩
      · simp only [Prod.mk.injEq] at he
        exact Or.inl ⟨hsuf, he.1, he.2, he.2 ▸ utf8Bytes_ne_nil value hv⟩
      · simp only [Prod.mk.injEq] at he
        exact Or.inr ⟨hsuf, he.1, he.2 ▸ hread⟩
  · intro σ docker w secrets refs w₁ c₁ hok
    simpa using createSecretsLoop_entries docker secrets w [] [] refs w₁ c₁ hok

/-- The amended C12 on the empty reference control plane, for a map with an empty
and a non-empty payload: two creations, two references. -/
theorem secrets_one_per_entry_witness :
    [({ SecretID := "secret-0", SecretName := "token-0",
        File := { Name := "token", UID := "0", GID := "0", Mode := 292 } } : SecretReference),
     { SecretID := "secret-1", SecretName := "key-0",
       File := { Name := "key", UID := "0", GID := "0", Mode := 292 } }].map
        (fun r => r.File.Name)
      = [("token", ([] : Bytes)), ("key", [7])].map (fun kv => kv.1) ∧
    [Call.secretCreate "token-0" [], Call.secretCreate "key-0" [7]].map Call.secretData?
      = [("token", ([] : Bytes)), ("key", [7])].map (fun kv => some kv.2) :=
  secrets_one_per_entry.2.2 Plane.client Plane.empty [("token", []), ("key", [7])]
    [{ SecretID := "secret-0", SecretName := "token-0",
       File := { Name := "token", UID := "0", GID := "0", Mode := 292 } },
     { SecretID := "secret-1", SecretName := "key-0",
       File := { Name := "key", UID := "0", GID := "0", Mode := 292 } }]
    { services := [], secrets := [("token-0", []), ("key-0", [7])], clock := 0 }
    [Call.secretCreate "token-0" [], Call.secretCreate "key-0" [7]] rfl

/-! ### The event watcher -/

/-- Reading a key that the map does not hold gives the empty string. -/
theorem GoMap.get_absent (m : GoMap String String) (k : String)
    (habsent : ∀ kv ∈ m, kv.1 ≠ k) : m.get k = "" := by
  have hnone : m.find? (fun kv => kv.1 == k) = none := by
    rw [List.find?_eq_none]
    intro kv hkv
    simpa using habsent kv hkv
  simp [GoMap.get, hnone]

/-- What wakes only the event watcher changes nothing of `WaitForService` but the
lines written and the calls made. -/
theorem WaitForServiceLoop_watch (serviceID : String) (events : List WaitEvent)
    (hwatch : ∀ e ∈ events, e.isWatch = true) (st : WaitRun) :
    (WaitForServiceLoop serviceID events st).doneCloses = st.doneCloses ∧
    (WaitForServiceLoop serviceID events st).result = st.result ∧
    (WaitForServiceLoop serviceID events st).lastState = st.lastState ∧
    (WaitForServiceLoop serviceID events st).monitorReturned = st.monitorReturned ∧
    (WaitForServiceLoop serviceID events st).polls = st.polls ∧
    (WaitForServiceLoop serviceID events st).cancelled = st.cancelled := by
  induction events generalizing st with
  | nil => exact ⟨rfl, rfl, rfl, rfl, rfl, rfl⟩
  | cons e events ih =>
    have he := hwatch e (List.mem_cons_self e events)
    have hwatch' : ∀ e ∈ events, e.isWatch = true :=
      fun e he => hwatch e (List.mem_cons_of_mem _ he)
    cases e with
    | signal => simp [WaitEvent.isWatch] at he
    | ctxDone => simp [WaitEvent.isWatch] at he
    | tick inspect tasks => simp [WaitEvent.isWatch] at he
    | message msg inspect =>
      simp only [WaitForServiceLoop]
      exact ih hwatch' _
    | feedError err =>
      simp only [WaitForServiceLoop]
      exact ih hwatch' _

/-- C13: for every event whose service-id attribute differs from the target
service id, `handleEvent` writes nothing and makes no call, whatever the action;
an event without that attribute is such an event for every target id that is not
empty.  And whatever wakes the event watcher, messages or error values, done
stays as it is and `WaitForService` does not resolve: only lines and calls are
added. -/
theorem handleEvent_other_service :
    (∀ (event : Message) (serviceID : String) (inspect : Except String ContainerJSON),
      event.Attributes.get "com.docker.swarm.service.id" ≠ serviceID →
      handleEvent event serviceID inspect = ([], [])) ∧
    (∀ (event : Message) (serviceID : String) (inspect : Except String ContainerJSON),
      (∀ kv ∈ event.Attributes, kv.1 ≠ "com.docker.swarm.service.id") → serviceID ≠ "" →
      handleEvent event serviceID inspect = ([], [])) ∧
    (∀ (serviceID : String) (events : List WaitEvent) (st : WaitRun),
      (∀ e ∈ events, e.isWatch = true) →
      (WaitForServiceLoop serviceID events st).doneCloses = st.doneCloses ∧
      (WaitForServiceLoop serviceID events st).result = st.result ∧
      (WaitForServiceLoop serviceID events st).lastState = st.lastState ∧
      (WaitForServiceLoop serviceID events st).monitorReturned = st.monitorReturned ∧
      (WaitForServiceLoop serviceID events st).polls = st.polls ∧
      (WaitForServiceLoop serviceID events st).cancelled = st.cancelled) := by
  refine ⟨?_, ?_, fun serviceID events st hwatch =>
    WaitForServiceLoop_watch serviceID events hwatch st⟩
  · intro event serviceID inspect hne
    simp [handleEvent, hne]
  · intro event serviceID inspect habsent hid
    have hget := GoMap.get_absent event.Attributes "com.docker.swarm.service.id" habsent
    have hne : event.Attributes.get "com.docker.swarm.service.id" ≠ serviceID := by
      rw [hget]
      exact fun h => hid h.symm
    simp [handleEvent, hne]

/-- C13 at a `create` event of another service and at an `unhealthy` event of a
container without service, both while waiting for service `svc`. -/
theorem handleEvent_other_service_witness :
    handleEvent otherServiceEvent "svc" (.error "gone") = ([], []) ∧
    handleEvent plainContainerEvent "svc" (.error "gone") = ([], []) ∧
    (WaitForServiceLoop "svc"
      [WaitEvent.message otherServiceEvent (.error "gone"), WaitEvent.feedError (some "eof")]
      WaitRun.start).doneCloses = WaitRun.start.doneCloses :=
  ⟨handleEvent_other_service.1 otherServiceEvent "svc" (.error "gone") (by decide),
   handleEvent_other_service.2.1 plainContainerEvent "svc" (.error "gone") (by decide)
     (by decide),
   (handleEvent_other_service.2.2 "svc"
      [WaitEvent.message otherServiceEvent (.error "gone"), WaitEvent.feedError (some "eof")]
      WaitRun.start (by decide)).1⟩

/-! ### The submitted service spec -/

/-- A call that submits a service spec is a reconciling call. -/
theorem Call.isReconcile_of_spec {c : Call} {spec : ServiceSpec} (h : c.spec? = some spec) :
    c.isReconcile = true := by
  cases c <;> simp [Call.spec?] at h <;> rfl

/-- Every service spec that `DeployService` submits, in a create or in an update,
is the literal `spec` built from its arguments and the secret references it
created. -/
theorem DeployService_submitted_spec {σ : Type} (docker : Client σ) (w : σ) (a : DeployArgs)
    (events : List WaitEvent) (c : Call) (spec : ServiceSpec)
    (hc : c ∈ (DeployService.withArgs docker w a events).calls) (hspec : c.spec? = some spec) :
    ∃ refs, spec = a.spec refs := by
  have hmem : c ∈ (DeployService.withArgs docker w a events).calls.filter Call.isReconcile :=
    List.mem_filter.mpr ⟨hc, Call.isReconcile_of_spec hspec⟩
  by_cases hord : a.order ≠ UpdateOrderStartFirst ∧ a.order ≠ UpdateOrderStopFirst
  · simp [DeployService.withArgs, DeployService, hord] at hmem
  · have horder : a.order = UpdateOrderStartFirst ∨ a.order = UpdateOrderStopFirst := by
      by_cases h : a.order = UpdateOrderStartFirst
      · exact Or.inl h
      · by_cases h' : a.order = UpdateOrderStopFirst
        · exact Or.inr h'
        · exact absurd ⟨h, h'⟩ hord
    cases hsecrets : createSecrets docker w a.secrets with
    | mk r rest₁ =>
      obtain ⟨w₁, c₁⟩ := rest₁
      have hc₁ : c₁.filter Call.isReconcile = [] := by
        have := createSecretsLoop_calls docker a.secrets w [] []
        rw [← createSecrets, hsecrets] at this
        simpa using this
      cases r with
      | error err =>
        simp [DeployService.withArgs, DeployService, hord, hsecrets, hc₁] at hmem
      | ok refs =>
        cases hfind : FindService docker w₁ a.name with
        | mk r₂ rest₂ =>
          obtain ⟨w₂, c₂⟩ := rest₂
          have hc₂ : c₂ = [Call.serviceList a.name] := by
            have := FindService_calls docker w₁ a.name
            rw [hfind] at this
            exact this
          cases r₂ with
          | error err =>
            simp [DeployService.withArgs, DeployService, hord, hsecrets, hfind, hc₁, hc₂,
              List.filter_append, Call.isReconcile] at hmem
            subst hmem
            simp [Call.spec?] at hspec
          | ok found =>
            have hcalls := DeployService_reconcile_calls docker w a events refs w₁ c₁ found w₂
              c₂ horder hsecrets hfind
            rw [hcalls] at hmem
            cases found with
            | none =>
              simp only [List.mem_cons, List.mem_singleton, List.not_mem_nil, or_false] at hmem
              rcases hmem with h | h
              · subst h
                simp [Call.spec?] at hspec
              · subst h
                simp only [Call.spec?, Option.some.injEq] at hspec
                exact ⟨refs, hspec.symm⟩
            | some existingService =>
              simp only [List.mem_cons, List.mem_singleton, List.not_mem_nil, or_false] at hmem
              rcases hmem with h | h
              · subst h
                simp [Call.spec?] at hspec
              · subst h
                simp only [Call.spec?, Option.some.injEq] at hspec
                exact ⟨refs, hspec.symm⟩

/-- C16: every service spec that `DeployService` submits has update policy with
parallelism 1, failure action `rollback` and the given order, rollback policy
with parallelism 1 and failure action `pause`, and the name, image, labels,
health check and mounts of its arguments unchanged.  And for a valid order, once
the secrets are created and the lookup has answered, a spec is submitted. -/
theorem DeployService_spec_policies :
    (∀ {σ : Type} (docker : Client σ) (w : σ) (a : DeployArgs) (events : List WaitEvent)
        (c : Call) (spec : ServiceSpec),
      c ∈ (DeployService.withArgs docker w a events).calls → c.spec? = some spec →
      spec.UpdateConfig.Parallelism = 1 ∧
      spec.UpdateConfig.FailureAction = UpdateFailureActionRollback ∧
      spec.UpdateConfig.Order = a.order ∧
      spec.RollbackConfig.Parallelism = 1 ∧
      spec.RollbackConfig.FailureAction = UpdateFailureActionPause ∧
      spec.Name = a.name ∧
      spec.TaskTemplate.ContainerSpec.Image = a.image ∧
      spec.Labels = a.labels ∧
      spec.TaskTemplate.ContainerSpec.Healthcheck = a.healthcheck ∧
      spec.TaskTemplate.ContainerSpec.Mounts = a.mounts) ∧
    (∀ {σ : Type} (docker : Client σ) (w : σ) (a : DeployArgs) (events : List WaitEvent)
        (refs : List SecretReference) (w₁ : σ) (c₁ : List Call) (found : Option Service)
        (w₂ : σ) (c₂ : List Call),
      (a.order = UpdateOrderStartFirst ∨ a.order = UpdateOrderStopFirst) →
      createSecrets docker w a.secrets = (.ok refs, w₁, c₁) →
      FindService docker w₁ a.name = (.ok found, w₂, c₂) →
      ∃ c ∈ (DeployService.withArgs docker w a events).calls, c.spec? = some (a.spec refs)) := by
  refine ⟨?_, ?_⟩
  · intro σ docker w a events c spec hc hspec
    obtain ⟨refs, rfl⟩ := DeployService_submitted_spec docker w a events c spec hc hspec
    exact ⟨rfl, rfl, rfl, rfl, rfl, rfl, rfl, rfl, rfl, rfl⟩
  · intro σ docker w a events refs w₁ c₁ found w₂ c₂ horder hsecrets hfind
    have hcalls := DeployService_reconcile_calls docker w a events refs w₁ c₁ found w₂ c₂ horder
      hsecrets hfind
    cases found with
    | none =>
      refine ⟨Call.serviceCreate (a.spec refs), ?_, rfl⟩
      have : Call.serviceCreate (a.spec refs)
          ∈ (DeployService.withArgs docker w a events).calls.filter Call.isReconcile := by
        rw [hcalls]; simp
      exact (List.mem_filter.mp this).1
    | some existingService =>
      refine ⟨Call.serviceUpdate existingService.ID existingService.Version (a.spec refs), ?_,
        rfl⟩
      have : Call.serviceUpdate existingService.ID existingService.Version (a.spec refs)
          ∈ (DeployService.withArgs docker w a events).calls.filter Call.isReconcile := by
        rw [hcalls]; simp
      exact (List.mem_filter.mp this).1

/-- C16 at the first deploy of `web` on the empty control plane: the spec of its
create has the order `stop-first` of the arguments. -/
theorem DeployService_spec_policies_witness :
    (webArgs.spec
        [{ SecretID := "secret-0", SecretName := "token-0",
           File := { Name := "token", UID := "0", GID := "0", Mode := 292 } }]).UpdateConfig.Order
      = webArgs.order :=
  (DeployService_spec_policies.1 Plane.client Plane.empty webArgs [waitPoll "web" "completed"]
    (Call.serviceCreate (webArgs.spec
      [{ SecretID := "secret-0", SecretName := "token-0",
         File := { Name := "token", UID := "0", GID := "0", Mode := 292 } }]))
    (webArgs.spec
      [{ SecretID := "secret-0", SecretName := "token-0",
         File := { Name := "token", UID := "0", GID := "0", Mode := 292 } }])
    (by decide) rfl).2.2.1

/-! ### The arguments of the deploy command -/

/-- When `runDeploy` reaches its call of `DeployService`, the replica count, the
network list, the default order and the pass-through arguments are these. -/
theorem runDeployArgs_ok (internal pub : String) (readFile : String → Except String Bytes)
    (conf : config.Config) (a : DeployArgs)
    (hargs : runDeployArgs internal pub readFile conf = .ok a) :
    a.replicas = (if conf.Replicas = 0 then 1 else conf.Replicas) ∧
    a.networks = (if conf.Public.Address ≠ "" then [internal, pub] else [internal]) ∧
    a.name = conf.Name ∧ a.image = conf.Image := by
  unfold runDeployArgs at hargs
  cases hp : parseSecrets readFile conf.Secrets with
  | mk res err =>
    rw [hp] at hargs
    cases err with
    | some e => simp at hargs
    | none =>
      simp only [Except.ok.injEq] at hargs
      subst hargs
      refine ⟨rfl, ?_, rfl, rfl⟩
      by_cases h : conf.Public.Address = "" <;> simp [h]

/-- C14: the network list `runDeploy` passes to `DeployService` holds the
internal network first, and after it the public network when a public address
is configured and nothing otherwise; so it always contains the internal network
and (the two networks being different) contains the public one exactly when the
address is not empty.  `parseNetworks` yields one attachment per network, in the
same order, targeting that network, and these are the networks of the spec. -/
theorem runDeploy_networks (internal pub : String) (readFile : String → Except String Bytes)
    (conf : config.Config) (a : DeployArgs)
    (hargs : runDeployArgs internal pub readFile conf = .ok a) :
    a.networks = (if conf.Public.Address ≠ "" then [internal, pub] else [internal]) ∧
    internal ∈ a.networks ∧
    (conf.Public.Address ≠ "" → pub ∈ a.networks) ∧
    (internal ≠ pub → (pub ∈ a.networks ↔ conf.Public.Address ≠ "")) ∧
    (parseNetworks a.networks).map (fun n => n.Target) = a.networks ∧
    (∀ refs : List SecretReference,
      (a.spec refs).TaskTemplate.Networks = parseNetworks a.networks) := by
  obtain ⟨_, hnet, _, _⟩ := runDeployArgs_ok internal pub readFile conf a hargs
  refine ⟨hnet, ?_, ?_, ?_, ?_, fun refs => rfl⟩
  · rw [hnet]
    by_cases h : conf.Public.Address = "" <;> simp [h]
  · intro h
    rw [hnet]
    simp [h]
  · intro hne
    rw [hnet]
    by_cases h : conf.Public.Address = ""
    · simp [h, Ne.symm hne]
    · simp [h]
  · simp [parseNetworks, List.map_map, Function.comp_def]

/-- C14 at `webConfig`, whose public address is `example.com`. -/
theorem runDeploy_networks_witness :
    webConfigArgs.networks
      = (if webConfig.Public.Address ≠ "" then ["internal", "public"] else ["internal"]) :=
  (runDeploy_networks "internal" "public" emptyFile webConfig webConfigArgs rfl).1

/-- C15: the replica count `runDeploy` passes to `DeployService` is 1 when the
configured count is zero (which is also what an unset count is) and the
configured count otherwise, and every service spec `DeployService` then submits
carries that count. -/
theorem runDeploy_replicas (internal pub : String) (readFile : String → Except String Bytes)
    (conf : config.Config) (a : DeployArgs)
    (hargs : runDeployArgs internal pub readFile conf = .ok a) :
    (conf.Replicas = 0 → a.replicas = 1) ∧
    (conf.Replicas ≠ 0 → a.replicas = conf.Replicas) ∧
    (∀ {σ : Type} (docker : Client σ) (w : σ) (events : List WaitEvent) (c : Call)
        (spec : ServiceSpec),
      c ∈ (DeployService.withArgs docker w a events).calls → c.spec? = some spec →
      spec.Replicas = (if conf.Replicas = 0 then 1 else conf.Replicas)) := by
  obtain ⟨hrep, _, _, _⟩ := runDeployArgs_ok internal pub readFile conf a hargs
  refine ⟨fun h => by simp [hrep, h], fun h => by simp [hrep, h], ?_⟩
  intro σ docker w events c spec hc hspec
  obtain ⟨refs, rfl⟩ := DeployService_submitted_spec docker w a events c spec hc hspec
  exact hrep

/-- C15 at `webConfig`, which sets no replica count, deployed on the empty
control plane: the created service has one replica. -/
theorem runDeploy_replicas_witness :
    (webConfigArgs.spec
        [{ SecretID := "secret-0", SecretName := "token-0",
           File := { Name := "token", UID := "0", GID := "0", Mode := 292 } }]).Replicas
      = (if webConfig.Replicas = 0 then 1 else webConfig.Replicas) :=
  (runDeploy_replicas "internal" "public" emptyFile webConfig webConfigArgs rfl).2.2
    Plane.client Plane.empty [waitPoll "web" "completed"]
    (Call.serviceCreate (webConfigArgs.spec
      [{ SecretID := "secret-0", SecretName := "token-0",
         File := { Name := "token", UID := "0", GID := "0", Mode := 292 } }]))
    (webConfigArgs.spec
      [{ SecretID := "secret-0", SecretName := "token-0",
         File := { Name := "token", UID := "0", GID := "0", Mode := 292 } }])
    (by decide) rfl

/-! ### Paused rollouts -/

/-- The state `checkService` holds in `lastState` is never `completed`, `paused`
or `rollback_paused`. -/
theorem checkServiceLoop_recordable (serviceID : String) (events : List CheckEvent)
    (st : CheckRun) (hst : UpdateState.recordable st.lastState) :
    UpdateState.recordable (checkServiceLoop serviceID events st).lastState := by
  induction events generalizing st with
  | nil => exact hst
  | cons e events ih =>
    cases e with
    | ctxDone => exact hst
    | tick inspect tasks =>
      have hrec := checkServiceTick_recordable serviceID st.lastState inspect tasks hst
      simp only [checkServiceLoop]
      split
      · exact hrec
      · exact ih _ hrec

/-- A poll that reports `paused` writes the paused line, closes done and returns. -/
theorem checkServiceTick_paused (serviceID : String) (last : UpdateState)
    (service : Service) (status : UpdateStatus) (tasks : Except String (List Task))
    (hs : service.UpdateStatus = some status) (hl : UpdateState.recordable last)
    (hp : status.State = UpdateStatePaused) :
    checkServiceTick serviceID last (.ok service) tasks
      = { lines := ["dockboy: service '" ++ service.Name ++ "' update paused.\n"],
          calls := [Call.serviceInspect serviceID],
          lastState := last, closed := true, returned := true } := by
  have hne : ¬ UpdateStatePaused = last := fun e => hl.2.1 e.symm
  simp [checkServiceTick, hs, hp, hne]
  simp [UpdateStatePaused, UpdateStateCompleted]

/-- A poll that reports `rollback_paused` writes the rollback-paused line, closes
done and returns. -/
theorem checkServiceTick_rollback_paused (serviceID : String) (last : UpdateState)
    (service : Service) (status : UpdateStatus) (tasks : Except String (List Task))
    (hs : service.UpdateStatus = some status) (hl : UpdateState.recordable last)
    (hp : status.State = UpdateStateRollbackPaused) :
    checkServiceTick serviceID last (.ok service) tasks
      = { lines := ["dockboy: service '" ++ service.Name ++ "' rollback paused.\n"],
          calls := [Call.serviceInspect serviceID],
          lastState := last, closed := true, returned := true } := by
  have hne : ¬ UpdateStateRollbackPaused = last := fun e => hl.2.2 e.symm
  simp [checkServiceTick, hs, hp, hne]
  simp [UpdateStatePaused, UpdateStateCompleted, UpdateStateRollbackPaused,
    UpdateStateRollbackCompleted]

/-- From a running state, the run over one more poll and whatever follows it,
when that poll returns, is the state after that poll. -/
theorem checkService_last_poll (serviceID : String) (pre rest : List CheckEvent)
    (inspect : Except String Service) (tasks : Except String (List Task))
    (hrun : (checkService serviceID pre).returned = false)
    (hret : (checkServiceTick serviceID (checkService serviceID pre).lastState inspect
      tasks).returned = true) :
    checkService serviceID (pre ++ CheckEvent.tick inspect tasks :: rest)
      = (checkService serviceID pre).afterTick
          (checkServiceTick serviceID (checkService serviceID pre).lastState inspect tasks) := by
  simp only [checkService] at hrun hret ⊢
  rw [checkServiceLoop_append serviceID pre _ _ hrun]
  simp [checkServiceLoop, CheckRun.afterTick, hret]

/-- C17: while `checkService` is running, a poll that reports `paused` writes
exactly the one line "update paused", closes done and returns, and a poll that
reports `rollback_paused` does the same with the one line "rollback paused";
whatever wake-ups follow, no further poll is made.  (Either state is a changed
state whenever it is observed: `lastState` never holds it.) -/
theorem checkService_paused (serviceID : String) (pre rest : List CheckEvent)
    (service : Service) (status : UpdateStatus) (tasks : Except String (List Task))
    (hrun : (checkService serviceID pre).returned = false)
    (hs : service.UpdateStatus = some status) :
    (status.State = UpdateStatePaused →
      checkService serviceID (pre ++ CheckEvent.tick (.ok service) tasks :: rest)
        = { out := (checkService serviceID pre).out
              ++ ["dockboy: service '" ++ service.Name ++ "' update paused.\n"],
            calls := (checkService serviceID pre).calls ++ [Call.serviceInspect serviceID],
            lastState := (checkService serviceID pre).lastState,
            closes := 1,
            polls := (checkService serviceID pre).polls + 1,
            returned := true }) ∧
    (status.State = UpdateStateRollbackPaused →
      checkService serviceID (pre ++ CheckEvent.tick (.ok service) tasks :: rest)
        = { out := (checkService serviceID pre).out
              ++ ["dockboy: service '" ++ service.Name ++ "' rollback paused.\n"],
            calls := (checkService serviceID pre).calls ++ [Call.serviceInspect serviceID],
            lastState := (checkService serviceID pre).lastState,
            closes := 1,
            polls := (checkService serviceID pre).polls + 1,
            returned := true }) ∧
    (checkService serviceID pre).lastState ≠ UpdateStatePaused ∧
    (checkService serviceID pre).lastState ≠ UpdateStateRollbackPaused := by
  have hclosed := checkService_running_closes serviceID pre hrun
  have hrec : UpdateState.recordable (checkService serviceID pre).lastState :=
    checkServiceLoop_recordable serviceID pre CheckRun.start (by decide)
  refine ⟨?_, ?_, hrec.2.1, hrec.2.2⟩
  · intro hp
    have htick := checkServiceTick_paused serviceID _ service status tasks hs hrec hp
    rw [checkService_last_poll serviceID pre rest _ tasks hrun (by rw [htick]), htick]
    simp [CheckRun.afterTick, hclosed]
  · intro hp
    have htick := checkServiceTick_rollback_paused serviceID _ service status tasks hs hrec hp
    rw [checkService_last_poll serviceID pre rest _ tasks hrun (by rw [htick]), htick]
    simp [CheckRun.afterTick, hclosed]

/-- C17 at a rollout seen `updating` and then `paused`, with one more wake-up
after it. -/
theorem checkService_paused_witness :
    checkService "svc" ([poll "web" "updating"]
        ++ CheckEvent.tick (.ok (sampleService "web" "paused" "")) (.ok [])
          :: [poll "web" "completed"])
      = { out := (checkService "svc" [poll "web" "updating"]).out
            ++ ["dockboy: service '" ++ (sampleService "web" "paused" "").Name
                  ++ "' update paused.\n"],
          calls := (checkService "svc" [poll "web" "updating"]).calls
            ++ [Call.serviceInspect "svc"],
          lastState := (checkService "svc" [poll "web" "updating"]).lastState,
          closes := 1,
          polls := (checkService "svc" [poll "web" "updating"]).polls + 1,
          returned := true } :=
  (checkService_paused "svc" [poll "web" "updating"] [poll "web" "completed"]
    (sampleService "web" "paused" "") { State := "paused", Message := "" } (.ok [])
    (by decide) rfl).1 rfl

/-! ### Rollback diagnostics -/

/-- A poll that reports `rollback_started` for the first time writes the failure
line with the status message and then the task-error line, or the line that
logs why the task lookup failed; it leaves done open and does not return. -/
theorem checkServiceTick_rollback_started_first (serviceID : String) (last : UpdateState)
    (service : Service) (status : UpdateStatus) (tasks : Except String (List Task))
    (hs : service.UpdateStatus = some status)
    (hrs : status.State = UpdateStateRollbackStarted)
    (hl : last ≠ UpdateStateRollbackStarted) :
    checkServiceTick serviceID last (.ok service) tasks
      = { lines :=
            ["dockboy: service '" ++ service.Name ++ "' update failed, rolling back. message: "
              ++ status.Message ++ "\n",
             match getLatestTaskError tasks with
             | .error err => "dockboy: failed to get task error: " ++ err ++ "\n"
             | .ok taskErr => "dockboy: task error: " ++ taskErr ++ "\n"],
          calls := [Call.serviceInspect serviceID, Call.taskList serviceID],
          lastState := UpdateStateRollbackStarted, closed := false, returned := false } := by
  have hl' : ¬ UpdateStateRollbackStarted = last := fun h => hl h.symm
  simp [checkServiceTick, hs, hrs, hl']
  simp [UpdateStateCompleted, UpdateStatePaused, UpdateStateRollbackCompleted,
    UpdateStateRollbackPaused, UpdateStateRollbackStarted]

/-- C18, the code against the claim: while `checkService` is running, a poll that
reports `rollback_started` for the first time, with status message `m`, writes
the failure line containing `m`, then the line with the text `getLatestTaskError`
returns, or, when the task lookup fails, only the line that logs that failure;
done stays open and the goroutine runs on; the next poll, reporting
`rollback_completed`, writes the rolled-back line, closes done and returns.  But
the text is not that of the latest failed task: with the tasks `failedTwice` the
line carries the older failure. -/
theorem checkService_rollback_diagnostics :
    (∀ (serviceID : String) (pre rest : List CheckEvent)
        (service₁ : Service) (status₁ : UpdateStatus) (tasks₁ : Except String (List Task))
        (service₂ : Service) (status₂ : UpdateStatus) (tasks₂ : Except String (List Task)),
      (checkService serviceID pre).returned = false →
      service₁.UpdateStatus = some status₁ →
      status₁.State = UpdateStateRollbackStarted →
      (checkService serviceID pre).lastState ≠ UpdateStateRollbackStarted →
      service₂.UpdateStatus = some status₂ →
      status₂.State = UpdateStateRollbackCompleted →
      checkService serviceID (pre ++ [CheckEvent.tick (.ok service₁) tasks₁])
        = { out := (checkService serviceID pre).out ++
              ["dockboy: service '" ++ service₁.Name
                ++ "' update failed, rolling back. message: " ++ status₁.Message ++ "\n",
               match getLatestTaskError tasks₁ with
               | .error err => "dockboy: failed to get task error: " ++ err ++ "\n"
               | .ok taskErr => "dockboy: task error: " ++ taskErr ++ "\n"],
            calls := (checkService serviceID pre).calls
              ++ [Call.serviceInspect serviceID, Call.taskList serviceID],
            lastState := UpdateStateRollbackStarted,
            closes := 0,
            polls := (checkService serviceID pre).polls + 1,
            returned := false } ∧
      checkService serviceID
          (pre ++ CheckEvent.tick (.ok service₁) tasks₁
            :: CheckEvent.tick (.ok service₂) tasks₂ :: rest)
        = { out := (checkService serviceID pre).out ++
              ["dockboy: service '" ++ service₁.Name
                ++ "' update failed, rolling back. message: " ++ status₁.Message ++ "\n",
               match getLatestTaskError tasks₁ with
               | .error err => "dockboy: failed to get task error: " ++ err ++ "\n"
               | .ok taskErr => "dockboy: task error: " ++ taskErr ++ "\n",
               "dockboy: service '" ++ service₂.Name ++ "' rolled back successfully.\n"],
            calls := (checkService serviceID pre).calls
              ++ [Call.serviceInspect serviceID, Call.taskList serviceID,
                  Call.serviceInspect serviceID],
            lastState := UpdateStateRollbackStarted,
            closes := 1,
            polls := (checkService serviceID pre).polls + 2,
            returned := true }) ∧
    (checkService "svc"
        [CheckEvent.tick (.ok (sampleService "web" "rollback_started" "task failed"))
           (.ok failedTwice),
         poll "web" "rollback_completed"]).out
      = ["dockboy: service 'web' update failed, rolling back. message: task failed\n",
         "dockboy: task error: old failure\n",
         "dockboy: service 'web' rolled back successfully.\n"] ∧
    mostRecentFailedTaskErr failedTwice = "new failure" := by
  refine ⟨?_, by decide, by decide⟩
  intro serviceID pre rest service₁ status₁ tasks₁ service₂ status₂ tasks₂ hrun hs₁ hrs hl hs₂
    hrc
  have hclosed := checkService_running_closes serviceID pre hrun
  have htick₁ := checkServiceTick_rollback_started_first serviceID
    (checkService serviceID pre).lastState service₁ status₁ tasks₁ hs₁ hrs hl
  have hfirst : checkService serviceID (pre ++ [CheckEvent.tick (.ok service₁) tasks₁])
      = { out := (checkService serviceID pre).out ++
            ["dockboy: service '" ++ service₁.Name
              ++ "' update failed, rolling back. message: " ++ status₁.Message ++ "\n",
             match getLatestTaskError tasks₁ with
             | .error err => "dockboy: failed to get task error: " ++ err ++ "\n"
             | .ok taskErr => "dockboy: task error: " ++ taskErr ++ "\n"],
          calls := (checkService serviceID pre).calls
            ++ [Call.serviceInspect serviceID, Call.taskList serviceID],
          lastState := UpdateStateRollbackStarted,
          closes := 0,
          polls := (checkService serviceID pre).polls + 1,
          returned := false } := by
    rw [checkService_snoc serviceID pre _ tasks₁ hrun, htick₁]
    simp [CheckRun.afterTick, hclosed]
  refine ⟨hfirst, ?_⟩
  have hsplit : pre ++ CheckEvent.tick (.ok service₁) tasks₁
        :: CheckEvent.tick (.ok service₂) tasks₂ :: rest
      = (pre ++ [CheckEvent.tick (.ok service₁) tasks₁])
          ++ CheckEvent.tick (.ok service₂) tasks₂ :: rest := by simp
  have htick₂ := checkServiceTick_rollback_completed_honoured serviceID
    UpdateStateRollbackStarted service₂ status₂ tasks₂ hs₂ hrc (Or.inl rfl)
  rw [hsplit, checkService_last_poll serviceID _ rest _ tasks₂ (by rw [hfirst])
    (by rw [hfirst]; simp only []; rw [htick₂]), hfirst]
  simp only []
  rw [htick₂]
  simp [CheckRun.afterTick]

/-- The general part of C18 at a first poll whose task lookup fails: the failure
line and the logged lookup failure are written, and done stays open. -/
theorem checkService_rollback_diagnostics_witness :
    checkService "svc"
        ([] ++ [CheckEvent.tick (.ok (sampleService "web" "rollback_started" "task failed"))
                  (.error "down")])
      = { out := ["dockboy: service 'web' update failed, rolling back. message: task failed\n",
                  "dockboy: failed to get task error: listing tasks: down\n"],
          calls := [Call.serviceInspect "svc", Call.taskList "svc"],
          lastState := UpdateStateRollbackStarted,
          closes := 0, polls := 1, returned := false } :=
  (checkService_rollback_diagnostics.1 "svc" [] []
    (sampleService "web" "rollback_started" "task failed")
    { State := "rollback_started", Message := "task failed" } (.error "down")
    (sampleService "web" "rollback_completed" "")
    { State := "rollback_completed", Message := "" } (.ok [])
    rfl rfl rfl (by decide) rfl rfl).1

/-! ### No internal timeout -/

/-- While `lastState` is still empty or already `state`, a poll that fails, finds
no update status or reports `state`, where `state` is none of `completed`,
`paused`, `rollback_paused`, leaves done open, does not return, and leaves
`lastState` empty or at `state`. -/
theorem checkServiceTick_steady (serviceID : String) (state last : UpdateState)
    (inspect : Except String Service) (tasks : Except String (List Task))
    (hstate : UpdateState.recordable state) (hlast : last = "" ∨ last = state)
    (hev : (CheckEvent.tick inspect tasks).quiet = true ∨
      (CheckEvent.tick inspect tasks).reports state = true) :
    (checkServiceTick serviceID last inspect tasks).closed = false ∧
    (checkServiceTick serviceID last inspect tasks).returned = false ∧
    ((checkServiceTick serviceID last inspect tasks).lastState = "" ∨
      (checkServiceTick serviceID last inspect tasks).lastState = state) := by
  rcases hev with hq | hr
  · rw [checkServiceTick_quiet serviceID last inspect tasks hq]
    exact ⟨rfl, rfl, hlast⟩
  · obtain ⟨service, status, tasks', he, hs, hst⟩ := CheckEvent.reports_elim hr
    cases he
    by_cases hsame : status.State = last
    · rw [checkServiceTick_same serviceID last service status tasks hs hsame]
      exact ⟨rfl, rfl, hlast⟩
    · have hempty : last = "" := by
        rcases hlast with h | h
        · exact h
        · exact absurd (hst.trans h.symm) hsame
      obtain ⟨h₁, h₂, h₃⟩ := hstate
      subst hempty
      subst hst
      simp only [checkServiceTick, hs]
      split_ifs <;>
        simp_all [UpdateStateRollbackStarted, UpdateStateRollbackPaused]

/-- Polls that fail, find no update status or report one and the same state that
is none of `completed`, `paused`, `rollback_paused` never close done and never
make `checkService` return. -/
theorem checkServiceLoop_steady (serviceID : String) (state : UpdateState)
    (hstate : UpdateState.recordable state) (polls : List CheckEvent)
    (hpolls : ∀ e ∈ polls, e.quiet = true ∨ e.reports state = true)
    (st : CheckRun) (hlast : st.lastState = "" ∨ st.lastState = state)
    (hst : st.returned = false) :
    (checkServiceLoop serviceID polls st).closes = st.closes ∧
    (checkServiceLoop serviceID polls st).returned = false ∧
    (checkServiceLoop serviceID polls st).polls = st.polls + polls.length := by
  induction polls generalizing st with
  | nil => exact ⟨rfl, hst, rfl⟩
  | cons e polls ih =>
    have hpolls' : ∀ e ∈ polls, e.quiet = true ∨ e.reports state = true :=
      fun e he => hpolls e (List.mem_cons_of_mem _ he)
    have he := hpolls e (List.mem_cons_self e polls)
    cases e with
    | ctxDone => simp [CheckEvent.quiet, CheckEvent.reports] at he
    | tick inspect tasks =>
      obtain ⟨hc, hr, hl⟩ :=
        checkServiceTick_steady serviceID state st.lastState inspect tasks hstate hlast he
      simp only [checkServiceLoop, CheckRun.afterTick, hr, Bool.false_eq_true, if_false]
      obtain ⟨h₁, h₂, h₃⟩ := ih hpolls'
        { out := st.out ++ (checkServiceTick serviceID st.lastState inspect tasks).lines,
          calls := st.calls ++ (checkServiceTick serviceID st.lastState inspect tasks).calls,
          lastState := (checkServiceTick serviceID st.lastState inspect tasks).lastState,
          closes := st.closes +
            (if (checkServiceTick serviceID st.lastState inspect tasks).closed = true then 1
              else 0),
          polls := st.polls + 1, returned := false } hl rfl
      refine ⟨?_, h₂, ?_⟩
      · rw [h₁]; simp [hc]
      · rw [h₃]; simp [Nat.add_assoc, Nat.add_comm 1]

/-- While every poll fails, finds no update status or reports one and the same
state that is none of `completed`, `paused`, `rollback_paused`, done stays open
and `WaitForService` keeps its result unless a signal or the cancellation of the
context gives it the cancelled one. -/
theorem WaitForServiceLoop_steady (serviceID : String) (state : UpdateState)
    (hstate : UpdateState.recordable state) (events : List WaitEvent)
    (hevents : ∀ e ∈ events, e.steady state = true)
    (st : WaitRun) (hcloses : st.doneCloses = 0) (hmon : st.monitorReturned = false)
    (hlast : st.lastState = "" ∨ st.lastState = state) :
    (WaitForServiceLoop serviceID events st).doneCloses = 0 ∧
    ((WaitForServiceLoop serviceID events st).result = st.result ∨
      (WaitForServiceLoop serviceID events st).result
        = Resolution.returned (some "deployment cancelled") ∨
      (WaitForServiceLoop serviceID events st).result
        = Resolution.returned (some "context cancelled")) ∧
    ((∀ e ∈ events, e.isCancel = false) →
      (WaitForServiceLoop serviceID events st).result = st.result) := by
  induction events generalizing st with
  | nil => exact ⟨hcloses, Or.inl rfl, fun _ => rfl⟩
  | cons e events ih =>
    have hevents' : ∀ e ∈ events, e.steady state = true :=
      fun e he => hevents e (List.mem_cons_of_mem _ he)
    have he := hevents e (List.mem_cons_self e events)
    cases e with
    | signal =>
      refine ⟨hcloses, Or.inr (Or.inl rfl), fun h => ?_⟩
      have := h WaitEvent.signal (List.mem_cons_self _ _)
      simp [WaitEvent.isCancel] at this
    | ctxDone =>
      refine ⟨hcloses, Or.inr (Or.inr rfl), fun h => ?_⟩
      have := h WaitEvent.ctxDone (List.mem_cons_self _ _)
      simp [WaitEvent.isCancel] at this
    | message msg inspect =>
      simp only [WaitForServiceLoop]
      obtain ⟨h₁, h₂, h₃⟩ := ih hevents'
        { st with
          out := st.out ++ (monitorEventsStep serviceID (WatchEvent.message msg inspect)).1,
          calls := st.calls ++ (monitorEventsStep serviceID (WatchEvent.message msg inspect)).2 }
        hcloses hmon hlast
      exact ⟨h₁, h₂, fun h => h₃ (fun e he => h e (List.mem_cons_of_mem _ he))⟩
    | feedError err =>
      simp only [WaitForServiceLoop]
      obtain ⟨h₁, h₂, h₃⟩ := ih hevents'
        { st with
          out := st.out ++ (monitorEventsStep serviceID (WatchEvent.feedError err)).1,
          calls := st.calls ++ (monitorEventsStep serviceID (WatchEvent.feedError err)).2 }
        hcloses hmon hlast
      exact ⟨h₁, h₂, fun h => h₃ (fun e he => h e (List.mem_cons_of_mem _ he))⟩
    | tick inspect tasks =>
      have hev : (CheckEvent.tick inspect tasks).quiet = true ∨
          (CheckEvent.tick inspect tasks).reports state = true := by
        simpa [WaitEvent.steady] using he
      obtain ⟨hc, hr, hl⟩ :=
        checkServiceTick_steady serviceID state st.lastState inspect tasks hstate hlast hev
      simp only [WaitForServiceLoop, hmon, hcloses, hc, Bool.false_eq_true, if_false,
        Nat.add_zero, Nat.lt_irrefl]
      obtain ⟨h₁, h₂, h₃⟩ := ih hevents'
        { st with out := st.out ++ (checkServiceTick serviceID st.lastState inspect tasks).lines,
                  calls := st.calls
                    ++ (checkServiceTick serviceID st.lastState inspect tasks).calls,
                  lastState := (checkServiceTick serviceID st.lastState inspect tasks).lastState,
                  doneCloses := 0,
                  polls := st.polls + 1,
                  monitorReturned :=
                    (checkServiceTick serviceID st.lastState inspect tasks).returned }
        rfl hr hl
      exact ⟨h₁, h₂, fun h => h₃ (fun e he => h e (List.mem_cons_of_mem _ he))⟩

/-- C19: let `state` be any update state other than `completed`, `paused` and
`rollback_paused` (`updating` is one).  For every sequence of polls, of any
length, each of which fails, finds no update status or reports `state`,
`checkService` never closes done and never returns.  And for everything that can
happen during such a wait, `WaitForService` never returns nil: it stays blocked
as long as no signal arrives and the context is not cancelled, and if it
resolves, it does so with `deployment cancelled` or `context cancelled`. -/
theorem WaitForService_no_timeout (serviceID : String) (state : UpdateState)
    (hstate : UpdateState.recordable state) :
    (∀ polls : List CheckEvent,
      (∀ e ∈ polls, e.quiet = true ∨ e.reports state = true) →
      (checkService serviceID polls).closes = 0 ∧
      (checkService serviceID polls).returned = false ∧
      (checkService serviceID polls).polls = polls.length) ∧
    (∀ events : List WaitEvent,
      (∀ e ∈ events, e.steady state = true) →
      (WaitForService serviceID events).doneCloses = 0 ∧
      (WaitForService serviceID events).result ≠ Resolution.returned none ∧
      ((∀ e ∈ events, e.isCancel = false) →
        (WaitForService serviceID events).result = Resolution.blocked) ∧
      ((WaitForService serviceID events).result = Resolution.blocked ∨
        (WaitForService serviceID events).result
          = Resolution.returned (some "deployment cancelled") ∨
        (WaitForService serviceID events).result
          = Resolution.returned (some "context cancelled"))) := by
  refine ⟨?_, ?_⟩
  · intro polls hpolls
    have h := checkServiceLoop_steady serviceID state hstate polls hpolls CheckRun.start
      (Or.inl rfl) rfl
    simpa [checkService, CheckRun.start] using h
  · intro events hevents
    obtain ⟨h₁, h₂, h₃⟩ := WaitForServiceLoop_steady serviceID state hstate events hevents
      WaitRun.start rfl rfl (Or.inl rfl)
    have hstart : WaitRun.start.result = Resolution.blocked := rfl
    rw [hstart] at h₂ h₃
    refine ⟨h₁, ?_, h₃, h₂⟩
    simp only [WaitForService]
    rcases h₂ with h | h | h <;> rw [h] <;> simp

/-- C19 at `updating`: a failed poll, a service without update status, two polls
reporting `updating` and an event of the feed leave `WaitForService` blocked. -/
theorem WaitForService_no_timeout_witness :
    (WaitForService "svc"
      [WaitEvent.tick (.error "timeout") (.ok []),
       WaitEvent.tick (.ok { ID := "svc", Version := 1, Name := "web", UpdateStatus := none })
         (.ok []),
       waitPoll "web" "updating", WaitEvent.message otherServiceEvent (.error "gone"),
       waitPoll "web" "updating"]).result = Resolution.blocked :=
  ((WaitForService_no_timeout "svc" "updating" (by decide)).2
    [WaitEvent.tick (.error "timeout") (.ok []),
     WaitEvent.tick (.ok { ID := "svc", Version := 1, Name := "web", UpdateStatus := none })
       (.ok []),
     waitPoll "web" "updating", WaitEvent.message otherServiceEvent (.error "gone"),
     waitPoll "web" "updating"] (by decide)).2.2.1 (by decide)

/-! ### Cancellation in the sequential run -/

/-- While `monitorEvents` has not returned, its run over `a ++ b` is its run over
`b` from the state it reached after `a`. -/
theorem monitorEventsLoop_append (serviceID : String) (a b : List WatchEvent) (st : WatchRun)
    (hrun : (monitorEventsLoop serviceID a st).returned = false) :
    monitorEventsLoop serviceID (a ++ b) st
      = monitorEventsLoop serviceID b (monitorEventsLoop serviceID a st) := by
  induction a generalizing st with
  | nil => rfl
  | cons e a ih =>
    cases e with
    | ctxDone => simp [monitorEventsLoop] at hrun
    | message msg inspect =>
      simp only [List.cons_append, monitorEventsLoop] at hrun ⊢
      exact ih _ hrun
    | feedError err =>
      simp only [List.cons_append, monitorEventsLoop] at hrun ⊢
      exact ih _ hrun

/-- The sequential run: when, with `WaitForService` still blocked (done not
closed), a signal arrives, `WaitForService` runs `cancel` and returns
`deployment cancelled`; when
instead the context of the caller is cancelled, it returns `context cancelled`,
the deferred `cancel` having run; in both cases nothing else of its state
changes, done is still open, and the result is not nil.  And each goroutine,
when it wakes up with the context done, returns at once, without another poll,
line or call: `checkService` as well as `monitorEvents`. -/
theorem WaitForService_cancelled (serviceID : String) :
    (∀ pre rest : List WaitEvent,
      (WaitForService serviceID pre).result = Resolution.blocked →
      WaitForService serviceID (pre ++ WaitEvent.signal :: rest)
        = { WaitForService serviceID pre with
            cancelled := true,
            result := Resolution.returned (some "deployment cancelled") } ∧
      WaitForService serviceID (pre ++ WaitEvent.ctxDone :: rest)
        = { WaitForService serviceID pre with
            cancelled := true,
            result := Resolution.returned (some "context cancelled") } ∧
      (WaitForService serviceID pre).doneCloses = 0) ∧
    (∀ pre rest : List CheckEvent,
      (checkService serviceID pre).returned = false →
      checkService serviceID (pre ++ CheckEvent.ctxDone :: rest)
        = { checkService serviceID pre with returned := true }) ∧
    (∀ pre rest : List WatchEvent,
      (monitorEvents serviceID pre).returned = false →
      monitorEvents serviceID (pre ++ WatchEvent.ctxDone :: rest)
        = { monitorEvents serviceID pre with returned := true }) := by
  refine ⟨?_, ?_, ?_⟩
  · intro pre rest hblocked
    simp only [WaitForService] at hblocked ⊢
    obtain ⟨hcloses, _, _⟩ :=
      WaitForServiceLoop_blocked serviceID pre WaitRun.start rfl rfl (by decide) hblocked
    refine ⟨?_, ?_, hcloses⟩
    · rw [WaitForServiceLoop_append serviceID pre _ _ hblocked]
      rfl
    · rw [WaitForServiceLoop_append serviceID pre _ _ hblocked]
      rfl
  · intro pre rest hrun
    simp only [checkService] at hrun ⊢
    rw [checkServiceLoop_append serviceID pre _ _ hrun]
    rfl
  · intro pre rest hrun
    simp only [monitorEvents] at hrun ⊢
    rw [monitorEventsLoop_append serviceID pre _ _ hrun]
    rfl

/-- The sequential run at a wait that has seen `updating` once: a signal then
gives `deployment cancelled`. -/
theorem WaitForService_cancelled_witness :
    WaitForService "svc" ([waitPoll "web" "updating"] ++ WaitEvent.signal
        :: [waitPoll "web" "completed"])
      = { WaitForService "svc" [waitPoll "web" "updating"] with
          cancelled := true,
          result := Resolution.returned (some "deployment cancelled") } :=
  ((WaitForService_cancelled "svc").1 [waitPoll "web" "updating"]
    [waitPoll "web" "completed"] (by decide)).1

/-! ### The health-check error -/

/-- Reading a log that is not empty at its last index gives its last entry. -/
theorem healthLog_last (log : List HealthcheckResult) (hlog : log ≠ []) :
    log.get? (log.length - 1) = some (log.getLast hlog) := by
  rw [List.get?_eq_getElem?, ← List.getLast?_eq_getElem?, List.getLast?_eq_getLast log hlog]

/-- C21: for every inspected container, `getHealthCheckError` returns the output
of the last entry of the health log when the container has health information,
its status is `unhealthy` and the log is not empty, and the index `len - 1` it
reads there lies within the log; in every other case it returns the empty
string; and it never returns an error for an inspected container. -/
theorem getHealthCheckError_latest :
    (∀ (container : ContainerJSON) (health : Health) (hlog : health.Log ≠ []),
      container.Health = some health → health.Status = "unhealthy" →
      getHealthCheckError (.ok container) = .ok (health.Log.getLast hlog).Output ∧
      health.Log.length - 1 < health.Log.length) ∧
    (∀ container : ContainerJSON,
      (∀ health, container.Health = some health →
        health.Status ≠ "unhealthy" ∨ health.Log = []) →
      getHealthCheckError (.ok container) = .ok "") ∧
    (∀ container : ContainerJSON,
      ∃ message, getHealthCheckError (.ok container) = .ok message) := by
  refine ⟨?_, ?_, ?_⟩
  · intro container health hlog hh hs
    have hlen : health.Log.length ≠ 0 := fun h => hlog (List.length_eq_zero.mp h)
    refine ⟨?_, by omega⟩
    simp only [getHealthCheckError, hh, hs, ne_eq, not_true_eq_false, if_false, hlen,
      healthLog_last health.Log hlog]
  · intro container hno
    cases hh : container.Health with
    | none => simp [getHealthCheckError, hh]
    | some health =>
      rcases hno health hh with h | h
      · simp [getHealthCheckError, hh, h]
      · simp [getHealthCheckError, hh, h]
  · intro container
    cases hh : container.Health with
    | none => exact ⟨"", by simp [getHealthCheckError, hh]⟩
    | some health =>
      by_cases hs : health.Status = "unhealthy"
      · by_cases hlog : health.Log = []
        · exact ⟨"", by simp [getHealthCheckError, hh, hlog]⟩
        · have hlen : health.Log.length ≠ 0 := fun h => hlog (List.length_eq_zero.mp h)
          exact ⟨(health.Log.getLast hlog).Output, by
            simp only [getHealthCheckError, hh, hs, ne_eq, not_true_eq_false, if_false, hlen,
              healthLog_last health.Log hlog]⟩
      · exact ⟨"", by simp [getHealthCheckError, hh, hs]⟩

/-- C21 at an unhealthy container with two log entries: the later one is
returned. -/
theorem getHealthCheckError_latest_witness :
    getHealthCheckError (.ok unhealthyContainer) = .ok "timeout" :=
  (getHealthCheckError_latest.1 unhealthyContainer
    { Status := "unhealthy",
      Log := [{ Output := "connection refused" }, { Output := "timeout" }] }
    (by decide) rfl rfl).1

/-! ### The states `lastState` can hold -/

/-- C22: after every sequence of wake-ups `lastState` of `checkService` is none of
`completed`, `paused`, `rollback_paused`; while `checkService` is running a poll
that reports one of these three returns.  So while it is running, a poll that
reports `rollback_completed` closes done if and only if `lastState`, the update
state observed last before it, is `rollback_started`. -/
theorem checkService_lastState_invariant (serviceID : String) :
    (∀ events : List CheckEvent,
      (checkService serviceID events).lastState ≠ UpdateStateCompleted ∧
      (checkService serviceID events).lastState ≠ UpdateStatePaused ∧
      (checkService serviceID events).lastState ≠ UpdateStateRollbackPaused) ∧
    (∀ (pre : List CheckEvent) (service : Service) (status : UpdateStatus)
        (tasks : Except String (List Task)),
      (checkService serviceID pre).returned = false →
      service.UpdateStatus = some status →
      (status.State = UpdateStateCompleted ∨ status.State = UpdateStatePaused ∨
        status.State = UpdateStateRollbackPaused) →
      (checkService serviceID (pre ++ [CheckEvent.tick (.ok service) tasks])).returned = true) ∧
    (∀ (pre : List CheckEvent) (service : Service) (status : UpdateStatus)
        (tasks : Except String (List Task)),
      (checkService serviceID pre).returned = false →
      service.UpdateStatus = some status →
      status.State = UpdateStateRollbackCompleted →
      ((checkService serviceID (pre ++ [CheckEvent.tick (.ok service) tasks])).closes = 1 ↔
        (checkService serviceID pre).lastState = UpdateStateRollbackStarted)) := by
  have hrec : ∀ events : List CheckEvent,
      UpdateState.recordable (checkService serviceID events).lastState :=
    fun events => checkServiceLoop_recordable serviceID events CheckRun.start (by decide)
  refine ⟨hrec, ?_, ?_⟩
  · intro pre service status tasks hrun hs hterm
    have hclosed := checkServiceTick_terminal serviceID (checkService serviceID pre).lastState
      service status tasks hs (hrec pre)
      (by
        rcases hterm with h | h | h
        · exact Or.inl h
        · exact Or.inr (Or.inl h)
        · exact Or.inr (Or.inr (Or.inl h)))
    rw [checkService_snoc serviceID pre _ tasks hrun]
    simp only [CheckRun.afterTick]
    rw [← checkServiceTick_closed_eq_returned, hclosed]
  · intro pre service status tasks hrun hs hrc
    have hclosed := checkService_running_closes serviceID pre hrun
    have hnot := (hrec pre).2.2
    rw [checkService_snoc serviceID pre _ tasks hrun]
    by_cases hl : (checkService serviceID pre).lastState = UpdateStateRollbackStarted
    · rw [checkServiceTick_rollback_completed_honoured serviceID _ service status tasks hs hrc
        (Or.inl hl)]
      simp [CheckRun.afterTick, hclosed, hl]
    · rw [checkServiceTick_rollback_completed_ignored serviceID _ service status tasks hs hrc
        (by
          rintro (h | h)
          · exact hl h
          · exact hnot h)]
      simp [CheckRun.afterTick, hclosed, hl]

/-- C22 after `updating` and `rollback_started`: `lastState` is
`rollback_started` and the poll reporting `rollback_completed` closes done. -/
theorem checkService_lastState_invariant_witness :
    (checkService "svc" ([poll "web" "updating", poll "web" "rollback_started"]
        ++ [CheckEvent.tick (.ok (sampleService "web" "rollback_completed" "")) (.ok [])])).closes
      = 1 :=
  ((checkService_lastState_invariant "svc").2.2
    [poll "web" "updating", poll "web" "rollback_started"]
    (sampleService "web" "rollback_completed" "")
    { State := "rollback_completed", Message := "" } (.ok [])
    (by decide) rfl rfl).mpr (by decide)

/-! ### The environment encoding -/

/-- Splitting `key=value` at the first `=` gives the key and the value when the
key holds no `=`. -/
theorem strings.SplitN2_entry (k v : String) (hk : '=' ∉ k.toList) :
    strings.SplitN2 (k ++ "=" ++ v) '=' = [k, v] := by
  have hlist : (k ++ "=" ++ v).toList = k.toList ++ '=' :: v.toList := by
    simp [String.toList, String.data_append]
  have hpos : ∀ a ∈ k.toList, (a != '=') = true := by
    intro a ha
    have : a ≠ '=' := fun h => hk (h ▸ ha)
    simpa using this
  have htake : (k.toList ++ '=' :: v.toList).takeWhile (fun c => c != '=') = k.toList := by
    rw [List.takeWhile_append_of_pos hpos]
    simp [List.takeWhile_cons]
  have hdrop : (k.toList ++ '=' :: v.toList).dropWhile (fun c => c != '=')
      = '=' :: v.toList := by
    rw [List.dropWhile_append_of_pos hpos]
    simp [List.dropWhile_cons]
  unfold strings.SplitN2
  rw [hlist, htake, hdrop]
  simp [String.toList]

/-- Assigning a key that the map does not hold adds the entry at the end. -/
theorem GoMap.put_absent (m : GoMap String String) (k v : String)
    (habsent : k ∉ m.map Prod.fst) : m.put k v = m ++ [(k, v)] := by
  have hany : m.any (fun kv => kv.1 == k) = false := by
    rw [List.any_eq_false]
    intro kv hkv h
    exact habsent (List.mem_map.mpr ⟨kv, hkv, by simpa using h⟩)
  simp [GoMap.put, hany]

/-- Reading back the encoded entries of `m` into a map `acc` adds the entries of
`m` to it, when the keys are pairwise different and hold no `=`. -/
theorem formatEnvLoop_mapToSlice (m acc : GoMap String String)
    (hkeys : ∀ kv ∈ m, '=' ∉ kv.1.toList)
    (hnodup : ((acc ++ m).map Prod.fst).Nodup) :
    formatEnvLoop (mapToSlice m) acc = acc ++ m := by
  induction m generalizing acc with
  | nil => simp [mapToSlice, formatEnvLoop]
  | cons kv m ih =>
    obtain ⟨k, v⟩ := kv
    have hk : '=' ∉ k.toList := hkeys (k, v) (List.mem_cons_self _ _)
    have hkeys' : ∀ kv ∈ m, '=' ∉ kv.1.toList :=
      fun kv h => hkeys kv (List.mem_cons_of_mem _ h)
    have hmid : (k :: (acc.map Prod.fst ++ m.map Prod.fst)).Nodup := by
      rw [← List.nodup_middle]
      simpa using hnodup
    have habsent : k ∉ acc.map Prod.fst := by
      intro h
      exact (List.nodup_cons.mp hmid).1 (List.mem_append_left _ h)
    have hstep : formatEnvLoop (mapToSlice ((k, v) :: m)) acc
        = formatEnvLoop (mapToSlice m) (acc.put k v) := by
      simp only [mapToSlice, List.map_cons, formatEnvLoop, strings.SplitN2_entry k v hk]
    rw [hstep, GoMap.put_absent acc k v habsent, ih (acc ++ [(k, v)]) hkeys' (by simpa using hnodup)]
    simp

/-- C23: for every environment map (its keys pairwise different, as in every
map) whose keys hold no `=`, `formatEnv` applied to `mapToSlice` of the map gives
the map back, whatever the values hold; and `mapToSlice` yields as many entries
as the map has keys, namely the strings `key=value` of its entries. -/
theorem formatEnv_mapToSlice (m : GoMap String String)
    (hkeys : ∀ kv ∈ m, '=' ∉ kv.1.toList)
    (hnodup : (m.map Prod.fst).Nodup) :
    formatEnv (mapToSlice m) = m ∧
    (mapToSlice m).length = m.length ∧
    (∀ e : String, e ∈ mapToSlice m ↔ ∃ kv ∈ m, e = kv.1 ++ "=" ++ kv.2) := by
  refine ⟨?_, by simp [mapToSlice], ?_⟩
  · have := formatEnvLoop_mapToSlice m [] hkeys (by simpa using hnodup)
    simpa [formatEnv] using this
  · intro e
    simp only [mapToSlice, List.mem_map]
    constructor
    · rintro ⟨kv, hkv, rfl⟩
      exact ⟨kv, hkv, rfl⟩
    · rintro ⟨kv, hkv, rfl⟩
      exact ⟨kv, hkv, rfl⟩

/-- C23 at an environment with a value that holds `=` and an empty value. -/
theorem formatEnv_mapToSlice_witness :
    formatEnv (mapToSlice sampleEnv) = sampleEnv :=
  (formatEnv_mapToSlice sampleEnv (by decide) (by decide)).1

/-! ### The routing fragment -/

/-- Appending strings one after the other onto `acc` is `acc` followed by their
concatenation. -/
theorem String.foldl_append (l : List String) (acc : String) :
    l.foldl (fun r s => r ++ s) acc = acc ++ String.join l := by
  induction l generalizing acc with
  | nil => simp [String.join]
  | cons b l ih =>
    simp only [String.join, List.foldl_cons] at ih ⊢
    rw [ih (acc ++ b), ih ("" ++ b), String.empty_append, String.append_assoc]

/-- The concatenation of a block and further blocks. -/
theorem String.join_cons (b : String) (l : List String) :
    String.join (b :: l) = b ++ String.join l := by
  simp only [String.join, List.foldl_cons]
  rw [Dockboy.String.foldl_append l ("" ++ b), String.empty_append]
  rfl

/-- The loop of `generateCaddyfileContent` appends to `content` the blocks of the
configs with an address, in input order. -/
theorem generateCaddyfileContentLoop_eq (name : String) (configs : List caddy.ProxyConfig)
    (content : String) :
    generateCaddyfileContentLoop name configs content
      = content ++ String.join
          ((configs.filter (fun c => c.Address ≠ "")).map
            (fun c => caddyBlock c.Address (caddyUpstream name c.TargetPort))) := by
  induction configs generalizing content with
  | nil => simp [generateCaddyfileContentLoop, String.join]
  | cons c configs ih =>
    by_cases h : c.Address = ""
    · simp [generateCaddyfileContentLoop, h, List.filter_cons, ih]
    · simp only [generateCaddyfileContentLoop, h, if_false, List.filter_cons, ne_eq,
        not_false_eq_true, decide_True, if_true, List.map_cons]
      rw [ih, Dockboy.String.join_cons, String.append_assoc]
      rfl

/-- C24: for every list of proxy configs and every upstream name,
`generateCaddyfileContent` returns the concatenation, in input order, of one
block per config whose address is not empty: the address, ` {`, a line
`reverse_proxy` with the upstream, `}` and an empty line, the upstream being the
name with `:` and the port when the target port is not zero and the name alone
otherwise.  Configs with an empty address add nothing, so a list without an
address gives the empty string. -/
theorem generateCaddyfileContent_blocks :
    (∀ (configs : List caddy.ProxyConfig) (name : String),
      generateCaddyfileContent configs name
        = String.join
            ((configs.filter (fun c => c.Address ≠ "")).map
              (fun c => caddyBlock c.Address (caddyUpstream name c.TargetPort)))) ∧
    (∀ (configs : List caddy.ProxyConfig) (name : String),
      (∀ c ∈ configs, c.Address = "") → generateCaddyfileContent configs name = "") ∧
    (∀ (address name : String) (port : Int), address ≠ "" →
      (port ≠ 0 →
        generateCaddyfileContent [{ Address := address, TargetPort := port }] name
          = address ++ " \x7b\n\treverse_proxy " ++ (name ++ ":" ++ toString port)
              ++ "\n\x7d\n\n") ∧
      (port = 0 →
        generateCaddyfileContent [{ Address := address, TargetPort := port }] name
          = address ++ " \x7b\n\treverse_proxy " ++ name ++ "\n\x7d\n\n")) := by
  have hall : ∀ (configs : List caddy.ProxyConfig) (name : String),
      generateCaddyfileContent configs name
        = String.join
            ((configs.filter (fun c => c.Address ≠ "")).map
              (fun c => caddyBlock c.Address (caddyUpstream name c.TargetPort))) := by
    intro configs name
    rw [generateCaddyfileContent, generateCaddyfileContentLoop_eq, String.empty_append]
  refine ⟨hall, ?_, ?_⟩
  · intro configs name hempty
    have hfilter : configs.filter (fun c => c.Address ≠ "") = [] := by
      rw [List.filter_eq_nil_iff]
      intro c hc
      simp [hempty c hc]
    rw [hall, hfilter]
    rfl
  · intro address name port haddr
    refine ⟨fun hport => ?_, fun hport => ?_⟩
    · rw [hall]
      simp [List.filter_cons, haddr, Dockboy.String.join_cons, String.join, caddyBlock,
        caddyUpstream, hport]
    · rw [hall]
      simp [List.filter_cons, haddr, Dockboy.String.join_cons, String.join, caddyBlock,
        caddyUpstream, hport]

/-- C24 at three configs, the second without address: two blocks, in order. -/
theorem generateCaddyfileContent_blocks_witness :
    generateCaddyfileContent
        [{ Address := "example.com", TargetPort := 8080 }] "web"
      = "example.com" ++ " \x7b\n\treverse_proxy " ++ ("web" ++ ":" ++ toString (8080 : Int))
          ++ "\n\x7d\n\n" ∧
    generateCaddyfileContent sampleProxies "web"
      = "example.com \x7b\n\treverse_proxy web:8080\n\x7d\n\nwww.example.com \x7b\n\treverse_proxy web\n\x7d\n\n" :=
  ⟨(generateCaddyfileContent_blocks.2.2 "example.com" "web" 8080 (by decide)).1 (by decide),
   by decide⟩

/-! ### Cancellation in the system of three parties -/

/-- What no action undoes: a done context of the caller, a `cancel` that ran, a
resolution of `WaitForService`; and `cancel` runs only when `WaitForService`
returns. -/
theorem WaitSystem_step_kept (serviceID : String) (s : WaitSystem) (a : WaitAction) :
    (s.parentDone = true → (s.step serviceID a).parentDone = true) ∧
    (s.cancelCalled = true → (s.step serviceID a).cancelCalled = true) ∧
    (s.result ≠ Resolution.blocked → (s.step serviceID a).result = s.result) ∧
    ((s.step serviceID a).result = Resolution.blocked → s.cancelCalled = false →
      (s.step serviceID a).cancelCalled = false) := by
  cases a with
  | signalArrives => simp [WaitSystem.step]
  | parentCancelled => simp [WaitSystem.step]
  | main c =>
    cases c <;> simp only [WaitSystem.step, WaitForServiceSelect] <;> split_ifs <;> simp_all
  | check ev =>
    cases ev <;> simp only [WaitSystem.step, checkServiceSelect] <;> split_ifs <;> simp_all
  | watch ev =>
    cases ev <;> simp only [WaitSystem.step, monitorEventsSelect] <;> split_ifs <;> simp_all

/-- Along every schedule a resolution of `WaitForService` stays, and so does a
done derived context. -/
theorem WaitSystem_run_kept (serviceID : String) (acts : List WaitAction) (s : WaitSystem) :
    (s.result ≠ Resolution.blocked → (WaitSystem.run serviceID acts s).result = s.result) ∧
    (s.isDone Ctx.derived = true → (WaitSystem.run serviceID acts s).isDone Ctx.derived = true) := by
  induction acts generalizing s with
  | nil => exact ⟨fun _ => rfl, fun h => h⟩
  | cons a acts ih =>
    obtain ⟨hpar, hcan, hres, _⟩ := WaitSystem_step_kept serviceID s a
    refine ⟨fun h => ?_, fun h => ?_⟩
    · have h1 := hres h
      show (WaitSystem.run serviceID acts (s.step serviceID a)).result = s.result
      rw [(ih (s.step serviceID a)).1 (by rw [h1]; exact h), h1]
    · show (WaitSystem.run serviceID acts (s.step serviceID a)).isDone Ctx.derived = true
      apply (ih (s.step serviceID a)).2
      simp only [WaitSystem.isDone, Bool.or_eq_true] at h ⊢
      rcases h with h | h
      · exact Or.inl (hpar h)
      · exact Or.inr (hcan h)

/-- From the start, `cancel` has not run as long as `WaitForService` is blocked. -/
theorem WaitSystem_run_blocked (serviceID : String) (acts : List WaitAction) (s : WaitSystem)
    (hs : s.cancelCalled = false)
    (hblocked : (WaitSystem.run serviceID acts s).result = Resolution.blocked) :
    (WaitSystem.run serviceID acts s).cancelCalled = false := by
  induction acts generalizing s with
  | nil => exact hs
  | cons a acts ih =>
    obtain ⟨_, _, hres, hcan⟩ := WaitSystem_step_kept serviceID s a
    have hrun : WaitSystem.run serviceID (a :: acts) s
        = WaitSystem.run serviceID acts (s.step serviceID a) := rfl
    rw [hrun] at hblocked ⊢
    apply ih _ _ hblocked
    apply hcan _ hs
    by_contra hne
    have := (WaitSystem_run_kept serviceID acts (s.step serviceID a)).1 hne
    rw [this] at hblocked
    exact hne hblocked

/-! ### The system and the sequential run -/

/-- Once `checkService` has returned, its `select` takes no case any more. -/
theorem checkServiceSelect_returned (ctx : Ctx) (serviceID : String) (events : List CheckEvent)
    (s : WaitSystem) (hret : s.checkReturned = true) :
    events.foldl (checkServiceSelect ctx serviceID) s = s := by
  induction events with
  | nil => rfl
  | cons ev rest ih =>
    have hstep : checkServiceSelect ctx serviceID s ev = s := by
      cases ev <;> simp [checkServiceSelect, hret]
    rw [List.foldl_cons, hstep, ih]

/-- The `select` of `checkService` in the system agrees with the run of
`checkService` alone: over wake-ups whose `ctx.Done()` cases are ready (the
context is done, or there is no such wake-up), the system records what
`checkServiceLoop` computes. -/
theorem checkServiceSelect_loop (ctx : Ctx) (serviceID : String) (events : List CheckEvent)
    (s : WaitSystem) (hret : s.checkReturned = false)
    (hctx : s.isDone ctx = true ∨ CheckEvent.ctxDone ∉ events) :
    (events.foldl (checkServiceSelect ctx serviceID) s).toCheckRun
      = checkServiceLoop serviceID events s.toCheckRun := by
  induction events generalizing s with
  | nil => rfl
  | cons ev rest ih =>
    cases ev with
    | ctxDone =>
      have hdone : s.isDone ctx = true := by
        rcases hctx with h | h
        · exact h
        · simp at h
      rw [List.foldl_cons, checkServiceSelect_returned ctx serviceID rest _
        (by simp [checkServiceSelect, hret, hdone])]
      simp [checkServiceSelect, hret, hdone, checkServiceLoop, WaitSystem.toCheckRun]
    | tick inspect tasks =>
      by_cases hr : (checkServiceTick serviceID s.lastState inspect tasks).returned = true
      · rw [List.foldl_cons, checkServiceSelect_returned ctx serviceID rest _
          (by simp [checkServiceSelect, hret, hr])]
        simp [checkServiceSelect, hret, hr, checkServiceLoop, WaitSystem.toCheckRun,
          CheckRun.afterTick]
      · have hr0 : (checkServiceTick serviceID s.lastState inspect tasks).returned = false := by
          simpa using hr
        rw [List.foldl_cons, ih _ (by simp [checkServiceSelect, hret, hr0])
          (by
            rcases hctx with h | h
            · left
              simpa [checkServiceSelect, hret, WaitSystem.isDone] using h
            · right
              exact fun hmem => h (List.mem_cons_of_mem _ hmem))]
        simp [checkServiceSelect, hret, hr0, checkServiceLoop, WaitSystem.toCheckRun,
          CheckRun.afterTick]

/-- Once `monitorEvents` has returned, its `select` takes no case any more. -/
theorem monitorEventsSelect_returned (ctx : Ctx) (serviceID : String)
    (events : List WatchEvent) (s : WaitSystem) (hret : s.watchReturned = true) :
    events.foldl (monitorEventsSelect ctx serviceID) s = s := by
  induction events with
  | nil => rfl
  | cons ev rest ih =>
    have hstep : monitorEventsSelect ctx serviceID s ev = s := by
      cases ev <;> simp [monitorEventsSelect, hret]
    rw [List.foldl_cons, hstep, ih]

/-- The `select` of `monitorEvents` in the system agrees with the run of
`monitorEvents` alone: over wake-ups whose `ctx.Done()` cases are ready (the
context is done, or there is no such wake-up), the system records what
`monitorEventsLoop` computes. -/
theorem monitorEventsSelect_loop (ctx : Ctx) (serviceID : String) (events : List WatchEvent)
    (s : WaitSystem) (hret : s.watchReturned = false)
    (hctx : s.isDone ctx = true ∨ WatchEvent.ctxDone ∉ events) :
    (events.foldl (monitorEventsSelect ctx serviceID) s).toWatchRun
      = monitorEventsLoop serviceID events s.toWatchRun := by
  induction events generalizing s with
  | nil => rfl
  | cons ev rest ih =>
    have hrest : ∀ s0 : WaitSystem, s0.isDone ctx = s.isDone ctx →
        (s0.isDone ctx = true ∨ WatchEvent.ctxDone ∉ rest) := by
      intro s0 h0
      rcases hctx with h | h
      · exact Or.inl (h0.trans h)
      · exact Or.inr (fun hmem => h (List.mem_cons_of_mem _ hmem))
    cases ev with
    | ctxDone =>
      have hdone : s.isDone ctx = true := by
        rcases hctx with h | h
        · exact h
        · simp at h
      rw [List.foldl_cons, monitorEventsSelect_returned ctx serviceID rest _
        (by simp [monitorEventsSelect, hret, hdone])]
      simp [monitorEventsSelect, hret, hdone, monitorEventsLoop, WaitSystem.toWatchRun]
    | message msg inspect =>
      rw [List.foldl_cons, ih _ (by simp [monitorEventsSelect, hret])
        (hrest _ (by cases ctx <;> simp [monitorEventsSelect, hret, WaitSystem.isDone]))]
      simp [monitorEventsSelect, hret, monitorEventsLoop, WaitSystem.toWatchRun]
    | feedError err =>
      rw [List.foldl_cons, ih _ (by simp [monitorEventsSelect, hret])
        (hrest _ (by cases ctx <;> simp [monitorEventsSelect, hret, WaitSystem.isDone]))]
      simp [monitorEventsSelect, hret, monitorEventsLoop, WaitSystem.toWatchRun]

/-- A sequential run that is blocked in the end was blocked after its first
event. -/
theorem WaitForServiceLoop_head (serviceID : String) (e : WaitEvent) (rest : List WaitEvent)
    (st : WaitRun) (hst : st.result = Resolution.blocked)
    (hblocked : (WaitForServiceLoop serviceID (e :: rest) st).result = Resolution.blocked) :
    (WaitForServiceLoop serviceID [e] st).result = Resolution.blocked := by
  cases e with
  | signal => simp [WaitForServiceLoop] at hblocked
  | ctxDone => simp [WaitForServiceLoop] at hblocked
  | message msg inspect => simpa [WaitForServiceLoop] using hst
  | feedError err => simpa [WaitForServiceLoop] using hst
  | tick inspect tasks =>
    simp only [WaitForServiceLoop] at hblocked ⊢
    split_ifs at hblocked ⊢ with h1 h2 <;> exact hst

/-- One event of the sequential run and the actions it stands for: from a state
in which `WaitForService` is blocked, `done` is open and both goroutines are in
their loops, the system ends in the state the sequential run records, and when
that is still blocked the system is again in such a state. -/
theorem WaitSystem_event (serviceID : String) (e : WaitEvent) (s : WaitSystem)
    (hres : s.result = Resolution.blocked) (hchk : s.checkReturned = false)
    (hwatch : s.watchReturned = false) (hcl : s.doneCloses = 0) :
    (WaitSystem.run serviceID e.actions s).toWaitRun
        = WaitForServiceLoop serviceID [e] s.toWaitRun ∧
    ((WaitForServiceLoop serviceID [e] s.toWaitRun).result = Resolution.blocked →
      (WaitSystem.run serviceID e.actions s).result = Resolution.blocked ∧
      (WaitSystem.run serviceID e.actions s).checkReturned = false ∧
      (WaitSystem.run serviceID e.actions s).watchReturned = false ∧
      (WaitSystem.run serviceID e.actions s).doneCloses = 0) := by
  cases e with
  | signal =>
    simp [WaitEvent.actions, WaitSystem.run, WaitSystem.step, WaitForServiceSelect,
      WaitForServiceLoop, WaitSystem.toWaitRun, hres]
  | ctxDone =>
    simp [WaitEvent.actions, WaitSystem.run, WaitSystem.step, WaitForServiceSelect,
      WaitForServiceLoop, WaitSystem.toWaitRun, WaitSystem.isDone, hres]
  | message msg inspect =>
    simp [WaitEvent.actions, WaitSystem.run, WaitSystem.step, monitorEventsSelect,
      WaitForServiceLoop, WaitSystem.toWaitRun, hres, hchk, hwatch, hcl]
  | feedError err =>
    simp [WaitEvent.actions, WaitSystem.run, WaitSystem.step, monitorEventsSelect,
      WaitForServiceLoop, WaitSystem.toWaitRun, hres, hchk, hwatch, hcl]
  | tick inspect tasks =>
    have hcr := checkServiceTick_closed_eq_returned serviceID s.lastState inspect tasks
    by_cases hclosed : (checkServiceTick serviceID s.lastState inspect tasks).closed = true
    · simp [WaitEvent.actions, WaitSystem.run, WaitSystem.step, checkServiceSelect,
        WaitForServiceSelect, WaitForServiceLoop, WaitSystem.toWaitRun, hres, hchk, hwatch,
        hcl, hclosed, ← hcr]
    · have hret : (checkServiceTick serviceID s.lastState inspect tasks).returned = false := by
        rw [← hcr]
        simpa using hclosed
      simp [WaitEvent.actions, WaitSystem.run, WaitSystem.step, checkServiceSelect,
        WaitForServiceSelect, WaitForServiceLoop, WaitSystem.toWaitRun, hres, hchk, hwatch,
        hcl, hclosed, hret]

/-- The system run over the actions of a list of events, as long as the
sequential run over these events is blocked in the end, ends in the state the
sequential run records. -/
theorem WaitSystem_run_actions (serviceID : String) (events : List WaitEvent) (s : WaitSystem)
    (hres : s.result = Resolution.blocked) (hchk : s.checkReturned = false)
    (hwatch : s.watchReturned = false) (hcl : s.doneCloses = 0)
    (hblocked : (WaitForServiceLoop serviceID events s.toWaitRun).result = Resolution.blocked) :
    (WaitSystem.run serviceID (events.flatMap WaitEvent.actions) s).toWaitRun
        = WaitForServiceLoop serviceID events s.toWaitRun ∧
    (WaitSystem.run serviceID (events.flatMap WaitEvent.actions) s).result
        = Resolution.blocked ∧
    (WaitSystem.run serviceID (events.flatMap WaitEvent.actions) s).checkReturned = false ∧
    (WaitSystem.run serviceID (events.flatMap WaitEvent.actions) s).watchReturned = false ∧
    (WaitSystem.run serviceID (events.flatMap WaitEvent.actions) s).doneCloses = 0 := by
  induction events generalizing s with
  | nil => exact ⟨rfl, hres, hchk, hwatch, hcl⟩
  | cons e rest ih =>
    have hhead := WaitForServiceLoop_head serviceID e rest s.toWaitRun hres hblocked
    obtain ⟨hview, hinv⟩ := WaitSystem_event serviceID e s hres hchk hwatch hcl
    obtain ⟨hres1, hchk1, hwatch1, hcl1⟩ := hinv hhead
    have hsplit : WaitForServiceLoop serviceID (e :: rest) s.toWaitRun
        = WaitForServiceLoop serviceID rest (WaitForServiceLoop serviceID [e] s.toWaitRun) :=
      WaitForServiceLoop_append serviceID [e] rest s.toWaitRun hhead
    have hrun : WaitSystem.run serviceID ((e :: rest).flatMap WaitEvent.actions) s
        = WaitSystem.run serviceID (rest.flatMap WaitEvent.actions)
            (WaitSystem.run serviceID e.actions s) := by
      simp [WaitSystem.run, List.flatMap_cons, List.foldl_append]
    rw [hsplit, ← hview] at hblocked ⊢
    rw [hrun]
    exact ih _ hres1 hchk1 hwatch1 hcl1 hblocked

/-- The system of three parties agrees with the sequential run `WaitForService`:
for every list of events after which the sequential run is blocked, and for one
more event of any kind (so up to and including the event that resolves the
call), the system run over the actions these events stand for ends in the state
the sequential run records: lines, calls, `lastState`, closes of `done`, polls,
whether `checkService` returned, whether `cancel` ran, and the resolution. -/
theorem WaitSystem_toWaitRun (serviceID : String) (pre : List WaitEvent) (e : WaitEvent)
    (hblocked : (WaitForService serviceID pre).result = Resolution.blocked) :
    (WaitSystem.run serviceID (pre.flatMap WaitEvent.actions) WaitSystem.start).toWaitRun
        = WaitForService serviceID pre ∧
    (WaitSystem.run serviceID ((pre ++ [e]).flatMap WaitEvent.actions)
        WaitSystem.start).toWaitRun
        = WaitForService serviceID (pre ++ [e]) := by
  have hstart : WaitSystem.start.toWaitRun = WaitRun.start := rfl
  simp only [WaitForService] at hblocked ⊢
  rw [← hstart] at hblocked ⊢
  obtain ⟨hview, hres, hchk, hwatch, hcl⟩ :=
    WaitSystem_run_actions serviceID pre WaitSystem.start rfl rfl rfl rfl hblocked
  refine ⟨hview, ?_⟩
  rw [WaitForServiceLoop_append serviceID pre [e] _ hblocked, ← hview]
  have hrun : WaitSystem.run serviceID ((pre ++ [e]).flatMap WaitEvent.actions)
        WaitSystem.start
      = WaitSystem.run serviceID e.actions
          (WaitSystem.run serviceID (pre.flatMap WaitEvent.actions) WaitSystem.start) := by
    simp [WaitSystem.run, List.flatMap_append, List.foldl_append]
  rw [hrun]
  exact (WaitSystem_event serviceID e _ hres hchk hwatch hcl).1

/-! ### Cancelling the shared context -/

/-- C20: take any schedule `pre` after which `WaitForService` is still blocked
and `done` is open (state `s`), and let its `select` take the signal case with a
signal delivered, or the context case with the context of the caller cancelled
(state `s₁`).  Then `WaitForService` has returned `deployment cancelled` for the
signal and `context cancelled` for the context, `cancel` of the shared derived
context has run and `done` is still open; with `done` open no case of the
`select` returns nil.  Before that, with the context of the caller not done,
neither goroutine can leave through `ctx.Done()`.  After it, along every further
schedule `post` (state `s₂`) the resolution stays, the shared context stays done,
and the `ctx.Done()` case of `checkService` and of `monitorEvents` is ready:
taking it, the goroutine returns, and nothing else changes (no poll, line or
call). -/
theorem WaitSystem_cancelled (serviceID : String) (pre post : List WaitAction) (c : MainCase)
    (s s₁ s₂ : WaitSystem)
    (hs : s = WaitSystem.run serviceID pre WaitSystem.start)
    (hs₁ : s₁ = s.step serviceID (WaitAction.main c))
    (hs₂ : s₂ = WaitSystem.run serviceID post s₁)
    (hblocked : s.result = Resolution.blocked) (hopen : s.doneCloses = 0)
    (hcase : c = MainCase.signal ∧ s.signalled = true ∨
      c = MainCase.ctxDone ∧ s.parentDone = true) :
    (s₁.result = Resolution.returned c.err ∧ c.err ≠ none ∧ s₁.cancelCalled = true ∧
      s₁.doneCloses = 0) ∧
    (∀ c0 : MainCase,
      (s.step serviceID (WaitAction.main c0)).result ≠ Resolution.returned none) ∧
    (s.parentDone = false →
      s.step serviceID (WaitAction.check CheckEvent.ctxDone) = s ∧
      s.step serviceID (WaitAction.watch WatchEvent.ctxDone) = s) ∧
    (s₂.result = Resolution.returned c.err ∧ s₂.isDone Ctx.derived = true) ∧
    s₂.step serviceID (WaitAction.check CheckEvent.ctxDone)
      = { s₂ with checkReturned := true } ∧
    s₂.step serviceID (WaitAction.watch WatchEvent.ctxDone)
      = { s₂ with watchReturned := true } := by
  have hcancel : s.cancelCalled = false := by
    rw [hs] at hblocked ⊢
    exact WaitSystem_run_blocked serviceID pre WaitSystem.start rfl hblocked
  have h1 : s₁.result = Resolution.returned c.err ∧ c.err ≠ none ∧ s₁.cancelCalled = true ∧
      s₁.doneCloses = 0 := by
    rw [hs₁]
    rcases hcase with ⟨hc, hsig⟩ | ⟨hc, hpar⟩
    · subst hc
      simp [WaitSystem.step, WaitForServiceSelect, hblocked, hsig, hopen, MainCase.err]
    · subst hc
      simp [WaitSystem.step, WaitForServiceSelect, hblocked, hpar, hopen, MainCase.err,
        WaitSystem.isDone]
  have hdone₁ : s₁.isDone Ctx.derived = true := by
    simp [WaitSystem.isDone, h1.2.2.1]
  have hres₂ : s₂.result = Resolution.returned c.err := by
    rw [hs₂, (WaitSystem_run_kept serviceID post s₁).1 (by rw [h1.1]; simp), h1.1]
  have hdone₂ : s₂.isDone Ctx.derived = true := by
    rw [hs₂]
    exact (WaitSystem_run_kept serviceID post s₁).2 hdone₁
  refine ⟨h1, ?_, ?_, ⟨hres₂, hdone₂⟩, ?_, ?_⟩
  · intro c0
    cases c0 <;> simp only [WaitSystem.step, WaitForServiceSelect] <;> split_ifs <;>
      simp_all
  · intro hpar
    have hnot : s.isDone Ctx.derived = false := by
      simp [WaitSystem.isDone, hpar, hcancel]
    constructor
    · simp only [WaitSystem.step, checkServiceSelect, hnot]
      split_ifs <;> simp_all
    · simp only [WaitSystem.step, monitorEventsSelect, hnot]
      split_ifs <;> simp_all
  · simp only [WaitSystem.step, checkServiceSelect, hdone₂]
    split_ifs with h
    · cases s₂
      simp_all
    · rfl
  · simp only [WaitSystem.step, monitorEventsSelect, hdone₂]
    split_ifs with h
    · cases s₂
      simp_all
    · rfl

/-- C20 at two schedules: a signal, and a cancelled context of the caller, each
after `checkService` saw `updating`, each followed by a tick and a feed error
that the goroutines still find ready. -/
theorem WaitSystem_cancelled_witness :
    (let s := WaitSystem.run "svc" signalSchedule WaitSystem.start
     let s₁ := s.step "svc" (WaitAction.main MainCase.signal)
     let s₂ := WaitSystem.run "svc" lateSchedule s₁
     (s₁.result = Resolution.returned (some "deployment cancelled") ∧
        MainCase.signal.err ≠ none ∧ s₁.cancelCalled = true ∧ s₁.doneCloses = 0) ∧
      (∀ c0 : MainCase,
        (s.step "svc" (WaitAction.main c0)).result ≠ Resolution.returned none) ∧
      (s.parentDone = false →
        s.step "svc" (WaitAction.check CheckEvent.ctxDone) = s ∧
        s.step "svc" (WaitAction.watch WatchEvent.ctxDone) = s) ∧
      (s₂.result = Resolution.returned (some "deployment cancelled") ∧
        s₂.isDone Ctx.derived = true) ∧
      s₂.step "svc" (WaitAction.check CheckEvent.ctxDone)
        = { s₂ with checkReturned := true } ∧
      s₂.step "svc" (WaitAction.watch WatchEvent.ctxDone)
        = { s₂ with watchReturned := true }) ∧
    (let s := WaitSystem.run "svc" cancelSchedule WaitSystem.start
     let s₁ := s.step "svc" (WaitAction.main MainCase.ctxDone)
     let s₂ := WaitSystem.run "svc" lateSchedule s₁
     (s₁.result = Resolution.returned (some "context cancelled") ∧
        MainCase.ctxDone.err ≠ none ∧ s₁.cancelCalled = true ∧ s₁.doneCloses = 0) ∧
      (∀ c0 : MainCase,
        (s.step "svc" (WaitAction.main c0)).result ≠ Resolution.returned none) ∧
      (s.parentDone = false →
        s.step "svc" (WaitAction.check CheckEvent.ctxDone) = s ∧
        s.step "svc" (WaitAction.watch WatchEvent.ctxDone) = s) ∧
      (s₂.result = Resolution.returned (some "context cancelled") ∧
        s₂.isDone Ctx.derived = true) ∧
      s₂.step "svc" (WaitAction.check CheckEvent.ctxDone)
        = { s₂ with checkReturned := true } ∧
      s₂.step "svc" (WaitAction.watch WatchEvent.ctxDone)
        = { s₂ with watchReturned := true }) :=
  ⟨WaitSystem_cancelled "svc" signalSchedule lateSchedule MainCase.signal _ _ _ rfl rfl rfl
      (by decide) (by decide) (Or.inl ⟨rfl, by decide⟩),
   WaitSystem_cancelled "svc" cancelSchedule lateSchedule MainCase.ctxDone _ _ _ rfl rfl rfl
      (by decide) (by decide) (Or.inr ⟨rfl, by decide⟩)⟩

end Dockboy
